import Mathlib

/-!
# Houston CanSat ground station: packet codec

A shallow embedding of `src/main.cpp` (CRC-8, command encoder, scalar
unpacking, telemetry decoder, scientific decoder, packet dispatch) together
with theorems about it.

Conventions of the embedding.

* A `uint8_t` is a `Fin 256`; every computed machine integer is a `Nat` or an
  `Int`, with an explicit reduction modulo `2^w` wherever the C++ narrows.
* A `const uint8_t* buffer` is the function giving the byte at each offset
  from the pointer.  A pointer `&buffer[k]` handed to a helper is the offset
  `k` handed to the helper.
* Code that reads a buffer lives in the monad `Rd`, which returns the value
  computed together with the list of buffer indices read, in program order.
* A finite `double`/`float` is the rational number it holds; each `double` or
  `float` division of the source is the exact quotient rounded to nearest, ties
  to even, at 53 or 24 bits (`divDouble`, `divFloat`).
* The diagnostic a decoder prints on rejection is recorded as a `Reject`.
* `TARGET_TEAM_ID` is a build-time macro; every function that uses it takes
  its value as the first argument.
-/

namespace Houston

/-! ## Buffers and instrumented reads -/

/-- One `uint8_t`. -/
abbrev Byte := Fin 256

/-- Memory seen through a `const uint8_t*`: the byte at each offset. -/
abbrev Buffer := Nat → Byte

/-- The buffer holding the bytes of a list (zero beyond its end). -/
def bufOfList (l : List Byte) : Buffer := fun i => l.getD i 0

/-- A computation over a buffer: its value and the indices it read, in order. -/
def Rd (α : Type) : Type := Buffer → α × List Nat

/-- Return a value without reading. -/
def Rd.ret {α : Type} (a : α) : Rd α := fun _ => (a, [])

/-- Sequence two computations, concatenating their read logs. -/
def Rd.andThen {α β : Type} (x : Rd α) (f : α → Rd β) : Rd β := fun buf =>
  let r := x buf
  let q := f r.1 buf
  (q.1, r.2 ++ q.2)

instance : Monad Rd where
  pure := Rd.ret
  bind := Rd.andThen

/-- The expression `buffer[i]`: the byte at index `i`, logged as read. -/
def rd (i : Nat) : Rd Nat := fun buf => ((buf i).val, [i])

/-- The value a computation returns on a buffer. -/
def Rd.value {α : Type} (x : Rd α) (buf : Buffer) : α := (x buf).1

/-- The indices a computation reads on a buffer. -/
def Rd.reads {α : Type} (x : Rd α) (buf : Buffer) : List Nat := (x buf).2

/-! ## Configuration constants (`#define`s of the source) -/

def PACKET_ID_COMMAND : Nat := 0x00
def PACKET_ID_TELEMETRY_BASE : Nat := 0xA0
def PACKET_ID_SCIENTIFIC_BASE : Nat := 0x10

def CMD_TELEMETRY_REQUEST : Nat := 0x20
def CMD_SCIENTIFIC_REQUEST : Nat := 0x10
def CMD_TEAM_ID_MASK : Nat := 0x0F

def BITMAP_TELEMETRY_FLAG : Nat := 0x08
def BITMAP_LOCALISATION_FLAG : Nat := 0x04
def BITMAP_SECONDARY_PAYLOAD_FLAG : Nat := 0x02
def BITMAP_DETONATION_EVENT_FLAG : Nat := 0x01

/-! ## Floating point

A finite `double` or `float` is the rational number it holds.  The only
floating-point operation of the source is the division of an integer by one of
the constants `10`, `100`, `1000`, `100000`, which both formats hold exactly.
The integer is a 16-bit one where the division is a `float` division and a
sign-extended 24-bit one where it is a `double` division, so its conversion to
the format is exact.  IEEE 754 division returns the exact quotient rounded to
nearest, ties to even, at 53 bits (`double`) or 24 bits (`float`).  Every such
quotient is zero or lies in the normal range of its format
(`binaryExponent_quotient`), so the exponent bounds of the formats are never
reached. -/

/-- A finite `double`, as the rational number it holds. -/
abbrev CDouble := ℚ

/-- A finite `float`, as the rational number it holds. -/
abbrev CFloat := ℚ

/-- The integer nearest to `m`, a tie going to the even neighbour. -/
def roundHalfEven (m : ℚ) : Int :=
  if m - ⌊m⌋ < 1 / 2 then ⌊m⌋
  else if 1 / 2 < m - ⌊m⌋ then ⌊m⌋ + 1
  else if ⌊m⌋ % 2 = 0 then ⌊m⌋ else ⌊m⌋ + 1

/-- The binary exponent of a nonzero rational: the `e` with `2^e ≤ |x| < 2^(e+1)`. -/
def binaryExponent (x : ℚ) : Int := Int.log 2 |x|

/-- IEEE 754 rounding to nearest, ties to even, at precision `p` bits: `x` is
rounded to the nearest multiple of `2^(e - (p - 1))`, `e` its binary exponent. -/
def roundBinary (p : Nat) (x : ℚ) : ℚ :=
  if x = 0 then 0
  else
    roundHalfEven (x / 2 ^ (binaryExponent x - ((p : Int) - 1)))
      * 2 ^ (binaryExponent x - ((p : Int) - 1))

/-- The C++ quotient `a / b` computed in `double`. -/
def divDouble (a b : ℚ) : CDouble := roundBinary 53 (a / b)

/-- The C++ quotient `a / b` computed in `float`. -/
def divFloat (a b : ℚ) : CFloat := roundBinary 24 (a / b)

/-! ## Global state -/

/-- The C++ `struct TelemetryData`. -/
structure TelemetryData where
  latitude : CDouble
  longitude : CDouble
  altitude : CFloat
  verticalVel : CFloat
  timestamp : Nat
  valid : Bool

/-- The process-wide variables `lastTelemetry`, `lastScientificPacket`,
`lastScientificSize` and `hasScientificPacket`.  `lastScientificPacket` is the
memory starting at the array's first element; the array itself is indices
`0..81`. -/
structure GroundState where
  lastTelemetry : TelemetryData
  lastScientificPacket : Nat → Byte
  lastScientificSize : Nat
  hasScientificPacket : Bool

/-- The initial values of the globals (`= {0}`, `0`, `false`). -/
def GroundState.init : GroundState where
  lastTelemetry := ⟨0, 0, 0, 0, 0, false⟩
  lastScientificPacket := fun _ => 0
  lastScientificSize := 0
  hasScientificPacket := false

/-! ## CRC-8 -/

/-- One pass of the inner loop body of `calculateCRC8` on the `uint8_t crc`. -/
def crcStep (crc : Nat) : Nat :=
  if crc &&& 0x80 ≠ 0 then ((crc <<< 1) ^^^ 0x07) % 256 else (crc <<< 1) % 256

/-- The outer loop of `calculateCRC8` from index `i`, with `n` iterations left. -/
def calculateCRC8.loop : Nat → Nat → Nat → Rd Nat
  | _, 0, crc => pure crc
  | i, n + 1, crc => do
      let d ← rd i
      calculateCRC8.loop (i + 1) n (crcStep^[8] (crc ^^^ d))

/-- The function `calculateCRC8(data, length)`. -/
def calculateCRC8 (length : Nat) : Rd Nat :=
  calculateCRC8.loop 0 length 0x00

/-- CRC of a byte list: `calculateCRC8` run on the list's bytes and length. -/
def crc8 (b : List Byte) : Nat := (calculateCRC8 b.length).value (bufOfList b)

/-! ## Command packet -/

/-- The function `buildCommandPacket`: the bytes stored at `buffer[0]` and
`buffer[1]`, in index order. -/
def buildCommandPacket (TARGET_TEAM_ID : Nat) (requestTelemetry requestScientific : Bool) :
    List Nat :=
  let cmdByte := 0
  let cmdByte := if requestTelemetry then cmdByte ||| CMD_TELEMETRY_REQUEST else cmdByte
  let cmdByte := if requestScientific then cmdByte ||| CMD_SCIENTIFIC_REQUEST else cmdByte
  let cmdByte := (cmdByte ||| (TARGET_TEAM_ID &&& CMD_TEAM_ID_MASK)) % 256
  [PACKET_ID_COMMAND, cmdByte]

/-! ## Scalar unpacking -/

/-- Conversion of a value to `int32_t` (two's complement wrap). -/
def toInt32 (n : Nat) : Int :=
  if n % 2 ^ 32 < 2 ^ 31 then (n % 2 ^ 32 : Nat) else ((n % 2 ^ 32 : Nat) : Int) - 2 ^ 32

/-- Conversion of a value to `int16_t` (two's complement wrap). -/
def toInt16 (n : Nat) : Int :=
  if n % 2 ^ 16 < 2 ^ 15 then (n % 2 ^ 16 : Nat) else ((n % 2 ^ 16 : Nat) : Int) - 2 ^ 16

/-- The function `unpack24bitSigned(&buffer[off])`. -/
def unpack24bitSigned (off : Nat) : Rd Int := do
  let b0 ← rd off
  let b1 ← rd (off + 1)
  let b2 ← rd (off + 2)
  let value := (b0 <<< 16) ||| (b1 <<< 8) ||| b2
  let value := if value &&& 0x00800000 ≠ 0 then value ||| 0xFF000000 else value
  pure (toInt32 value)

/-- The function `unpack16bitSigned(&buffer[off])`. -/
def unpack16bitSigned (off : Nat) : Rd Int := do
  let b0 ← rd off
  let b1 ← rd (off + 1)
  pure (toInt16 ((b0 <<< 8) ||| b1))

/-- The function `unpack16bit(&buffer[off])`. -/
def unpack16bit (off : Nat) : Rd Nat := do
  let b0 ← rd off
  let b1 ← rd (off + 1)
  pure (((b0 <<< 8) ||| b1) % 2 ^ 16)

/-- The function `unpack32bit(&buffer[off])`. -/
def unpack32bit (off : Nat) : Rd Nat := do
  let b0 ← rd off
  let b1 ← rd (off + 1)
  let b2 ← rd (off + 2)
  let b3 ← rd (off + 3)
  pure (((b0 <<< 24) ||| (b1 <<< 16) ||| (b2 <<< 8) ||| b3) % 2 ^ 32)

/-! ## Telemetry decoder -/

/-- The four diagnostics a decoder prints before it gives up: "packet too
short", "Invalid ... packet ID", "... from different team", "CRC mismatch". -/
inductive Reject where
  | TooShort
  | WrongType
  | WrongTeam
  | ChecksumMismatch
  deriving DecidableEq

/-- What `parseTelemetryPacket` leaves behind: its `bool` result, the
diagnostic printed, and the content of the `TelemetryData& data` argument. -/
structure TelemetryOutcome where
  ok : Bool
  diag : Option Reject
  data : TelemetryData

/-- The function `parseTelemetryPacket(buffer, length, data)`. -/
def parseTelemetryPacket (TARGET_TEAM_ID : Nat) (length : Nat) (data : TelemetryData) :
    Rd TelemetryOutcome :=
  if length < 16 then
    pure ⟨false, some Reject.TooShort, data⟩
  else do
    let packetId ← rd 0
    let teamId := packetId &&& 0x0F
    let baseId := packetId &&& 0xF0
    if baseId ≠ PACKET_ID_TELEMETRY_BASE then
      pure ⟨false, some Reject.WrongType, data⟩
    else if teamId ≠ TARGET_TEAM_ID then
      pure ⟨false, some Reject.WrongTeam, data⟩
    else do
      let receivedCRC ← rd 15
      let calculatedCRC ← calculateCRC8 15
      if receivedCRC ≠ calculatedCRC then
        pure ⟨false, some Reject.ChecksumMismatch, data⟩
      else do
        let latScaled ← unpack24bitSigned 1
        let lonScaled ← unpack24bitSigned 4
        let velScaled ← unpack16bitSigned 7
        let altScaled ← unpack16bit 9
        let timestamp ← unpack32bit 11
        let data := { data with latitude := divDouble (latScaled : ℚ) 100000 }
        let data := { data with longitude := divDouble (lonScaled : ℚ) 100000 }
        let data := { data with altitude := divFloat (altScaled : ℚ) 10 }
        let data := { data with verticalVel := divFloat (velScaled : ℚ) 100 }
        let data := { data with timestamp := timestamp }
        let data := { data with valid := true }
        pure ⟨true, none, data⟩

/-! ## Scientific decoder -/

/-- The library call `memcpy(dest, buffer, n)`: reads `buffer[0..n)` and
overwrites `dest[0..n)` with it. -/
def memcpy (dest : Nat → Byte) (n : Nat) : Rd (Nat → Byte) := fun buf =>
  (fun i => if i < n then buf i else dest i, List.range n)

/-- One printed BMP sample: `pressure / 10.0f` and `temperature / 100.0f`. -/
structure BmpSample where
  pressure : CFloat
  temperature : CFloat
  deriving DecidableEq

/-- The values printed under "Secondary Payload:". -/
structure SecondaryPayload where
  uvMean : CFloat
  uvStd : CFloat
  samples : List BmpSample
  deriving DecidableEq

/-- One printed "Detonation [k]" line: `(float)distance` and the azimuth. -/
structure DetonationPosition where
  distance : Nat
  azimuth : CFloat
  deriving DecidableEq

/-- The values printed under "Localisation:". -/
structure Localisation where
  probeLat : CDouble
  probeLon : CDouble
  detonations : List DetonationPosition
  deriving DecidableEq

/-- Everything `parseScientificPacket` prints for an accepted packet: size,
timestamp, bitmap, the four flag digits, and each optional section (absent
when its `if` is not entered). -/
structure ScientificReport where
  size : Nat
  timestamp : Nat
  bitmap : Nat
  flagDET : Nat
  flagSEC : Nat
  flagLOC : Nat
  flagTEL : Nat
  secondary : Option SecondaryPayload
  detonation : Option (List Nat)
  localisation : Option Localisation
  miniTelemetry : Option (List Nat)
  deriving DecidableEq

/-- What `parseScientificPacket` leaves behind: the globals, the diagnostic
printed on rejection, and the report printed on acceptance. -/
structure ScientificOutcome where
  state : GroundState
  diag : Option Reject
  report : Option ScientificReport

/-- The BMP loop `for (int i = 0; i < 4 && (30 + i*4 + 3) < length; i++)`,
entered at `i` with `fuel` iterations allowed (4 from `i = 0` is never
exhausted before the test `i < 4` fails). -/
def bmpSamples (length : Nat) : Nat → Nat → Rd (List BmpSample)
  | 0, _ => pure []
  | fuel + 1, i =>
    if i < 4 ∧ 30 + i * 4 + 3 < length then do
      let pressure ← unpack16bit (30 + i * 4)
      let temperature ← unpack16bitSigned (30 + i * 4 + 2)
      let rest ← bmpSamples length fuel (i + 1)
      pure (⟨divFloat (pressure : ℚ) 10, divFloat (temperature : ℚ) 100⟩ :: rest)
    else
      pure []

/-- The detonation dump `for (int i = 0; i < 20 && (6 + i) < length; i++)`. -/
def detonationBytes (length : Nat) : Nat → Nat → Rd (List Nat)
  | 0, _ => pure []
  | fuel + 1, i =>
    if i < 20 ∧ 6 + i < length then do
      let b ← rd (6 + i)
      let rest ← detonationBytes length fuel (i + 1)
      pure (b :: rest)
    else
      pure []

/-- The localisation loop `while (locIdx < length - 1 && detCount < 4)`. -/
def detonationPositions (length : Nat) : Nat → Nat → Nat → Rd (List DetonationPosition)
  | 0, _, _ => pure []
  | fuel + 1, locIdx, detCount =>
    if locIdx < length - 1 ∧ detCount < 4 then do
      let distance ← unpack16bit locIdx
      let azimuthScaled ← unpack16bitSigned (locIdx + 2)
      let azimuth := divFloat (azimuthScaled : ℚ) 1000
      let rest ← detonationPositions length fuel (locIdx + 4) (detCount + 1)
      pure (⟨distance, azimuth⟩ :: rest)
    else
      pure []

/-- The mini-telemetry dump
`for (int i = 0; i < 10 && (telStart + i) < length - 1; i++)`. -/
def miniTelemetryBytes (length telStart : Nat) : Nat → Nat → Rd (List Nat)
  | 0, _ => pure []
  | fuel + 1, i =>
    if i < 10 ∧ telStart + i < length - 1 then do
      let b ← rd (telStart + i)
      let rest ← miniTelemetryBytes length telStart fuel (i + 1)
      pure (b :: rest)
    else
      pure []

/-- The section "Parse Secondary Payload" of `parseScientificPacket`. -/
def parseSecondary (length bitmap : Nat) : Rd (Option SecondaryPayload) :=
  if bitmap &&& BITMAP_SECONDARY_PAYLOAD_FLAG ≠ 0 ∧ length ≥ 46 then do
    let uvMean ← unpack16bitSigned 26
    let uvStd ← unpack16bitSigned 28
    let samples ← bmpSamples length 4 0
    pure (some ⟨divFloat (uvMean : ℚ) 100, divFloat (uvStd : ℚ) 100, samples⟩)
  else
    pure none

/-- The section "Parse Detonation Event" of `parseScientificPacket`. -/
def parseDetonation (length bitmap : Nat) : Rd (Option (List Nat)) :=
  if bitmap &&& BITMAP_DETONATION_EVENT_FLAG ≠ 0 ∧ length ≥ 26 then do
    let raw ← detonationBytes length 20 0
    pure (some raw)
  else
    pure none

/-- The section "Parse Localisation" of `parseScientificPacket`. -/
def parseLocalisation (length bitmap : Nat) : Rd (Option Localisation) :=
  if bitmap &&& BITMAP_LOCALISATION_FLAG ≠ 0 ∧ length ≥ 71 then do
    let latScaled ← unpack24bitSigned 46
    let lonScaled ← unpack24bitSigned 49
    let dets ← detonationPositions length 4 52 0
    pure (some ⟨divDouble (latScaled : ℚ) 100000, divDouble (lonScaled : ℚ) 100000, dets⟩)
  else
    pure none

/-- The section "Parse Mini Telemetry" of `parseScientificPacket`. -/
def parseMiniTelemetry (length bitmap : Nat) : Rd (Option (List Nat)) :=
  if bitmap &&& BITMAP_TELEMETRY_FLAG ≠ 0 ∧ length ≥ 77 then do
    let telStart := length - 11
    let raw ← miniTelemetryBytes length telStart 10 0
    pure (some raw)
  else
    pure none

/-- The function `parseScientificPacket(buffer, length)`, with the globals it
updates passed in and out. -/
def parseScientificPacket (TARGET_TEAM_ID : Nat) (length : Nat) (s : GroundState) :
    Rd ScientificOutcome :=
  if length < 47 then
    pure ⟨s, some Reject.TooShort, none⟩
  else do
    let packetId ← rd 0
    let teamId := packetId &&& 0x0F
    let baseId := packetId &&& 0xF0
    if baseId ≠ PACKET_ID_SCIENTIFIC_BASE then
      pure ⟨s, some Reject.WrongType, none⟩
    else if teamId ≠ TARGET_TEAM_ID then
      pure ⟨s, some Reject.WrongTeam, none⟩
    else do
      let receivedCRC ← rd (length - 1)
      let calculatedCRC ← calculateCRC8 (length - 1)
      if receivedCRC ≠ calculatedCRC then
        pure ⟨s, some Reject.ChecksumMismatch, none⟩
      else do
        let copySize := if length < 82 then length else 82
        let stored ← memcpy s.lastScientificPacket copySize
        let s := { s with lastScientificPacket := stored }
        let s := { s with lastScientificSize := copySize }
        let s := { s with hasScientificPacket := true }
        let timestamp ← unpack32bit 1
        let bitmap ← rd 5
        let flagDET := if bitmap &&& BITMAP_DETONATION_EVENT_FLAG ≠ 0 then 1 else 0
        let flagSEC := if bitmap &&& BITMAP_SECONDARY_PAYLOAD_FLAG ≠ 0 then 1 else 0
        let flagLOC := if bitmap &&& BITMAP_LOCALISATION_FLAG ≠ 0 then 1 else 0
        let flagTEL := if bitmap &&& BITMAP_TELEMETRY_FLAG ≠ 0 then 1 else 0
        let secondary ← parseSecondary length bitmap
        let detonation ← parseDetonation length bitmap
        let localisation ← parseLocalisation length bitmap
        let miniTelemetry ← parseMiniTelemetry length bitmap
        pure ⟨s, none, some ⟨length, timestamp, bitmap, flagDET, flagSEC, flagLOC, flagTEL,
          secondary, detonation, localisation, miniTelemetry⟩⟩

/-! ## Packet reception -/

/-- The receive loop
`while (LoRa.available() && bytesRead < sizeof(buffer)) buffer[bytesRead++] = LoRa.read();`
over the bytes the radio still holds: the filled buffer and `bytesRead`. -/
def receiveBytes : List Byte → Nat → Buffer → Buffer × Nat
  | [], bytesRead, buffer => (buffer, bytesRead)
  | b :: rest, bytesRead, buffer =>
    if bytesRead < 82 then
      receiveBytes rest (bytesRead + 1) (Function.update buffer bytesRead b)
    else
      (buffer, bytesRead)

/-- The function `handleReceivedPacket()`.  `packetSize` is what
`LoRa.parsePacket()` returns, `incoming` the bytes the radio delivers,
`stack` and `tel` the uninitialised contents of the locals `buffer` and
`tel`; the result is the globals afterwards. -/
def handleReceivedPacket (TARGET_TEAM_ID : Nat) (packetSize : Int) (incoming : List Byte)
    (stack : Buffer) (tel : TelemetryData) (s : GroundState) : GroundState :=
  if packetSize = 0 then s
  else
    let filled := receiveBytes incoming 0 stack
    let buffer := filled.1
    let bytesRead := filled.2
    let packetId := (buffer 0).val
    if packetId = PACKET_ID_TELEMETRY_BASE ∨ packetId &&& 0xF0 = PACKET_ID_TELEMETRY_BASE then
      let r := (parseTelemetryPacket TARGET_TEAM_ID bytesRead tel).value buffer
      if r.ok then { s with lastTelemetry := r.data } else s
    else if packetId &&& 0xF0 = PACKET_ID_SCIENTIFIC_BASE then
      ((parseScientificPacket TARGET_TEAM_ID bytesRead s).value buffer).state
    else
      s

/-! ## Derived definitions used to state the theorems -/

/-- The record `parseTelemetryPacket` writes once the four checks have passed. -/
def telemetryDecoded (buf : Buffer) : TelemetryData where
  latitude := divDouble ((unpack24bitSigned 1).value buf : ℚ) 100000
  longitude := divDouble ((unpack24bitSigned 4).value buf : ℚ) 100000
  altitude := divFloat ((unpack16bit 9).value buf : ℚ) 10
  verticalVel := divFloat ((unpack16bitSigned 7).value buf : ℚ) 100
  timestamp := (unpack32bit 11).value buf
  valid := true

/-- The globals after `parseScientificPacket` has passed its four checks. -/
def scientificStored (length : Nat) (s : GroundState) (buf : Buffer) : GroundState where
  lastTelemetry := s.lastTelemetry
  lastScientificPacket :=
    (memcpy s.lastScientificPacket (if length < 82 then length else 82)).value buf
  lastScientificSize := if length < 82 then length else 82
  hasScientificPacket := true

/-- The report `parseScientificPacket` prints once the four checks have passed. -/
def scientificReport (length : Nat) (buf : Buffer) : ScientificReport where
  size := length
  timestamp := (unpack32bit 1).value buf
  bitmap := (buf 5).val
  flagDET := if (buf 5).val &&& BITMAP_DETONATION_EVENT_FLAG ≠ 0 then 1 else 0
  flagSEC := if (buf 5).val &&& BITMAP_SECONDARY_PAYLOAD_FLAG ≠ 0 then 1 else 0
  flagLOC := if (buf 5).val &&& BITMAP_LOCALISATION_FLAG ≠ 0 then 1 else 0
  flagTEL := if (buf 5).val &&& BITMAP_TELEMETRY_FLAG ≠ 0 then 1 else 0
  secondary := (parseSecondary length (buf 5).val).value buf
  detonation := (parseDetonation length (buf 5).val).value buf
  localisation := (parseLocalisation length (buf 5).val).value buf
  miniTelemetry := (parseMiniTelemetry length (buf 5).val).value buf

/-- The running CRC after feeding a list of byte values to the loop body of
`calculateCRC8`. -/
def crcFold (crc : Nat) (l : List Nat) : Nat :=
  l.foldl (fun c d => crcStep^[8] (c ^^^ d)) crc

/-- The first `n` bytes of a buffer, as a list. -/
def bufTake (buf : Buffer) (n : Nat) : List Byte := (List.range n).map buf

/-- A computation all of whose reads are below `n`, on every buffer. -/
def Rd.Within {α : Type} (x : Rd α) (n : Nat) : Prop :=
  ∀ buf : Buffer, ∀ i ∈ x.reads buf, i < n

/-- The unsigned value of a byte string read big-endian. -/
def bigEndian (l : List Byte) : Nat := l.foldl (fun acc b => acc * 256 + b.val) 0

/-- The two's-complement reading of a `w`-bit unsigned value. -/
def twosComplement (w u : Nat) : Int := if u < 2 ^ (w - 1) then (u : Int) else (u : Int) - 2 ^ w

/-! ## Polynomials over GF(2)

A polynomial over GF(2) is coded as the natural number whose bit `i` is the
coefficient of `x^i`; addition of polynomials is `^^^`, multiplication by `x`
is doubling. -/

/-- The generator `x^8 + x^2 + x + 1` of the CRC-8 with polynomial byte `0x07`. -/
def crcPoly : Nat := 0x107

/-- Product of two polynomials over GF(2) (carry-less multiplication). -/
def gf2Mul (q p : Nat) : Nat :=
  if q = 0 then 0 else (if q % 2 = 1 then p else 0) ^^^ 2 * gf2Mul (q / 2) p
termination_by q
decreasing_by omega

/-- Two polynomials that differ by a multiple of `p`. -/
def Gf2Cong (p a b : Nat) : Prop := ∃ q, a ^^^ b = gf2Mul q p

/-- Schoolbook long division by `p` of degree `d`, with `k` steps left: when
the coefficient of `x^(k-1+d)` is set, `p * x^(k-1)` is subtracted. -/
def gf2RemLoop (p d : Nat) : Nat → Nat → Nat
  | 0, r => r
  | k + 1, r => gf2RemLoop p d k (if r.testBit (k + d) then r ^^^ (p <<< k) else r)

/-- Remainder of the polynomial `a` modulo the polynomial `p` over GF(2). -/
def gf2Rem (a p : Nat) : Nat :=
  gf2RemLoop p (Nat.log2 p) (Nat.log2 a + 1 - Nat.log2 p) a

/-- The reference CRC-8 (polynomial 0x07, initial value 0x00, MSB first, no
reflection, no final XOR): the remainder of `M(x) * x^8` modulo
`x^8 + x^2 + x + 1`, where `M` is the message read MSB first. -/
def crc8Reference (b : List Byte) : Nat := gf2Rem (bigEndian b * 2 ^ 8) crcPoly

/-! ## Example packets -/

/-- A telemetry payload for team 3: latitude 4012345, longitude -312345,
velocity -250, altitude 12345, timestamp 123456. -/
def exampleTelemetryPayload : List Byte :=
  [0xA3, 0x3D, 0x39, 0x39, 0xFB, 0x3B, 0xE7, 0xFF, 0x06, 0x30, 0x39, 0x00, 0x01, 0xE2, 0x40]

/-- The payload above followed by its CRC (0x76). -/
def exampleTelemetry : Buffer := bufOfList (exampleTelemetryPayload ++ [0x76])

/-- The same packet sent by team 5, with a byte 15 that is then wrong. -/
def exampleTelemetryOtherTeam : Buffer :=
  bufOfList (0xA5 :: exampleTelemetryPayload.tail ++ [0x76])

/-- An arbitrary previous content of a `TelemetryData`. -/
def exampleOldData : TelemetryData := ⟨1, 2, 3, 4, 5, false⟩

/-- A 47-byte scientific packet of team 3 (timestamp 123456, bitmap 0x03:
detonation event and secondary payload), CRC 0x98 in byte 46. -/
def exampleScientific47Bytes : List Byte :=
  [0x13, 0x00, 0x01, 0xE2, 0x40, 0x03, 0xA5, 0x4D, 0xCA, 0x18, 0x25, 0x30, 0xBB, 0x1D, 0x6D, 0x13,
   0x2C, 0xDE, 0xD6, 0x23, 0x7B, 0x2E, 0xD9, 0x1E, 0x3F, 0x72, 0x1F, 0xCB, 0x19, 0x71, 0x17, 0x44,
   0x94, 0xD6, 0x49, 0x3C, 0x9D, 0x5C, 0x34, 0x60, 0xBE, 0x31, 0x20, 0x1E, 0x69, 0xFE, 0x98]

/-- The 47-byte example packet as a buffer. -/
def exampleScientific47 : Buffer := bufOfList exampleScientific47Bytes

/-- An 82-byte scientific packet of team 3 (timestamp 123457, bitmap 0x0F: all
four sections), CRC 0x81 in byte 81. -/
def exampleScientific82Bytes : List Byte :=
  [0x13, 0x00, 0x01, 0xE2, 0x41, 0x0F, 0xDA, 0xA0, 0xEE, 0xE8, 0xB9, 0x99, 0x7F, 0x5C, 0x7C, 0x29,
   0x99, 0xFD, 0xAF, 0xE5, 0x93, 0x25, 0x3C, 0xD6, 0x54, 0xAF, 0x4D, 0xFA, 0xD7, 0x14, 0x27, 0xA0,
   0xAE, 0xB3, 0xFE, 0xE9, 0x23, 0x2F, 0x8A, 0xF2, 0x21, 0x1F, 0x9E, 0xE4, 0x91, 0xC5, 0xB1, 0x0B,
   0xEC, 0xB5, 0x56, 0x3B, 0xFC, 0x1E, 0x6F, 0x93, 0x42, 0x7E, 0xCB, 0xC8, 0xFE, 0x29, 0x55, 0xE5,
   0xCD, 0x8E, 0x46, 0xDC, 0x8E, 0xD4, 0xB7, 0xC2, 0x76, 0x4D, 0x2A, 0x5A, 0x4D, 0x76, 0x77, 0x06,
   0xF8, 0x81]

/-- The 82-byte example packet as a buffer. -/
def exampleScientific82 : Buffer := bufOfList exampleScientific82Bytes

/-- The uninitialised local `buffer` of `handleReceivedPacket`, here all zero. -/
def exampleStack : Buffer := fun _ => 0

/-- A 47-byte scientific packet of team 3 with bitmap 0x00 (no optional
section), CRC 0x31 in byte 46. -/
def exampleScientificPlainBytes : List Byte :=
  [0x13, 0x00, 0x01, 0xE2, 0x42, 0x00, 0xE7, 0xEE, 0xE7, 0x61, 0x5E, 0xF3, 0x5F, 0x30, 0xE4, 0x9B,
   0x48, 0x2E, 0x15, 0xCA, 0xE7, 0x50, 0x07, 0x20, 0x1E, 0x12, 0x61, 0x7B, 0x0F, 0xED, 0xA7, 0xE1,
   0x64, 0x77, 0x96, 0xFF, 0x02, 0x2B, 0xEA, 0x8E, 0xD0, 0x2A, 0x82, 0xA1, 0x75, 0x93, 0x31]

/-- The bitmap-0x00 example packet as a buffer. -/
def exampleScientificPlain : Buffer := bufOfList exampleScientificPlainBytes

/-- A 77-byte scientific packet of team 3 with bitmap 0x0C (localisation and
telemetry tail), CRC 0x99 in byte 76. -/
def exampleScientific77Bytes : List Byte :=
  [0x13, 0x00, 0x01, 0xE2, 0x43, 0x0C, 0x0F, 0x23, 0x37, 0xCD, 0x37, 0x94, 0xC5, 0x22, 0x08, 0x00,
   0x6D, 0x6B, 0x1A, 0xF0, 0xC0, 0xCB, 0xD6, 0x25, 0x65, 0x8A, 0xAC, 0x2C, 0x9F, 0xAA, 0x07, 0xD1,
   0x3C, 0x44, 0x7E, 0x33, 0x05, 0x1E, 0xEE, 0xF9, 0x5A, 0x60, 0xE5, 0x61, 0x43, 0xD6, 0xC4, 0x3B,
   0xCA, 0xD7, 0x6C, 0x00, 0x8A, 0x9B, 0x0A, 0x6B, 0x5F, 0xC9, 0x33, 0x15, 0x4A, 0x6D, 0xE2, 0x84,
   0x04, 0xA8, 0x97, 0xC5, 0x25, 0x26, 0x2E, 0x6A, 0x7C, 0x07, 0xBC, 0xBE, 0x99]

/-- The 77-byte example packet as a buffer. -/
def exampleScientific77 : Buffer := bufOfList exampleScientific77Bytes

/-! ## Building and perturbing packets -/

/-- The byte holding the low eight bits of a number. -/
def byteOf (n : Nat) : Byte := ⟨n % 256, Nat.mod_lt _ (by decide)⟩

/-- The `w`-bit two's-complement code of an integer. -/
def encodeSigned (w : Nat) (v : Int) : Nat := (v % 2 ^ w).toNat

/-- The first 15 bytes of a telemetry packet: `0xA0 | team`, then latitude and
longitude (3 bytes each), velocity and altitude (2 bytes each) and timestamp (4
bytes), all big-endian, the signed ones in two's complement. -/
def telemetryPayload (team : Nat) (lat lon vel : Int) (alt ts : Nat) : List Byte :=
  [byteOf (0xA0 ||| team),
   byteOf (encodeSigned 24 lat / 65536), byteOf (encodeSigned 24 lat / 256),
   byteOf (encodeSigned 24 lat),
   byteOf (encodeSigned 24 lon / 65536), byteOf (encodeSigned 24 lon / 256),
   byteOf (encodeSigned 24 lon),
   byteOf (encodeSigned 16 vel / 256), byteOf (encodeSigned 16 vel),
   byteOf (alt / 256), byteOf alt,
   byteOf (ts / 16777216), byteOf (ts / 65536), byteOf (ts / 256), byteOf ts]

/-- The 16-byte telemetry packet: the payload followed by its `calculateCRC8`. -/
def telemetryPacket (team : Nat) (lat lon vel : Int) (alt ts : Nat) : List Byte :=
  telemetryPayload team lat lon vel alt ts
    ++ [byteOf (crc8 (telemetryPayload team lat lon vel alt ts))]

/-- Bitwise exclusive or of two bytes. -/
def byteXor (a b : Byte) : Byte :=
  ⟨a.val ^^^ b.val, Nat.xor_lt_two_pow (n := 8) a.isLt b.isLt⟩

/-- Bytewise exclusive or of two byte sequences. -/
def xorBytes (a b : List Byte) : List Byte := List.zipWith byteXor a b

/-- The byte sequence with bit `k` (0 the least significant) of byte `i` flipped. -/
def flipBit (b : List Byte) (i k : Nat) : List Byte :=
  b.set i (byteXor (b.getD i 0) (byteOf (2 ^ k)))

/-- The buffer with bit `k` (0 the least significant) of byte `i` flipped. -/
def flipBufferBit (buf : Buffer) (i k : Nat) : Buffer :=
  Function.update buf i (byteXor (buf i) (byteOf (2 ^ k)))

/-- The value at `x = 1` of a polynomial over GF(2): the parity of its number
of terms. -/
def gf2Parity (a : Nat) : Nat :=
  if a = 0 then 0 else (a % 2 + gf2Parity (a / 2)) % 2
termination_by a
decreasing_by omega

/-! ## Basic facts about instrumented reads -/

section RdFacts

variable {α β : Type}

@[simp] theorem Rd.value_pure (a : α) (buf : Buffer) : (pure a : Rd α).value buf = a :=
  Eq.trans rfl rfl

@[simp] theorem Rd.reads_pure (a : α) (buf : Buffer) : (pure a : Rd α).reads buf = [] :=
  Eq.trans rfl rfl

@[simp] theorem Rd.value_bind (x : Rd α) (f : α → Rd β) (buf : Buffer) :
    (x >>= f).value buf = (f (x.value buf)).value buf := Eq.trans rfl rfl

@[simp] theorem Rd.reads_bind (x : Rd α) (f : α → Rd β) (buf : Buffer) :
    (x >>= f).reads buf = x.reads buf ++ (f (x.value buf)).reads buf := Eq.trans rfl rfl

@[simp] theorem Rd.value_rd (i : Nat) (buf : Buffer) : (rd i).value buf = (buf i).val :=
  Eq.trans rfl rfl

@[simp] theorem Rd.reads_rd (i : Nat) (buf : Buffer) : (rd i).reads buf = [i] :=
  Eq.trans rfl rfl

theorem Rd.value_ite (c : Prop) [Decidable c] (x y : Rd α) (buf : Buffer) :
    (if c then x else y).value buf = if c then x.value buf else y.value buf := by
  split <;> rfl

theorem Rd.reads_ite (c : Prop) [Decidable c] (x y : Rd α) (buf : Buffer) :
    (if c then x else y).reads buf = if c then x.reads buf else y.reads buf := by
  split <;> rfl

end RdFacts

/-! ## Bit-level arithmetic facts -/

theorem and_two_pow_ne_zero (x i : Nat) : x &&& 2 ^ i ≠ 0 ↔ x / 2 ^ i % 2 = 1 := by
  have hbit : x.testBit i = decide (x / 2 ^ i % 2 = 1) := Nat.testBit_to_div_mod
  constructor
  · intro h
    by_contra hne
    apply h
    apply Nat.eq_of_testBit_eq
    intro j
    rw [Nat.testBit_and, Nat.testBit_two_pow, Nat.zero_testBit]
    by_cases hij : i = j
    · subst hij
      rw [hbit]
      simp [hne]
    · simp [hij]
  · intro h hzero
    have h1 : (x &&& 2 ^ i).testBit i = true := by
      rw [Nat.testBit_and, Nat.testBit_two_pow, hbit]
      simp [h]
    rw [hzero, Nat.zero_testBit] at h1
    exact Bool.noConfusion h1

theorem shl8_or (a b : Nat) (hb : b < 256) : (a <<< 8) ||| b = a * 256 + b := by
  rw [Nat.shiftLeft_eq, Nat.mul_comm a]
  exact (Nat.mul_add_lt_is_or (by simpa using hb) a).symm

theorem shl16_or (a b : Nat) (hb : b < 65536) : (a <<< 16) ||| b = a * 65536 + b := by
  rw [Nat.shiftLeft_eq, Nat.mul_comm a]
  exact (Nat.mul_add_lt_is_or (by simpa using hb) a).symm

theorem shl24_or (a b : Nat) (hb : b < 16777216) : (a <<< 24) ||| b = a * 16777216 + b := by
  rw [Nat.shiftLeft_eq, Nat.mul_comm a]
  exact (Nat.mul_add_lt_is_or (by simpa using hb) a).symm

/-- Big-endian assembly of two bytes by shifts and ors. -/
theorem be16_eq (b0 b1 : Nat) (h1 : b1 < 256) : (b0 <<< 8) ||| b1 = b0 * 256 + b1 :=
  shl8_or b0 b1 h1

/-- Big-endian assembly of three bytes by shifts and ors. -/
theorem be24_eq (b0 b1 b2 : Nat) (h1 : b1 < 256) (h2 : b2 < 256) :
    (b0 <<< 16) ||| (b1 <<< 8) ||| b2 = b0 * 65536 + b1 * 256 + b2 := by
  rw [Nat.lor_assoc, shl8_or b1 b2 h2, shl16_or b0 _ (by omega)]
  omega

/-- Big-endian assembly of four bytes by shifts and ors. -/
theorem be32_eq (b0 b1 b2 b3 : Nat) (h1 : b1 < 256) (h2 : b2 < 256) (h3 : b3 < 256) :
    (b0 <<< 24) ||| (b1 <<< 16) ||| (b2 <<< 8) ||| b3
      = b0 * 16777216 + b1 * 65536 + b2 * 256 + b3 := by
  rw [Nat.lor_assoc, Nat.lor_assoc, shl8_or b2 b3 h3, shl16_or b1 _ (by omega),
    shl24_or b0 _ (by omega)]
  omega

theorem or_high_byte (u : Nat) (hu : u < 16777216) : u ||| 0xFF000000 = u + 4278190080 := by
  have h := shl24_or 255 u hu
  rw [Nat.lor_comm]
  simpa [Nat.add_comm] using h

/-! ## Floating-point rounding -/

theorem roundHalfEven_of_near (m : ℚ) (k : Int) (h : |m - k| < 1 / 2) : roundHalfEven m = k := by
  rw [abs_lt] at h
  obtain ⟨h1, h2⟩ := h
  unfold roundHalfEven
  by_cases hk : (k : ℚ) ≤ m
  · have hf : ⌊m⌋ = k := Int.floor_eq_iff.mpr ⟨hk, by linarith⟩
    rw [hf, if_pos (by linarith)]
  · have hf : ⌊m⌋ = k - 1 :=
      Int.floor_eq_iff.mpr ⟨by push_cast; linarith, by push_cast; linarith⟩
    rw [hf, if_neg (by push_cast; linarith), if_pos (by push_cast; linarith)]
    ring

theorem roundHalfEven_sub_le (m : ℚ) : |(roundHalfEven m : ℚ) - m| ≤ 1 / 2 := by
  have h1 : (⌊m⌋ : ℚ) ≤ m := Int.floor_le m
  have h2 : m < ⌊m⌋ + 1 := Int.lt_floor_add_one m
  rw [abs_le]
  unfold roundHalfEven
  split_ifs with c1 c2 c3
  · constructor <;> linarith
  · constructor <;> push_cast <;> linarith
  · constructor <;> linarith
  · constructor <;> push_cast <;> linarith

theorem binaryExponent_spec (x : ℚ) (hx : x ≠ 0) :
    (2 : ℚ) ^ binaryExponent x ≤ |x| ∧ |x| < (2 : ℚ) ^ (binaryExponent x + 1) := by
  have hpos : 0 < |x| := abs_pos.mpr hx
  exact ⟨by simpa using Int.zpow_log_le_self (b := 2) (by decide) hpos,
    by simpa using Int.lt_zpow_succ_log_self (b := 2) (by decide) |x|⟩

theorem binaryExponent_eq (x : ℚ) (e : Int) (h1 : (2 : ℚ) ^ e ≤ |x|)
    (h2 : |x| < (2 : ℚ) ^ (e + 1)) : binaryExponent x = e := by
  have hpos : 0 < |x| := lt_of_lt_of_le (by positivity) h1
  have a : e ≤ Int.log 2 |x| :=
    (Int.zpow_le_iff_le_log (b := 2) (by decide) hpos).mp (by simpa using h1)
  have b : Int.log 2 |x| < e + 1 :=
    (Int.lt_zpow_iff_log_lt (b := 2) (by decide) hpos).mp (by simpa using h2)
  unfold binaryExponent
  omega

/-- Evaluation of a rounding: with `2^e ≤ |x| < 2^(e+1)` and `k` the integer
strictly nearest to `x / 2^(e-(p-1))`, the result is `k * 2^(e-(p-1))`. -/
theorem roundBinary_eval (p : Nat) (x : ℚ) (e k : Int) (h1 : (2 : ℚ) ^ e ≤ |x|)
    (h2 : |x| < (2 : ℚ) ^ (e + 1)) (hk : |x / 2 ^ (e - ((p : Int) - 1)) - k| < 1 / 2) :
    roundBinary p x = k * 2 ^ (e - ((p : Int) - 1)) := by
  have hx : x ≠ 0 := by
    intro h0
    rw [h0, abs_zero] at h1
    exact absurd h1 (not_le.mpr (by positivity))
  rw [roundBinary, if_neg hx, binaryExponent_eq x e h1 h2, roundHalfEven_of_near _ k hk]

/-- A rounding is off by at most half a unit in the last place, hence by a
relative error of at most `2^(-p)`. -/
theorem roundBinary_error (p : Nat) (x : ℚ) : |roundBinary p x - x| ≤ |x| / 2 ^ p := by
  by_cases hx : x = 0
  · simp [roundBinary, hx]
  · obtain ⟨h1, _⟩ := binaryExponent_spec x hx
    rw [roundBinary, if_neg hx]
    generalize binaryExponent x = e at h1
    have hu : (0 : ℚ) < 2 ^ (e - ((p : Int) - 1)) := by positivity
    have hr := roundHalfEven_sub_le (x / 2 ^ (e - ((p : Int) - 1)))
    generalize roundHalfEven (x / 2 ^ (e - ((p : Int) - 1))) = k at hr
    have e1 : (k : ℚ) * 2 ^ (e - ((p : Int) - 1)) - x
        = ((k : ℚ) - x / 2 ^ (e - ((p : Int) - 1))) * 2 ^ (e - ((p : Int) - 1)) := by
      field_simp
    have e2 : (2 : ℚ) ^ (e - ((p : Int) - 1)) = 2 ^ e * 2 / 2 ^ p := by
      rw [zpow_sub₀ (by norm_num), zpow_sub₀ (by norm_num), zpow_natCast, zpow_one]
      field_simp
    rw [e1, abs_mul, abs_of_pos hu, e2]
    have hp : (0 : ℚ) < 2 ^ p := by positivity
    calc |(k : ℚ) - x / (2 ^ e * 2 / 2 ^ p)| * (2 ^ e * 2 / 2 ^ p)
        ≤ 1 / 2 * (2 ^ e * 2 / 2 ^ p) := by
          apply mul_le_mul_of_nonneg_right _ (by positivity)
          rw [← e2]
          exact hr
      _ = 2 ^ e / 2 ^ p := by ring
      _ ≤ |x| / 2 ^ p := (div_le_div_iff_of_pos_right hp).mpr h1

theorem roundBinary_le (p : Nat) (x B : ℚ) (hB : |x| ≤ B) :
    x - B / 2 ^ p ≤ roundBinary p x ∧ roundBinary p x ≤ x + B / 2 ^ p := by
  have h := roundBinary_error p x
  have hp : (0 : ℚ) < 2 ^ p := by positivity
  have h2 : |x| / 2 ^ p ≤ B / 2 ^ p := (div_le_div_iff_of_pos_right hp).mpr hB
  rw [abs_le] at h
  constructor <;> linarith [h.1, h.2]

theorem roundBinary_nonneg (p : Nat) (x : ℚ) (hx : 0 ≤ x) : 0 ≤ roundBinary p x := by
  have h := (roundBinary_le p x x (le_of_eq (abs_of_nonneg hx))).1
  have hp : (1 : ℚ) ≤ 2 ^ p := one_le_pow₀ (by norm_num)
  have : x / 2 ^ p ≤ x := div_le_self hx hp
  linarith

/-- The roundings the example packets and the range bounds need. -/
theorem roundBinary_values :
    roundBinary 53 (4012345 / 100000) = 5646873577150585 / 140737488355328 ∧
    roundBinary 24 (19962 / 100) = 1635287 / 8192 ∧
    roundBinary 53 (-8388608 / 100000) = -5902958103587057 / 70368744177664 ∧
    roundBinary 53 (8388607 / 100000) = 5902957399899615 / 70368744177664 ∧
    roundBinary 24 (-32768 / 100) = -5368709 / 16384 ∧
    roundBinary 24 (32767 / 100) = 10737091 / 32768 ∧
    roundBinary 24 (65535 / 10) = 13107 / 2 ∧
    roundBinary 24 0 = 0 := by
  refine ⟨?_, ?_, ?_, ?_, ?_, ?_, ?_, ?_⟩
  · rw [roundBinary_eval 53 _ 5 5646873577150585 (by norm_num [abs_of_pos])
      (by norm_num [abs_of_pos]) (by norm_num [abs_lt])]
    norm_num
  · rw [roundBinary_eval 24 _ 7 13082296 (by norm_num [abs_of_pos])
      (by norm_num [abs_of_pos]) (by norm_num [abs_lt])]
    norm_num
  · rw [roundBinary_eval 53 _ 6 (-5902958103587057) (by norm_num [abs_of_neg])
      (by norm_num [abs_of_neg]) (by norm_num [abs_lt])]
    norm_num
  · rw [roundBinary_eval 53 _ 6 5902957399899615 (by norm_num [abs_of_pos])
      (by norm_num [abs_of_pos]) (by norm_num [abs_lt])]
    norm_num
  · rw [roundBinary_eval 24 _ 8 (-10737418) (by norm_num [abs_of_neg])
      (by norm_num [abs_of_neg]) (by norm_num [abs_lt])]
    norm_num
  · rw [roundBinary_eval 24 _ 8 10737091 (by norm_num [abs_of_pos])
      (by norm_num [abs_of_pos]) (by norm_num [abs_lt])]
    norm_num
  · rw [roundBinary_eval 24 _ 12 13421568 (by norm_num [abs_of_pos])
      (by norm_num [abs_of_pos]) (by norm_num [abs_lt])]
    norm_num
  · simp [roundBinary]

theorem roundBinary_more_values :
    roundBinary 53 (-312345 / 100000) = -1758346032013797 / 562949953421312 ∧
    roundBinary 24 (12345 / 10) = 2469 / 2 ∧
    roundBinary 24 (-250 / 100) = -5 / 2 := by
  refine ⟨?_, ?_, ?_⟩
  · rw [roundBinary_eval 53 _ 1 (-7033384128055188) (by norm_num [abs_of_neg])
      (by norm_num [abs_of_neg]) (by norm_num [abs_lt])]
    norm_num
  · rw [roundBinary_eval 24 _ 10 10113024 (by norm_num [abs_of_pos])
      (by norm_num [abs_of_pos]) (by norm_num [abs_lt])]
    norm_num
  · rw [roundBinary_eval 24 _ 1 (-10485760) (by norm_num [abs_of_neg])
      (by norm_num [abs_of_neg]) (by norm_num [abs_lt])]
    norm_num

/-- A nonzero quotient of an integer of at most 32 bits by a constant between 1
and 100000 has its binary exponent between -17 and 31, inside the normal range
of both formats (`-126..127` and `-1022..1023`). -/
theorem binaryExponent_quotient (v : Int) (d : ℚ) (hv : v ≠ 0) (h32 : |v| < 2 ^ 32)
    (hd1 : 1 ≤ d) (hd2 : d ≤ 100000) :
    -17 ≤ binaryExponent ((v : ℚ) / d) ∧ binaryExponent ((v : ℚ) / d) ≤ 31 := by
  have hdpos : (0 : ℚ) < d := by linarith
  have hv1 : (1 : ℚ) ≤ |(v : ℚ)| := by
    have : (1 : Int) ≤ |v| := Int.one_le_abs hv
    exact_mod_cast this
  have hv2 : |(v : ℚ)| < 2 ^ 32 := by exact_mod_cast h32
  have habs : |(v : ℚ) / d| = |(v : ℚ)| / d := by rw [abs_div, abs_of_pos hdpos]
  have hpos : 0 < |(v : ℚ) / d| := by rw [habs]; positivity
  have lo : (2 : ℚ) ^ (-17 : Int) ≤ |(v : ℚ) / d| := by
    rw [habs, le_div_iff₀ hdpos]
    calc (2 : ℚ) ^ (-17 : Int) * d ≤ 2 ^ (-17 : Int) * 100000 := by
          apply mul_le_mul_of_nonneg_left hd2 (by positivity)
      _ ≤ 1 := by norm_num
      _ ≤ |(v : ℚ)| := hv1
  have hi : |(v : ℚ) / d| < (2 : ℚ) ^ (32 : Int) := by
    rw [habs, div_lt_iff₀ hdpos]
    calc |(v : ℚ)| < 2 ^ 32 := hv2
      _ = (2 : ℚ) ^ (32 : Int) * 1 := by norm_num
      _ ≤ (2 : ℚ) ^ (32 : Int) * d := by
          apply mul_le_mul_of_nonneg_left hd1 (by positivity)
  have a : (-17 : Int) ≤ Int.log 2 |(v : ℚ) / d| :=
    (Int.zpow_le_iff_le_log (b := 2) (by decide) hpos).mp (by simpa using lo)
  have b : Int.log 2 |(v : ℚ) / d| < 32 :=
    (Int.lt_zpow_iff_log_lt (b := 2) (by decide) hpos).mp (by simpa using hi)
  unfold binaryExponent
  omega

/-! ## Scalar unpacking: values -/

theorem unpack24bitSigned_value (off : Nat) (buf : Buffer) :
    (unpack24bitSigned off).value buf =
      if (buf off).val * 65536 + (buf (off + 1)).val * 256 + (buf (off + 2)).val < 8388608 then
        (((buf off).val * 65536 + (buf (off + 1)).val * 256 + (buf (off + 2)).val : Nat) : Int)
      else
        (((buf off).val * 65536 + (buf (off + 1)).val * 256 + (buf (off + 2)).val : Nat) : Int)
          - 16777216 := by
  have h0 := (buf off).isLt
  have h1 := (buf (off + 1)).isLt
  have h2 := (buf (off + 2)).isLt
  simp only [unpack24bitSigned, Rd.value_bind, Rd.value_rd, Rd.value_pure]
  rw [be24_eq _ _ _ h1 h2]
  generalize hu : (buf off).val * 65536 + (buf (off + 1)).val * 256 + (buf (off + 2)).val = u
  have hlt : u < 16777216 := by omega
  have hbit : u &&& 0x00800000 ≠ 0 ↔ u / 8388608 % 2 = 1 := and_two_pow_ne_zero u 23
  by_cases hs : u < 8388608
  · have hz : ¬ (u &&& 0x00800000 ≠ 0) := fun h => by
      have := hbit.mp h
      omega
    rw [if_neg hz, if_pos hs]
    simp only [toInt32]
    split <;> omega
  · have hz : u &&& 0x00800000 ≠ 0 := hbit.mpr (by omega)
    rw [if_pos hz, if_neg hs, or_high_byte u hlt]
    simp only [toInt32]
    split <;> omega

theorem unpack16bit_value (off : Nat) (buf : Buffer) :
    (unpack16bit off).value buf = (buf off).val * 256 + (buf (off + 1)).val := by
  have h0 := (buf off).isLt
  have h1 := (buf (off + 1)).isLt
  simp only [unpack16bit, Rd.value_bind, Rd.value_rd, Rd.value_pure]
  rw [be16_eq _ _ h1]
  omega

theorem unpack16bitSigned_value (off : Nat) (buf : Buffer) :
    (unpack16bitSigned off).value buf =
      if (buf off).val * 256 + (buf (off + 1)).val < 32768 then
        (((buf off).val * 256 + (buf (off + 1)).val : Nat) : Int)
      else
        (((buf off).val * 256 + (buf (off + 1)).val : Nat) : Int) - 65536 := by
  have h0 := (buf off).isLt
  have h1 := (buf (off + 1)).isLt
  simp only [unpack16bitSigned, Rd.value_bind, Rd.value_rd, Rd.value_pure]
  rw [be16_eq _ _ h1]
  unfold toInt16
  split <;> split <;> omega

theorem unpack32bit_value (off : Nat) (buf : Buffer) :
    (unpack32bit off).value buf =
      (buf off).val * 16777216 + (buf (off + 1)).val * 65536 + (buf (off + 2)).val * 256
        + (buf (off + 3)).val := by
  have h0 := (buf off).isLt
  have h1 := (buf (off + 1)).isLt
  have h2 := (buf (off + 2)).isLt
  have h3 := (buf (off + 3)).isLt
  simp only [unpack32bit, Rd.value_bind, Rd.value_rd, Rd.value_pure]
  rw [be32_eq _ _ _ _ h1 h2 h3]
  omega

/-! ## Telemetry decoder: the value computed -/

theorem parseTelemetryPacket_value (T length : Nat) (data : TelemetryData) (buf : Buffer) :
    (parseTelemetryPacket T length data).value buf =
      if length < 16 then ⟨false, some Reject.TooShort, data⟩
      else if (buf 0).val &&& 0xF0 ≠ 0xA0 then ⟨false, some Reject.WrongType, data⟩
      else if (buf 0).val &&& 0x0F ≠ T then ⟨false, some Reject.WrongTeam, data⟩
      else if (buf 15).val ≠ (calculateCRC8 15).value buf then
        ⟨false, some Reject.ChecksumMismatch, data⟩
      else ⟨true, none, telemetryDecoded buf⟩ := by
  simp only [parseTelemetryPacket, Rd.value_ite, Rd.value_bind, Rd.value_rd, Rd.value_pure,
    PACKET_ID_TELEMETRY_BASE, telemetryDecoded]

/-! ## Scientific decoder: the value computed -/

theorem parseScientificPacket_value (T length : Nat) (s : GroundState) (buf : Buffer) :
    (parseScientificPacket T length s).value buf =
      if length < 47 then ⟨s, some Reject.TooShort, none⟩
      else if (buf 0).val &&& 0xF0 ≠ 0x10 then ⟨s, some Reject.WrongType, none⟩
      else if (buf 0).val &&& 0x0F ≠ T then ⟨s, some Reject.WrongTeam, none⟩
      else if (buf (length - 1)).val ≠ (calculateCRC8 (length - 1)).value buf then
        ⟨s, some Reject.ChecksumMismatch, none⟩
      else ⟨scientificStored length s buf, none, some (scientificReport length buf)⟩ := by
  simp only [parseScientificPacket, Rd.value_ite, Rd.value_bind, Rd.value_rd, Rd.value_pure,
    PACKET_ID_SCIENTIFIC_BASE, scientificStored, scientificReport]

/-! ## CRC loop: value and reads -/

theorem crcLoop_value (buf : Buffer) (n : Nat) : ∀ i crc : Nat,
    (calculateCRC8.loop i n crc).value buf =
      crcFold crc ((List.range' i n).map (fun k => (buf k).val)) := by
  induction n with
  | zero =>
    intro i crc
    simp only [calculateCRC8.loop, Rd.value_pure, List.range'_zero, List.map_nil, crcFold,
      List.foldl_nil]
  | succ n ih =>
    intro i crc
    simp only [calculateCRC8.loop, Rd.value_bind, Rd.value_rd, ih, List.range'_succ,
      List.map_cons, crcFold, List.foldl_cons]

theorem crcLoop_reads (buf : Buffer) (n : Nat) : ∀ i crc : Nat,
    (calculateCRC8.loop i n crc).reads buf = List.range' i n := by
  induction n with
  | zero =>
    intro i crc
    simp only [calculateCRC8.loop, Rd.reads_pure, List.range'_zero]
  | succ n ih =>
    intro i crc
    simp only [calculateCRC8.loop, Rd.reads_bind, Rd.reads_rd, ih, List.range'_succ,
      List.singleton_append]

theorem calculateCRC8_value (length : Nat) (buf : Buffer) :
    (calculateCRC8 length).value buf = crcFold 0 ((bufTake buf length).map Fin.val) := by
  simp only [calculateCRC8, crcLoop_value, bufTake, List.map_map, List.range_eq_range']
  rfl

theorem calculateCRC8_reads (length : Nat) (buf : Buffer) :
    (calculateCRC8 length).reads buf = List.range length := by
  simp only [calculateCRC8, crcLoop_reads, List.range_eq_range']

theorem bufTake_bufOfList (b : List Byte) : bufTake (bufOfList b) b.length = b := by
  apply List.ext_getElem
  · simp [bufTake]
  · intro i h1 h2
    simp [bufTake, bufOfList, List.getD_eq_getElem?_getD, List.getElem?_eq_getElem h2]

theorem crc8_eq_crcFold (b : List Byte) : crc8 b = crcFold 0 (b.map Fin.val) := by
  rw [crc8, calculateCRC8_value, bufTake_bufOfList]

theorem crcStep_lt (c : Nat) : crcStep c < 256 := by
  unfold crcStep
  split <;> exact Nat.mod_lt _ (by decide)

theorem crcStep8_lt (c : Nat) : crcStep^[8] c < 256 := by
  rw [show (8 : Nat) = 7 + 1 from rfl, Function.iterate_succ_apply']
  exact crcStep_lt _

theorem crcFold_lt (l : List Nat) : ∀ crc, crc < 256 → crcFold crc l < 256 := by
  induction l with
  | nil => intro crc h; simpa [crcFold] using h
  | cons d l ih =>
    intro crc _
    simp only [crcFold, List.foldl_cons]
    exact ih _ (crcStep8_lt _)

theorem calculateCRC8_lt (length : Nat) (buf : Buffer) :
    (calculateCRC8 length).value buf < 256 := by
  rw [calculateCRC8_value]
  exact crcFold_lt _ 0 (by decide)

/-! ## Validation pipelines -/

/-- C1: `parseTelemetryPacket` returns `true` exactly when `length >= 16`, the
high nibble of byte 0 is `0xA0`, its low nibble is the configured team, and
`calculateCRC8` over bytes 0..14 equals byte 15; the diagnostic printed is that
of the first failing check in the order TooShort, WrongType, WrongTeam,
ChecksumMismatch (none when all pass); and a packet that differs from an
accepted one only in its team nibble, whatever its byte 15, is rejected as
WrongTeam. -/
theorem parseTelemetryPacket_accepts_iff (T length : Nat) (data : TelemetryData)
    (buf : Buffer) :
    (((parseTelemetryPacket T length data).value buf).ok = true ↔
        16 ≤ length ∧ (buf 0).val &&& 0xF0 = 0xA0 ∧ (buf 0).val &&& 0x0F = T ∧
          (calculateCRC8 15).value buf = (buf 15).val) ∧
    ((parseTelemetryPacket T length data).value buf).diag =
        (if length < 16 then some Reject.TooShort
         else if (buf 0).val &&& 0xF0 ≠ 0xA0 then some Reject.WrongType
         else if (buf 0).val &&& 0x0F ≠ T then some Reject.WrongTeam
         else if (calculateCRC8 15).value buf ≠ (buf 15).val then
           some Reject.ChecksumMismatch
         else none) ∧
    (((parseTelemetryPacket T length data).value buf).ok = true ↔
        ((parseTelemetryPacket T length data).value buf).diag = none) ∧
    (∀ buf2 : Buffer,
        ((parseTelemetryPacket T length data).value buf).ok = true →
        (∀ i, i ≠ 0 → i ≠ 15 → buf2 i = buf i) →
        (buf2 0).val &&& 0xF0 = (buf 0).val &&& 0xF0 →
        (buf2 0).val &&& 0x0F ≠ (buf 0).val &&& 0x0F →
        ((parseTelemetryPacket T length data).value buf2).diag = some Reject.WrongTeam) := by
  have key : ∀ b : Buffer, ((parseTelemetryPacket T length data).value b).diag =
        (if length < 16 then some Reject.TooShort
         else if (b 0).val &&& 0xF0 ≠ 0xA0 then some Reject.WrongType
         else if (b 0).val &&& 0x0F ≠ T then some Reject.WrongTeam
         else if (calculateCRC8 15).value b ≠ (b 15).val then
           some Reject.ChecksumMismatch
         else none) := by
    intro b
    rw [parseTelemetryPacket_value]
    split_ifs <;> first | rfl | (exfalso; omega)
  have okiff : ((parseTelemetryPacket T length data).value buf).ok = true ↔
        16 ≤ length ∧ (buf 0).val &&& 0xF0 = 0xA0 ∧ (buf 0).val &&& 0x0F = T ∧
          (calculateCRC8 15).value buf = (buf 15).val := by
    rw [parseTelemetryPacket_value]
    split_ifs with h1 h2 h3 h4
    · simp; omega
    · simp; intro _ h; exact absurd h h2
    · simp; intro _ _ h; exact absurd h h3
    · simp; intro _ _ _ h; exact absurd h.symm h4
    · simp only [true_iff]
      exact ⟨by omega, not_not.mp h2, not_not.mp h3, (not_not.mp h4).symm⟩
  refine ⟨okiff, key buf, ?_, ?_⟩
  · rw [okiff, key buf]
    split_ifs with h1 h2 h3 h4
    · simp; omega
    · simp; intro _ h; exact absurd h h2
    · simp; intro _ _ h; exact absurd h h3
    · simp; intro _ _ _ h; exact absurd h h4
    · simp only [true_iff, iff_true]
      exact ⟨by omega, not_not.mp h2, not_not.mp h3, not_not.mp h4⟩
  · intro buf2 hok _ hhi hlo
    obtain ⟨hlen, hty, hteam, _⟩ := okiff.mp hok
    rw [key buf2, if_neg (by omega), if_neg (by rw [hhi]; exact not_not.mpr hty),
      if_pos (by rw [← hteam]; exact hlo)]

/-- C1 at a concrete packet: the example packet of team 3 is accepted, and with
its team nibble changed to 5 it is rejected as WrongTeam. -/
theorem parseTelemetryPacket_accepts_iff_witness :
    ((parseTelemetryPacket 3 16 exampleOldData).value exampleTelemetry).ok = true ∧
    ((parseTelemetryPacket 3 16 exampleOldData).value exampleTelemetryOtherTeam).diag
      = some Reject.WrongTeam :=
  have hok : ((parseTelemetryPacket 3 16 exampleOldData).value exampleTelemetry).ok = true :=
    (parseTelemetryPacket_accepts_iff 3 16 exampleOldData exampleTelemetry).1.mpr
      ⟨by decide, by decide, by decide, by decide!⟩
  ⟨hok, (parseTelemetryPacket_accepts_iff 3 16 exampleOldData exampleTelemetry).2.2.2
    exampleTelemetryOtherTeam hok
    (by
      intro i h0 h15
      have hcases : i < 16 ∨ 16 ≤ i := by omega
      rcases hcases with h | h
      · interval_cases i <;> first | rfl | exact absurd rfl h0
      · have e1 : ∀ l : List Byte, l.length = 16 → l.getD i 0 = 0 := by
          intro l hl
          rw [List.getD_eq_getElem?_getD, List.getElem?_eq_none (by omega)]
          rfl
        exact (e1 (0xA5 :: exampleTelemetryPayload.tail ++ [0x76]) (by decide)).trans
          (e1 (exampleTelemetryPayload ++ [0x76]) (by decide)).symm)
    (by decide) (by decide)⟩

theorem parseScientificPacket_diag (T length : Nat) (s : GroundState) (buf : Buffer) :
    ((parseScientificPacket T length s).value buf).diag =
      (if length < 47 then some Reject.TooShort
       else if (buf 0).val &&& 0xF0 ≠ 0x10 then some Reject.WrongType
       else if (buf 0).val &&& 0x0F ≠ T then some Reject.WrongTeam
       else if (calculateCRC8 (length - 1)).value buf ≠ (buf (length - 1)).val then
         some Reject.ChecksumMismatch
       else none) := by
  rw [parseScientificPacket_value]
  split_ifs <;> first | rfl | (exfalso; omega)

theorem parseScientificPacket_accepted_iff (T length : Nat) (s : GroundState) (buf : Buffer) :
    ((parseScientificPacket T length s).value buf).diag = none ↔
      47 ≤ length ∧ (buf 0).val &&& 0xF0 = 0x10 ∧ (buf 0).val &&& 0x0F = T ∧
        (calculateCRC8 (length - 1)).value buf = (buf (length - 1)).val := by
  rw [parseScientificPacket_diag]
  split_ifs with h1 h2 h3 h4
  · simp; omega
  · simp; intro _ h; exact absurd h h2
  · simp; intro _ _ h; exact absurd h h3
  · simp; intro _ _ _ h; exact absurd h h4
  · simp only [true_iff]
    exact ⟨by omega, not_not.mp h2, not_not.mp h3, not_not.mp h4⟩

theorem parseScientificPacket_of_accepted (T length : Nat) (s : GroundState) (buf : Buffer)
    (h : ((parseScientificPacket T length s).value buf).diag = none) :
    (parseScientificPacket T length s).value buf =
      ⟨scientificStored length s buf, none, some (scientificReport length buf)⟩ := by
  obtain ⟨h1, h2, h3, h4⟩ := (parseScientificPacket_accepted_iff T length s buf).mp h
  rw [parseScientificPacket_value, if_neg (by omega), if_neg (not_not.mpr h2),
    if_neg (not_not.mpr h3), if_neg (not_not.mpr h4.symm)]

theorem parseScientificPacket_of_rejected (T length : Nat) (s : GroundState) (buf : Buffer)
    (h : ((parseScientificPacket T length s).value buf).diag ≠ none) :
    ((parseScientificPacket T length s).value buf).state = s ∧
      ((parseScientificPacket T length s).value buf).report = none := by
  rw [parseScientificPacket_value] at h ⊢
  split_ifs at h ⊢ <;> first | exact ⟨rfl, rfl⟩ | exact absurd rfl h

/-- C2: `parseScientificPacket` accepts exactly when `length >= 47`, the high
nibble of byte 0 is `0x10`, its low nibble is the configured team, and
`calculateCRC8` over bytes `0..length-2` equals the byte at index `length-1`;
the diagnostic is that of the first failing check in the order TooShort,
WrongType, WrongTeam, ChecksumMismatch; an accepted packet is stored and
reported, a rejected one is neither. -/
theorem parseScientificPacket_accepts_iff (T length : Nat) (s : GroundState) (buf : Buffer) :
    (((parseScientificPacket T length s).value buf).diag = none ↔
        47 ≤ length ∧ (buf 0).val &&& 0xF0 = 0x10 ∧ (buf 0).val &&& 0x0F = T ∧
          (calculateCRC8 (length - 1)).value buf = (buf (length - 1)).val) ∧
    ((parseScientificPacket T length s).value buf).diag =
        (if length < 47 then some Reject.TooShort
         else if (buf 0).val &&& 0xF0 ≠ 0x10 then some Reject.WrongType
         else if (buf 0).val &&& 0x0F ≠ T then some Reject.WrongTeam
         else if (calculateCRC8 (length - 1)).value buf ≠ (buf (length - 1)).val then
           some Reject.ChecksumMismatch
         else none) ∧
    (((parseScientificPacket T length s).value buf).diag = none →
        ((parseScientificPacket T length s).value buf).state.hasScientificPacket = true ∧
        ((parseScientificPacket T length s).value buf).state.lastScientificSize = min length 82 ∧
        (∀ i, i < min length 82 →
          ((parseScientificPacket T length s).value buf).state.lastScientificPacket i = buf i) ∧
        ((parseScientificPacket T length s).value buf).report.isSome = true) ∧
    (((parseScientificPacket T length s).value buf).diag ≠ none →
        ((parseScientificPacket T length s).value buf).state = s ∧
        ((parseScientificPacket T length s).value buf).report = none) := by
  refine ⟨parseScientificPacket_accepted_iff T length s buf,
    parseScientificPacket_diag T length s buf, ?_, parseScientificPacket_of_rejected T length s buf⟩
  intro h
  rw [parseScientificPacket_of_accepted T length s buf h]
  have hmin : (if length < 82 then length else 82) = min length 82 := by
    split <;> omega
  refine ⟨rfl, hmin, ?_, rfl⟩
  intro i hi
  show (memcpy s.lastScientificPacket (if length < 82 then length else 82)).value buf i = buf i
  rw [hmin]
  show (if i < min length 82 then buf i else s.lastScientificPacket i) = buf i
  rw [if_pos hi]

/-- C2 at concrete packets: the 47-byte and the 82-byte example packets of team
3 are accepted, the CRC being checked at index 46 and at index 81. -/
theorem parseScientificPacket_accepts_iff_witness :
    ((parseScientificPacket 3 47 GroundState.init).value exampleScientific47).diag = none ∧
    ((parseScientificPacket 3 82 GroundState.init).value exampleScientific82).diag = none :=
  ⟨(parseScientificPacket_accepts_iff 3 47 GroundState.init exampleScientific47).1.mpr
      ⟨by decide, by decide, by decide, by decide!⟩,
   (parseScientificPacket_accepts_iff 3 82 GroundState.init exampleScientific82).1.mpr
      ⟨by decide, by decide, by decide, by decide!⟩⟩

/-! ## Scalar unpacking: the claims -/

theorem unpack24bitSigned_triple (b0 b1 b2 : Byte) :
    (unpack24bitSigned 0).value (bufOfList [b0, b1, b2]) =
      if b0.val * 65536 + b1.val * 256 + b2.val < 8388608 then
        ((b0.val * 65536 + b1.val * 256 + b2.val : Nat) : Int)
      else ((b0.val * 65536 + b1.val * 256 + b2.val : Nat) : Int) - 16777216 :=
  unpack24bitSigned_value 0 (bufOfList [b0, b1, b2])

/-- C5: `unpack24bitSigned` returns the two's-complement value of the 24-bit
big-endian word: with `u = b0*65536 + b1*256 + b2` it returns `u` when
`u < 8388608` and `u - 16777216` otherwise; the result lies in
`[-8388608, 8388607]`, every value of that range comes from exactly one byte
triple, and `[0x80,0,0]`, `[0x7F,0xFF,0xFF]`, `[0,0,1]` give `-8388608`,
`8388607`, `1`. -/
theorem unpack24bitSigned_twos_complement :
    (∀ (off : Nat) (buf : Buffer),
      (unpack24bitSigned off).value buf =
        (if (buf off).val * 65536 + (buf (off + 1)).val * 256 + (buf (off + 2)).val < 8388608
         then (((buf off).val * 65536 + (buf (off + 1)).val * 256 + (buf (off + 2)).val : Nat)
            : Int)
         else (((buf off).val * 65536 + (buf (off + 1)).val * 256 + (buf (off + 2)).val : Nat)
            : Int) - 16777216) ∧
      -8388608 ≤ (unpack24bitSigned off).value buf ∧
      (unpack24bitSigned off).value buf ≤ 8388607) ∧
    (∀ v : Int, -8388608 ≤ v → v ≤ 8388607 →
      ∃! t : Byte × Byte × Byte,
        (unpack24bitSigned 0).value (bufOfList [t.1, t.2.1, t.2.2]) = v) ∧
    (unpack24bitSigned 0).value (bufOfList [0x80, 0x00, 0x00]) = -8388608 ∧
    (unpack24bitSigned 0).value (bufOfList [0x7F, 0xFF, 0xFF]) = 8388607 ∧
    (unpack24bitSigned 0).value (bufOfList [0x00, 0x00, 0x01]) = 1 := by
  refine ⟨?_, ?_, by decide, by decide, by decide⟩
  · intro off buf
    have h0 := (buf off).isLt
    have h1 := (buf (off + 1)).isLt
    have h2 := (buf (off + 2)).isLt
    rw [unpack24bitSigned_value]
    refine ⟨rfl, ?_, ?_⟩ <;> split <;> omega
  · intro v hlo hhi
    obtain ⟨u, hu⟩ : ∃ u : Nat, (u : Int) = v % 16777216 :=
      ⟨(v % 16777216).toNat, Int.toNat_of_nonneg (Int.emod_nonneg _ (by decide))⟩
    have hult : u < 16777216 := by omega
    refine ⟨(⟨u / 65536, by omega⟩, ⟨u / 256 % 256, by omega⟩, ⟨u % 256, by omega⟩), ?_, ?_⟩
    · show (unpack24bitSigned 0).value (bufOfList [_, _, _]) = v
      rw [unpack24bitSigned_triple]
      simp only []
      split <;> omega
    · rintro ⟨c0, c1, c2⟩ hc
      have g0 := c0.isLt
      have g1 := c1.isLt
      have g2 := c2.isLt
      simp only [] at hc
      rw [unpack24bitSigned_triple] at hc
      have hval : c0.val * 65536 + c1.val * 256 + c2.val = u := by
        split at hc <;> omega
      refine Prod.ext (Fin.ext ?_) (Prod.ext (Fin.ext ?_) (Fin.ext ?_))
      · show c0.val = u / 65536
        omega
      · show c1.val = u / 256 % 256
        omega
      · show c2.val = u % 256
        omega

/-- C6: `buildCommandPacket` writes exactly two bytes, `0x00` and
`(0x20 if requestTelemetry) | (0x10 if requestScientific) | (T & 0x0F)`; bits 7
and 6 of byte 1 are zero; `(true, false)` with team `0x3` gives `[0x00, 0x23]`. -/
theorem buildCommandPacket_bytes (T : Nat) (requestTelemetry requestScientific : Bool) :
    buildCommandPacket T requestTelemetry requestScientific =
      [0x00, (if requestTelemetry then 0x20 else 0) ||| (if requestScientific then 0x10 else 0)
        ||| (T &&& 0x0F)] ∧
    (buildCommandPacket T requestTelemetry requestScientific).length = 2 ∧
    (∀ b ∈ (buildCommandPacket T requestTelemetry requestScientific).tail,
      b &&& 0xC0 = 0 ∧ b.testBit 7 = false ∧ b.testBit 6 = false) ∧
    buildCommandPacket 0x3 true false = [0x00, 0x23] := by
  have hmask : T &&& 0x0F = T % 16 := Nat.and_pow_two_sub_one_eq_mod T 4
  have hlt : T % 16 < 16 := Nat.mod_lt _ (by decide)
  have hall : ∀ t : Fin 16, ∀ p q : Bool,
      ((((if p then (0 ||| 0x20) else 0 : Nat) |||
          (if q then 0x10 else 0 : Nat)) ||| t.val) % 256 =
        ((if p then 0x20 else 0 : Nat) ||| (if q then 0x10 else 0 : Nat)) ||| t.val) ∧
      ((((if p then 0x20 else 0 : Nat) ||| (if q then 0x10 else 0 : Nat)) ||| t.val) &&& 0xC0 = 0
        ∧ ((((if p then 0x20 else 0 : Nat) ||| (if q then 0x10 else 0 : Nat)) ||| t.val)).testBit 7
            = false
        ∧ ((((if p then 0x20 else 0 : Nat) ||| (if q then 0x10 else 0 : Nat)) ||| t.val)).testBit 6
            = false) := by
    decide
  have hT := hall ⟨T % 16, hlt⟩ requestTelemetry requestScientific
  have hbytes : buildCommandPacket T requestTelemetry requestScientific =
      [0x00, (if requestTelemetry then 0x20 else 0) ||| (if requestScientific then 0x10 else 0)
        ||| (T &&& 0x0F)] := by
    simp only [buildCommandPacket, PACKET_ID_COMMAND, CMD_TELEMETRY_REQUEST,
      CMD_SCIENTIFIC_REQUEST, CMD_TEAM_ID_MASK, hmask]
    cases requestTelemetry <;> cases requestScientific <;>
      simpa using hT.1
  refine ⟨hbytes, by rw [hbytes]; rfl, ?_, by decide⟩
  intro b hb
  rw [hbytes] at hb
  simp only [List.tail_cons, List.mem_singleton] at hb
  rw [hb, hmask]
  exact hT.2

/-- C5 at a concrete value: exactly one byte triple decodes to `-1`. -/
theorem unpack24bitSigned_twos_complement_witness :
    ∃! t : Byte × Byte × Byte,
      (unpack24bitSigned 0).value (bufOfList [t.1, t.2.1, t.2.2]) = -1 :=
  unpack24bitSigned_twos_complement.2.1 (-1) (by decide) (by decide)

theorem unpack24bitSigned_spec (off : Nat) (buf : Buffer) :
    (unpack24bitSigned off).value buf =
      twosComplement 24 (bigEndian [buf off, buf (off + 1), buf (off + 2)]) := by
  rw [unpack24bitSigned_value]
  simp only [twosComplement, bigEndian, List.foldl_cons, List.foldl_nil]
  have h0 := (buf off).isLt
  have h1 := (buf (off + 1)).isLt
  have h2 := (buf (off + 2)).isLt
  norm_num
  split <;> split <;> omega

theorem unpack16bitSigned_spec (off : Nat) (buf : Buffer) :
    (unpack16bitSigned off).value buf =
      twosComplement 16 (bigEndian [buf off, buf (off + 1)]) := by
  rw [unpack16bitSigned_value]
  simp only [twosComplement, bigEndian, List.foldl_cons, List.foldl_nil]
  norm_num

theorem unpack16bit_spec (off : Nat) (buf : Buffer) :
    (unpack16bit off).value buf = bigEndian [buf off, buf (off + 1)] := by
  rw [unpack16bit_value]
  simp only [bigEndian, List.foldl_cons, List.foldl_nil]
  omega

theorem unpack32bit_spec (off : Nat) (buf : Buffer) :
    (unpack32bit off).value buf =
      bigEndian [buf off, buf (off + 1), buf (off + 2), buf (off + 3)] := by
  rw [unpack32bit_value]
  simp only [bigEndian, List.foldl_cons, List.foldl_nil]
  omega

/-! ## Telemetry decoder: decoded fields -/

theorem parseTelemetryPacket_of_ok (T length : Nat) (data : TelemetryData) (buf : Buffer)
    (h : ((parseTelemetryPacket T length data).value buf).ok = true) :
    (parseTelemetryPacket T length data).value buf = ⟨true, none, telemetryDecoded buf⟩ := by
  rw [parseTelemetryPacket_value] at h ⊢
  split_ifs at h ⊢
  rfl

/-- The example packet is accepted, and the record it leaves holds the `double`
nearest to 40.12345 and to -3.12345, and the `float`s 1234.5 and -2.5. -/
theorem exampleTelemetry_decoded :
    (parseTelemetryPacket 3 16 exampleOldData).value exampleTelemetry =
      ⟨true, none, ⟨5646873577150585 / 140737488355328, -1758346032013797 / 562949953421312,
        2469 / 2, -5 / 2, 123456, true⟩⟩ := by
  have hok : ((parseTelemetryPacket 3 16 exampleOldData).value exampleTelemetry).ok = true := by
    decide!
  have e1 : (unpack24bitSigned 1).value exampleTelemetry = 4012345 := by decide!
  have e2 : (unpack24bitSigned 4).value exampleTelemetry = -312345 := by decide!
  have e3 : (unpack16bitSigned 7).value exampleTelemetry = -250 := by decide!
  have e4 : (unpack16bit 9).value exampleTelemetry = 12345 := by decide!
  have e5 : (unpack32bit 11).value exampleTelemetry = 123456 := by decide!
  rw [parseTelemetryPacket_of_ok 3 16 exampleOldData exampleTelemetry hok]
  simp only [telemetryDecoded, e1, e2, e3, e4, e5, divDouble, divFloat]
  push_cast
  rw [roundBinary_values.1, roundBinary_more_values.1, roundBinary_more_values.2.1,
    roundBinary_more_values.2.2]

/-- C7, as the code has it: for a buffer accepted by `parseTelemetryPacket` the
record produced has latitude = signed24(bytes 1..3)/100000 and longitude =
signed24(bytes 4..6)/100000, each rounded to the nearest `double`, vertical
velocity = signed16(bytes 7..8)/100 and altitude = unsigned16(bytes 9..10)/10,
each rounded to the nearest `float`, timestamp = unsigned32(bytes 11..14), all
big-endian, and `valid = true`; the two `double`s are within a relative error
of `2^-53` of the exact quotient, the two `float`s within `2^-24`. -/
theorem parseTelemetryPacket_fields (T length : Nat) (data : TelemetryData) (buf : Buffer)
    (h : ((parseTelemetryPacket T length data).value buf).ok = true) :
    (((parseTelemetryPacket T length data).value buf).data.latitude =
        divDouble (twosComplement 24 (bigEndian [buf 1, buf 2, buf 3]) : ℚ) 100000 ∧
      ((parseTelemetryPacket T length data).value buf).data.longitude =
        divDouble (twosComplement 24 (bigEndian [buf 4, buf 5, buf 6]) : ℚ) 100000 ∧
      ((parseTelemetryPacket T length data).value buf).data.verticalVel =
        divFloat (twosComplement 16 (bigEndian [buf 7, buf 8]) : ℚ) 100 ∧
      ((parseTelemetryPacket T length data).value buf).data.altitude =
        divFloat (bigEndian [buf 9, buf 10] : ℚ) 10 ∧
      ((parseTelemetryPacket T length data).value buf).data.timestamp =
        bigEndian [buf 11, buf 12, buf 13, buf 14] ∧
      ((parseTelemetryPacket T length data).value buf).data.valid = true) ∧
    (|((parseTelemetryPacket T length data).value buf).data.latitude
          - (twosComplement 24 (bigEndian [buf 1, buf 2, buf 3]) : ℚ) / 100000|
        ≤ |(twosComplement 24 (bigEndian [buf 1, buf 2, buf 3]) : ℚ) / 100000| / 2 ^ 53 ∧
      |((parseTelemetryPacket T length data).value buf).data.longitude
          - (twosComplement 24 (bigEndian [buf 4, buf 5, buf 6]) : ℚ) / 100000|
        ≤ |(twosComplement 24 (bigEndian [buf 4, buf 5, buf 6]) : ℚ) / 100000| / 2 ^ 53 ∧
      |((parseTelemetryPacket T length data).value buf).data.verticalVel
          - (twosComplement 16 (bigEndian [buf 7, buf 8]) : ℚ) / 100|
        ≤ |(twosComplement 16 (bigEndian [buf 7, buf 8]) : ℚ) / 100| / 2 ^ 24 ∧
      |((parseTelemetryPacket T length data).value buf).data.altitude
          - (bigEndian [buf 9, buf 10] : ℚ) / 10|
        ≤ |(bigEndian [buf 9, buf 10] : ℚ) / 10| / 2 ^ 24) := by
  rw [parseTelemetryPacket_of_ok T length data buf h]
  simp only [telemetryDecoded, unpack24bitSigned_spec, unpack16bitSigned_spec, unpack16bit_spec,
    unpack32bit_spec, and_self, true_and]
  exact ⟨roundBinary_error 53 _, roundBinary_error 53 _, roundBinary_error 24 _,
    roundBinary_error 24 _⟩

/-- C7 at the example packet (raw values 4012345, -312345, -250, 12345,
123456): the latitude is the `double` nearest to 40.12345, the longitude the
`double` nearest to -3.12345, the velocity -2.5 and the altitude 1234.5 (both
are `float`s), the timestamp 123456. -/
theorem parseTelemetryPacket_fields_witness :
    ((parseTelemetryPacket 3 16 exampleOldData).value exampleTelemetry).ok = true ∧
    ((parseTelemetryPacket 3 16 exampleOldData).value exampleTelemetry).data.latitude
      = divDouble 4012345 100000 ∧
    ((parseTelemetryPacket 3 16 exampleOldData).value exampleTelemetry).data.longitude
      = divDouble (-312345) 100000 ∧
    ((parseTelemetryPacket 3 16 exampleOldData).value exampleTelemetry).data.verticalVel
      = divFloat (-250) 100 ∧
    ((parseTelemetryPacket 3 16 exampleOldData).value exampleTelemetry).data.altitude
      = divFloat 12345 10 ∧
    ((parseTelemetryPacket 3 16 exampleOldData).value exampleTelemetry).data.timestamp
      = 123456 ∧
    ((parseTelemetryPacket 3 16 exampleOldData).value exampleTelemetry).data.valid = true ∧
    divDouble 4012345 100000 = 5646873577150585 / 140737488355328 ∧
    divDouble (-312345) 100000 = -1758346032013797 / 562949953421312 ∧
    divFloat (-250) 100 = -5 / 2 ∧
    divFloat 12345 10 = 2469 / 2 := by
  have hok : ((parseTelemetryPacket 3 16 exampleOldData).value exampleTelemetry).ok = true := by
    decide!
  obtain ⟨⟨h1, h2, h3, h4, h5, h6⟩, _⟩ :=
    parseTelemetryPacket_fields 3 16 exampleOldData exampleTelemetry hok
  refine ⟨hok, ?_, ?_, ?_, ?_, h5.trans (by decide), h6, roundBinary_values.1,
    roundBinary_more_values.1, roundBinary_more_values.2.2, roundBinary_more_values.2.1⟩
  · rw [h1, show twosComplement 24 (bigEndian [exampleTelemetry 1, exampleTelemetry 2,
      exampleTelemetry 3]) = 4012345 from by decide]
    norm_num
  · rw [h2, show twosComplement 24 (bigEndian [exampleTelemetry 4, exampleTelemetry 5,
      exampleTelemetry 6]) = -312345 from by decide]
    norm_num
  · rw [h3, show twosComplement 16 (bigEndian [exampleTelemetry 7, exampleTelemetry 8])
      = -250 from by decide]
    norm_num
  · rw [h4, show bigEndian [exampleTelemetry 9, exampleTelemetry 10] = 12345 from by decide]
    norm_num

/-- C7 as stated fails: the example packet is accepted, its bytes 1..3 hold
4012345, and the latitude stored is 5646873577150585 / 2^47
(40.12344999999999828...), not the exact quotient 4012345/100000. -/
theorem parseTelemetryPacket_latitude_not_exact :
    ((parseTelemetryPacket 3 16 exampleOldData).value exampleTelemetry).ok = true ∧
    twosComplement 24 (bigEndian [exampleTelemetry 1, exampleTelemetry 2, exampleTelemetry 3])
      = 4012345 ∧
    ((parseTelemetryPacket 3 16 exampleOldData).value exampleTelemetry).data.latitude
      = 5646873577150585 / 140737488355328 ∧
    ((parseTelemetryPacket 3 16 exampleOldData).value exampleTelemetry).data.latitude
      ≠ (twosComplement 24 (bigEndian [exampleTelemetry 1, exampleTelemetry 2,
          exampleTelemetry 3]) : ℚ) / 100000 := by
  have e : twosComplement 24 (bigEndian [exampleTelemetry 1, exampleTelemetry 2,
      exampleTelemetry 3]) = 4012345 := by decide
  rw [exampleTelemetry_decoded, e]
  refine ⟨rfl, rfl, rfl, ?_⟩
  norm_num

/-! ## Rejected packets leave the globals alone -/

theorem handleReceivedPacket_telemetry_rejected (T : Nat) (packetSize : Int)
    (incoming : List Byte) (stack : Buffer) (tel : TelemetryData) (s : GroundState)
    (hty : ((receiveBytes incoming 0 stack).1 0).val &&& 0xF0 = 0xA0)
    (hrej : ((parseTelemetryPacket T (receiveBytes incoming 0 stack).2 tel).value
      (receiveBytes incoming 0 stack).1).ok = false) :
    handleReceivedPacket T packetSize incoming stack tel s = s := by
  unfold handleReceivedPacket
  simp only [PACKET_ID_TELEMETRY_BASE]
  by_cases hp : packetSize = 0
  · rw [if_pos hp]
  · rw [if_neg hp, if_pos (Or.inr hty), hrej]
    rfl

theorem handleReceivedPacket_scientific_rejected (T : Nat) (packetSize : Int)
    (incoming : List Byte) (stack : Buffer) (tel : TelemetryData) (s : GroundState)
    (hty : ((receiveBytes incoming 0 stack).1 0).val &&& 0xF0 = 0x10)
    (hrej : ((parseScientificPacket T (receiveBytes incoming 0 stack).2 s).value
      (receiveBytes incoming 0 stack).1).diag ≠ none) :
    handleReceivedPacket T packetSize incoming stack tel s = s := by
  unfold handleReceivedPacket
  simp only [PACKET_ID_TELEMETRY_BASE, PACKET_ID_SCIENTIFIC_BASE]
  by_cases hp : packetSize = 0
  · rw [if_pos hp]
  · have hnot : ¬ (((receiveBytes incoming 0 stack).1 0).val = 0xA0 ∨
        ((receiveBytes incoming 0 stack).1 0).val &&& 0xF0 = 0xA0) := by
      rintro (h | h)
      · rw [h] at hty
        exact absurd hty (by decide)
      · rw [h] at hty
        exact absurd hty (by decide)
    rw [if_neg hp, if_neg hnot, if_pos hty]
    exact (parseScientificPacket_of_rejected T _ s _ hrej).1

/-- C3: a rejected packet changes nothing.  `parseTelemetryPacket` returning
`false` leaves its output record as it was; `parseScientificPacket` printing any
of the four diagnostics leaves the globals as they were; and
`handleReceivedPacket`, on a received buffer whose decoder (telemetry or
scientific) rejects it, returns the globals `lastTelemetry`,
`lastScientificPacket`, `lastScientificSize`, `hasScientificPacket` unchanged. -/
theorem rejected_packet_leaves_state (T : Nat) (packetSize : Int) (incoming : List Byte)
    (stack : Buffer) (tel : TelemetryData) (s : GroundState) :
    (∀ (length : Nat) (data : TelemetryData) (buf : Buffer),
      ((parseTelemetryPacket T length data).value buf).ok = false →
        ((parseTelemetryPacket T length data).value buf).data = data) ∧
    (∀ (length : Nat) (buf : Buffer) (r : Reject),
      ((parseScientificPacket T length s).value buf).diag = some r →
        ((parseScientificPacket T length s).value buf).state = s) ∧
    (((receiveBytes incoming 0 stack).1 0).val &&& 0xF0 = 0xA0 →
      ((parseTelemetryPacket T (receiveBytes incoming 0 stack).2 tel).value
        (receiveBytes incoming 0 stack).1).ok = false →
      handleReceivedPacket T packetSize incoming stack tel s = s) ∧
    (((receiveBytes incoming 0 stack).1 0).val &&& 0xF0 = 0x10 →
      ∀ r : Reject,
      ((parseScientificPacket T (receiveBytes incoming 0 stack).2 s).value
        (receiveBytes incoming 0 stack).1).diag = some r →
      handleReceivedPacket T packetSize incoming stack tel s = s) := by
  refine ⟨?_, ?_, handleReceivedPacket_telemetry_rejected T packetSize incoming stack tel s, ?_⟩
  · intro length data buf h
    rw [parseTelemetryPacket_value] at h ⊢
    split_ifs at h ⊢ <;> rfl
  · intro length buf r h
    exact (parseScientificPacket_of_rejected T length s buf (by rw [h]; exact Option.some_ne_none r)).1
  · intro hty r h
    exact handleReceivedPacket_scientific_rejected T packetSize incoming stack tel s hty
      (by rw [h]; exact Option.some_ne_none r)

/-- C3 at concrete packets: the example telemetry packet with its CRC byte
replaced by 0 and the 47-byte scientific packet received by team 4 are both
rejected and leave the globals unchanged. -/
theorem rejected_packet_leaves_state_witness :
    handleReceivedPacket 3 16 (exampleTelemetryPayload ++ [0x00]) exampleStack exampleOldData
        GroundState.init = GroundState.init ∧
    handleReceivedPacket 4 47 exampleScientific47Bytes exampleStack exampleOldData
        GroundState.init = GroundState.init :=
  ⟨(rejected_packet_leaves_state 3 16 (exampleTelemetryPayload ++ [0x00]) exampleStack
      exampleOldData GroundState.init).2.2.1 (by decide) (by decide!),
   (rejected_packet_leaves_state 4 47 exampleScientific47Bytes exampleStack
      exampleOldData GroundState.init).2.2.2 (by decide) Reject.WrongTeam (by decide!)⟩

/-! ## Scientific decoder: storage and section gating -/

/-- C10: after `parseScientificPacket` accepts a buffer, `hasScientificPacket`
is true, `lastScientificSize = min(length, 82)`, the first `lastScientificSize`
bytes of `lastScientificPacket` are those of the input (all received bytes when
`length <= 82`), and no index at or beyond 82 of the store is changed. -/
theorem parseScientificPacket_stores (T length : Nat) (s : GroundState) (buf : Buffer)
    (h : ((parseScientificPacket T length s).value buf).diag = none) :
    ((parseScientificPacket T length s).value buf).state.hasScientificPacket = true ∧
    ((parseScientificPacket T length s).value buf).state.lastScientificSize = min length 82 ∧
    (∀ i, i < ((parseScientificPacket T length s).value buf).state.lastScientificSize →
      ((parseScientificPacket T length s).value buf).state.lastScientificPacket i = buf i) ∧
    (length ≤ 82 → ∀ i, i < length →
      ((parseScientificPacket T length s).value buf).state.lastScientificPacket i = buf i) ∧
    (∀ i, 82 ≤ i →
      ((parseScientificPacket T length s).value buf).state.lastScientificPacket i
        = s.lastScientificPacket i) ∧
    ((parseScientificPacket T length s).value buf).state.lastTelemetry = s.lastTelemetry := by
  rw [parseScientificPacket_of_accepted T length s buf h]
  have hmin : (if length < 82 then length else 82) = min length 82 := by
    split <;> omega
  have hcopy : ∀ i, (scientificStored length s buf).lastScientificPacket i =
      if i < min length 82 then buf i else s.lastScientificPacket i := by
    intro i
    show (memcpy s.lastScientificPacket (if length < 82 then length else 82)).value buf i = _
    rw [hmin]
    rfl
  refine ⟨rfl, hmin, ?_, ?_, ?_, rfl⟩
  · intro i hi
    have hi2 : i < min length 82 := by
      have hsize : (scientificStored length s buf).lastScientificSize = min length 82 := hmin
      change i < (scientificStored length s buf).lastScientificSize at hi
      omega
    rw [hcopy, if_pos hi2]
  · intro hle i hi
    rw [hcopy, if_pos (by omega)]
  · intro i hi
    rw [hcopy, if_neg (by omega)]

/-- C10 at the 82-byte example packet. -/
theorem parseScientificPacket_stores_witness :
    ((parseScientificPacket 3 82 GroundState.init).value exampleScientific82).diag = none ∧
    ((parseScientificPacket 3 82 GroundState.init).value
      exampleScientific82).state.hasScientificPacket = true ∧
    ((parseScientificPacket 3 82 GroundState.init).value
      exampleScientific82).state.lastScientificSize = 82 :=
  have hacc : ((parseScientificPacket 3 82 GroundState.init).value exampleScientific82).diag
      = none := by decide!
  ⟨hacc, (parseScientificPacket_stores 3 82 GroundState.init exampleScientific82 hacc).1,
    (parseScientificPacket_stores 3 82 GroundState.init exampleScientific82 hacc).2.1⟩

theorem flag_set_iff_testBit (x i : Nat) : x &&& 2 ^ i ≠ 0 ↔ x.testBit i = true := by
  rw [and_two_pow_ne_zero, Nat.testBit_to_div_mod, decide_eq_true_iff]

theorem parseSecondary_isSome (length bitmap : Nat) (buf : Buffer) :
    ((parseSecondary length bitmap).value buf).isSome = true ↔
      bitmap.testBit 1 = true ∧ 46 ≤ length := by
  rw [← flag_set_iff_testBit]
  simp only [parseSecondary, BITMAP_SECONDARY_PAYLOAD_FLAG, Rd.value_ite, Rd.value_bind,
    Rd.value_pure]
  split_ifs with h
  · simpa using h
  · simpa using h

theorem parseDetonation_isSome (length bitmap : Nat) (buf : Buffer) :
    ((parseDetonation length bitmap).value buf).isSome = true ↔
      bitmap.testBit 0 = true ∧ 26 ≤ length := by
  rw [← flag_set_iff_testBit]
  simp only [parseDetonation, BITMAP_DETONATION_EVENT_FLAG, Rd.value_ite, Rd.value_bind,
    Rd.value_pure]
  split_ifs with h
  · simpa using h
  · simpa using h

theorem parseLocalisation_isSome (length bitmap : Nat) (buf : Buffer) :
    ((parseLocalisation length bitmap).value buf).isSome = true ↔
      bitmap.testBit 2 = true ∧ 71 ≤ length := by
  rw [← flag_set_iff_testBit]
  simp only [parseLocalisation, BITMAP_LOCALISATION_FLAG, Rd.value_ite, Rd.value_bind,
    Rd.value_pure]
  split_ifs with h
  · simpa using h
  · simpa using h

theorem parseMiniTelemetry_isSome (length bitmap : Nat) (buf : Buffer) :
    ((parseMiniTelemetry length bitmap).value buf).isSome = true ↔
      bitmap.testBit 3 = true ∧ 77 ≤ length := by
  rw [← flag_set_iff_testBit]
  simp only [parseMiniTelemetry, BITMAP_TELEMETRY_FLAG, Rd.value_ite, Rd.value_bind,
    Rd.value_pure]
  split_ifs with h
  · simpa using h
  · simpa using h

/-- C9: for a buffer accepted by `parseScientificPacket` a report is printed in
which each optional section is present exactly when its bit of byte 5 is set
and the length reaches its threshold: secondary payload iff bit 1 and
`length >= 46`, detonation event iff bit 0 and `length >= 26`, localisation iff
bit 2 and `length >= 71`, telemetry tail iff bit 3 and `length >= 77`.  Each
decision mentions only its own bit and the length, so the four are independent. -/
theorem parseScientificPacket_sections (T length : Nat) (s : GroundState) (buf : Buffer)
    (h : ((parseScientificPacket T length s).value buf).diag = none) :
    ∃ r : ScientificReport, ((parseScientificPacket T length s).value buf).report = some r ∧
      (r.secondary.isSome = true ↔ (buf 5).val.testBit 1 = true ∧ 46 ≤ length) ∧
      (r.detonation.isSome = true ↔ (buf 5).val.testBit 0 = true ∧ 26 ≤ length) ∧
      (r.localisation.isSome = true ↔ (buf 5).val.testBit 2 = true ∧ 71 ≤ length) ∧
      (r.miniTelemetry.isSome = true ↔ (buf 5).val.testBit 3 = true ∧ 77 ≤ length) := by
  rw [parseScientificPacket_of_accepted T length s buf h]
  exact ⟨scientificReport length buf, rfl, parseSecondary_isSome _ _ _,
    parseDetonation_isSome _ _ _, parseLocalisation_isSome _ _ _,
    parseMiniTelemetry_isSome _ _ _⟩

/-- C9 at the example packets: the 82-byte packet with bitmap `0x0F` and the
47-byte packet with bitmap `0x03` are accepted, with the sections stated. -/
theorem parseScientificPacket_sections_witness :
    (((parseScientificPacket 3 82 GroundState.init).value exampleScientific82).diag = none ∧
      ∃ r : ScientificReport,
        ((parseScientificPacket 3 82 GroundState.init).value exampleScientific82).report
          = some r ∧
        (r.secondary.isSome = true ↔ (exampleScientific82 5).val.testBit 1 = true ∧ 46 ≤ 82) ∧
        (r.detonation.isSome = true ↔ (exampleScientific82 5).val.testBit 0 = true ∧ 26 ≤ 82) ∧
        (r.localisation.isSome = true ↔ (exampleScientific82 5).val.testBit 2 = true ∧ 71 ≤ 82) ∧
        (r.miniTelemetry.isSome = true ↔
          (exampleScientific82 5).val.testBit 3 = true ∧ 77 ≤ 82)) ∧
    (((parseScientificPacket 3 47 GroundState.init).value exampleScientific47).diag = none ∧
      ∃ r : ScientificReport,
        ((parseScientificPacket 3 47 GroundState.init).value exampleScientific47).report
          = some r ∧
        (r.secondary.isSome = true ↔ (exampleScientific47 5).val.testBit 1 = true ∧ 46 ≤ 47) ∧
        (r.detonation.isSome = true ↔ (exampleScientific47 5).val.testBit 0 = true ∧ 26 ≤ 47) ∧
        (r.localisation.isSome = true ↔ (exampleScientific47 5).val.testBit 2 = true ∧ 71 ≤ 47) ∧
        (r.miniTelemetry.isSome = true ↔
          (exampleScientific47 5).val.testBit 3 = true ∧ 77 ≤ 47)) :=
  have h82 : ((parseScientificPacket 3 82 GroundState.init).value exampleScientific82).diag
      = none := by decide!
  have h47 : ((parseScientificPacket 3 47 GroundState.init).value exampleScientific47).diag
      = none := by decide!
  ⟨⟨h82, parseScientificPacket_sections 3 82 GroundState.init exampleScientific82 h82⟩,
   ⟨h47, parseScientificPacket_sections 3 47 GroundState.init exampleScientific47 h47⟩⟩

/-! ## Reads stay inside the received length -/

section WithinFacts

variable {α β : Type}

theorem Rd.within_pure (a : α) (n : Nat) : (pure a : Rd α).Within n := by
  intro buf i hi
  rw [Rd.reads_pure] at hi
  exact absurd hi (List.not_mem_nil i)

theorem Rd.within_rd (k n : Nat) (h : k < n) : (rd k).Within n := by
  intro buf i hi
  rw [Rd.reads_rd, List.mem_singleton] at hi
  omega

theorem Rd.within_bind (x : Rd α) (f : α → Rd β) (n : Nat) (hx : x.Within n)
    (hf : ∀ a, (f a).Within n) : (x >>= f).Within n := by
  intro buf i hi
  rw [Rd.reads_bind, List.mem_append] at hi
  rcases hi with hi | hi
  · exact hx buf i hi
  · exact hf _ buf i hi

theorem Rd.within_ite (c : Prop) [Decidable c] (x y : Rd α) (n : Nat)
    (hx : c → x.Within n) (hy : ¬ c → y.Within n) : (if c then x else y).Within n := by
  split
  · exact hx ‹_›
  · exact hy ‹_›

end WithinFacts

theorem unpack16bit_within (off n : Nat) (h : off + 1 < n) : (unpack16bit off).Within n := by
  unfold unpack16bit
  exact Rd.within_bind _ _ _ (Rd.within_rd _ _ (by omega)) fun _ =>
    Rd.within_bind _ _ _ (Rd.within_rd _ _ (by omega)) fun _ => Rd.within_pure _ _

theorem unpack16bitSigned_within (off n : Nat) (h : off + 1 < n) :
    (unpack16bitSigned off).Within n := by
  unfold unpack16bitSigned
  exact Rd.within_bind _ _ _ (Rd.within_rd _ _ (by omega)) fun _ =>
    Rd.within_bind _ _ _ (Rd.within_rd _ _ (by omega)) fun _ => Rd.within_pure _ _

theorem unpack24bitSigned_within (off n : Nat) (h : off + 2 < n) :
    (unpack24bitSigned off).Within n := by
  unfold unpack24bitSigned
  exact Rd.within_bind _ _ _ (Rd.within_rd _ _ (by omega)) fun _ =>
    Rd.within_bind _ _ _ (Rd.within_rd _ _ (by omega)) fun _ =>
      Rd.within_bind _ _ _ (Rd.within_rd _ _ (by omega)) fun _ => Rd.within_pure _ _

theorem unpack32bit_within (off n : Nat) (h : off + 3 < n) : (unpack32bit off).Within n := by
  unfold unpack32bit
  exact Rd.within_bind _ _ _ (Rd.within_rd _ _ (by omega)) fun _ =>
    Rd.within_bind _ _ _ (Rd.within_rd _ _ (by omega)) fun _ =>
      Rd.within_bind _ _ _ (Rd.within_rd _ _ (by omega)) fun _ =>
        Rd.within_bind _ _ _ (Rd.within_rd _ _ (by omega)) fun _ => Rd.within_pure _ _

theorem calculateCRC8_within (k n : Nat) (h : k ≤ n) : (calculateCRC8 k).Within n := by
  intro buf i hi
  rw [Rd.reads, ← Rd.reads, calculateCRC8_reads, List.mem_range] at hi
  omega

theorem memcpy_within (dest : Nat → Byte) (k n : Nat) (h : k ≤ n) : (memcpy dest k).Within n := by
  intro buf i hi
  have hi2 : i ∈ List.range k := hi
  rw [List.mem_range] at hi2
  omega

theorem bmpSamples_within (length : Nat) : ∀ fuel i, (bmpSamples length fuel i).Within length := by
  intro fuel
  induction fuel with
  | zero => intro i; exact Rd.within_pure _ _
  | succ fuel ih =>
    intro i
    unfold bmpSamples
    refine Rd.within_ite _ _ _ _ (fun hc => ?_) (fun _ => Rd.within_pure _ _)
    exact Rd.within_bind _ _ _ (unpack16bit_within _ _ (by omega)) fun _ =>
      Rd.within_bind _ _ _ (unpack16bitSigned_within _ _ (by omega)) fun _ =>
        Rd.within_bind _ _ _ (ih _) fun _ => Rd.within_pure _ _

theorem detonationBytes_within (length : Nat) :
    ∀ fuel i, (detonationBytes length fuel i).Within length := by
  intro fuel
  induction fuel with
  | zero => intro i; exact Rd.within_pure _ _
  | succ fuel ih =>
    intro i
    unfold detonationBytes
    refine Rd.within_ite _ _ _ _ (fun hc => ?_) (fun _ => Rd.within_pure _ _)
    exact Rd.within_bind _ _ _ (Rd.within_rd _ _ (by omega)) fun _ =>
      Rd.within_bind _ _ _ (ih _) fun _ => Rd.within_pure _ _

theorem detonationPositions_within (length : Nat) (hlen : 71 ≤ length) :
    ∀ fuel locIdx detCount, locIdx = 52 + 4 * detCount →
      (detonationPositions length fuel locIdx detCount).Within length := by
  intro fuel
  induction fuel with
  | zero => intro locIdx detCount _; exact Rd.within_pure _ _
  | succ fuel ih =>
    intro locIdx detCount hinv
    unfold detonationPositions
    refine Rd.within_ite _ _ _ _ (fun hc => ?_) (fun _ => Rd.within_pure _ _)
    exact Rd.within_bind _ _ _ (unpack16bit_within _ _ (by omega)) fun _ =>
      Rd.within_bind _ _ _ (unpack16bitSigned_within _ _ (by omega)) fun _ =>
        Rd.within_bind _ _ _ (ih _ _ (by omega)) fun _ => Rd.within_pure _ _

theorem miniTelemetryBytes_within (length telStart : Nat) :
    ∀ fuel i, (miniTelemetryBytes length telStart fuel i).Within length := by
  intro fuel
  induction fuel with
  | zero => intro i; exact Rd.within_pure _ _
  | succ fuel ih =>
    intro i
    unfold miniTelemetryBytes
    refine Rd.within_ite _ _ _ _ (fun hc => ?_) (fun _ => Rd.within_pure _ _)
    exact Rd.within_bind _ _ _ (Rd.within_rd _ _ (by omega)) fun _ =>
      Rd.within_bind _ _ _ (ih _) fun _ => Rd.within_pure _ _

theorem parseSecondary_within (length bitmap : Nat) :
    (parseSecondary length bitmap).Within length := by
  unfold parseSecondary
  refine Rd.within_ite _ _ _ _ (fun hc => ?_) (fun _ => Rd.within_pure _ _)
  exact Rd.within_bind _ _ _ (unpack16bitSigned_within _ _ (by omega)) fun _ =>
    Rd.within_bind _ _ _ (unpack16bitSigned_within _ _ (by omega)) fun _ =>
      Rd.within_bind _ _ _ (bmpSamples_within _ _ _) fun _ => Rd.within_pure _ _

theorem parseDetonation_within (length bitmap : Nat) :
    (parseDetonation length bitmap).Within length := by
  unfold parseDetonation
  refine Rd.within_ite _ _ _ _ (fun hc => ?_) (fun _ => Rd.within_pure _ _)
  exact Rd.within_bind _ _ _ (detonationBytes_within _ _ _) fun _ => Rd.within_pure _ _

theorem parseLocalisation_within (length bitmap : Nat) :
    (parseLocalisation length bitmap).Within length := by
  unfold parseLocalisation
  refine Rd.within_ite _ _ _ _ (fun hc => ?_) (fun _ => Rd.within_pure _ _)
  exact Rd.within_bind _ _ _ (unpack24bitSigned_within _ _ (by omega)) fun _ =>
    Rd.within_bind _ _ _ (unpack24bitSigned_within _ _ (by omega)) fun _ =>
      Rd.within_bind _ _ _ (detonationPositions_within _ hc.2 _ _ _ rfl) fun _ =>
        Rd.within_pure _ _

theorem parseMiniTelemetry_within (length bitmap : Nat) :
    (parseMiniTelemetry length bitmap).Within length := by
  unfold parseMiniTelemetry
  refine Rd.within_ite _ _ _ _ (fun hc => ?_) (fun _ => Rd.within_pure _ _)
  exact Rd.within_bind _ _ _ (miniTelemetryBytes_within _ _ _ _) fun _ => Rd.within_pure _ _

theorem parseTelemetryPacket_within (T length : Nat) (data : TelemetryData) :
    (parseTelemetryPacket T length data).Within length := by
  unfold parseTelemetryPacket
  refine Rd.within_ite _ _ _ _ (fun _ => Rd.within_pure _ _) (fun hlen => ?_)
  refine Rd.within_bind _ _ _ (Rd.within_rd _ _ (by omega)) fun packetId => ?_
  refine Rd.within_ite _ _ _ _ (fun _ => Rd.within_pure _ _) (fun _ => ?_)
  refine Rd.within_ite _ _ _ _ (fun _ => Rd.within_pure _ _) (fun _ => ?_)
  refine Rd.within_bind _ _ _ (Rd.within_rd _ _ (by omega)) fun receivedCRC => ?_
  refine Rd.within_bind _ _ _ (calculateCRC8_within _ _ (by omega)) fun calculatedCRC => ?_
  refine Rd.within_ite _ _ _ _ (fun _ => Rd.within_pure _ _) (fun _ => ?_)
  exact Rd.within_bind _ _ _ (unpack24bitSigned_within _ _ (by omega)) fun _ =>
    Rd.within_bind _ _ _ (unpack24bitSigned_within _ _ (by omega)) fun _ =>
      Rd.within_bind _ _ _ (unpack16bitSigned_within _ _ (by omega)) fun _ =>
        Rd.within_bind _ _ _ (unpack16bit_within _ _ (by omega)) fun _ =>
          Rd.within_bind _ _ _ (unpack32bit_within _ _ (by omega)) fun _ =>
            Rd.within_pure _ _

theorem parseScientificPacket_within (T length : Nat) (s : GroundState) :
    (parseScientificPacket T length s).Within length := by
  unfold parseScientificPacket
  refine Rd.within_ite _ _ _ _ (fun _ => Rd.within_pure _ _) (fun hlen => ?_)
  refine Rd.within_bind _ _ _ (Rd.within_rd _ _ (by omega)) fun packetId => ?_
  refine Rd.within_ite _ _ _ _ (fun _ => Rd.within_pure _ _) (fun _ => ?_)
  refine Rd.within_ite _ _ _ _ (fun _ => Rd.within_pure _ _) (fun _ => ?_)
  refine Rd.within_bind _ _ _ (Rd.within_rd _ _ (by omega)) fun receivedCRC => ?_
  refine Rd.within_bind _ _ _ (calculateCRC8_within _ _ (by omega)) fun calculatedCRC => ?_
  refine Rd.within_ite _ _ _ _ (fun _ => Rd.within_pure _ _) (fun _ => ?_)
  refine Rd.within_bind _ _ _ (memcpy_within _ _ _ (by split <;> omega)) fun stored => ?_
  refine Rd.within_bind _ _ _ (unpack32bit_within _ _ (by omega)) fun timestamp => ?_
  refine Rd.within_bind _ _ _ (Rd.within_rd _ _ (by omega)) fun bitmap => ?_
  exact Rd.within_bind _ _ _ (parseSecondary_within _ _) fun _ =>
    Rd.within_bind _ _ _ (parseDetonation_within _ _) fun _ =>
      Rd.within_bind _ _ _ (parseLocalisation_within _ _) fun _ =>
        Rd.within_bind _ _ _ (parseMiniTelemetry_within _ _) fun _ =>
          Rd.within_pure _ _

theorem parseScientificPacket_reads_short (T length : Nat) (s : GroundState) (buf : Buffer)
    (h : length < 47) : (parseScientificPacket T length s).reads buf = [] := by
  unfold parseScientificPacket
  rw [if_pos h, Rd.reads_pure]

/-- C8: every buffer index read by `parseScientificPacket` (header, checksum,
stored copy, timestamp, bitmap and the four optional sections) and every index
read by `parseTelemetryPacket` is strictly below `length`; with `length = 40`,
whatever the bitmap, `parseScientificPacket` reads nothing at all, so in
particular none of bytes 26..45. -/
theorem decoders_read_within_length :
    (∀ (T length : Nat) (s : GroundState) (buf : Buffer),
      ∀ i ∈ (parseScientificPacket T length s).reads buf, i < length) ∧
    (∀ (T length : Nat) (data : TelemetryData) (buf : Buffer),
      ∀ i ∈ (parseTelemetryPacket T length data).reads buf, i < length) ∧
    (∀ (T : Nat) (s : GroundState) (buf : Buffer),
      (buf 5).val.testBit 1 = true → (parseScientificPacket T 40 s).reads buf = []) :=
  ⟨fun T length s buf => parseScientificPacket_within T length s buf,
   fun T length data buf => parseTelemetryPacket_within T length data buf,
   fun T s buf _ => parseScientificPacket_reads_short T 40 s buf (by decide)⟩

/-! ## Arithmetic of GF(2) polynomials -/

theorem shiftLeft_xor (x y k : Nat) : (x ^^^ y) <<< k = x <<< k ^^^ y <<< k := by
  apply Nat.eq_of_testBit_eq
  intro j
  simp only [Nat.testBit_shiftLeft, Nat.testBit_xor]
  cases decide (j ≥ k) <;> simp

theorem mul_two_pow_xor (x y k : Nat) : (x ^^^ y) * 2 ^ k = x * 2 ^ k ^^^ y * 2 ^ k := by
  simp only [← Nat.shiftLeft_eq]
  exact shiftLeft_xor x y k

theorem two_mul_xor (x y : Nat) : 2 * (x ^^^ y) = 2 * x ^^^ 2 * y := by
  have h := mul_two_pow_xor x y 1
  simpa [Nat.mul_comm] using h

theorem mul_add_eq_xor (a b i : Nat) (hb : b < 2 ^ i) : a * 2 ^ i + b = a * 2 ^ i ^^^ b := by
  rw [Nat.mul_comm a]
  apply Nat.eq_of_testBit_eq
  intro j
  simp only [Nat.testBit_mul_pow_two_add _ hb, Nat.testBit_xor, Nat.testBit_mul_pow_two]
  by_cases hj : j < i
  · simp [hj, Nat.not_le_of_lt hj]
  · have hle : i ≤ j := Nat.le_of_not_lt hj
    have hbj : b < 2 ^ j := Nat.lt_of_lt_of_le hb (Nat.pow_le_pow_right (by decide) hle)
    simp [hj, hle, Nat.testBit_lt_two_pow hbj]

theorem xor_ge_of_lt_of_ge (x y k : Nat) (hx : x < 2 ^ k) (hy : 2 ^ k ≤ y) :
    2 ^ k ≤ x ^^^ y := by
  by_contra hlt
  have h1 : x ^^^ (x ^^^ y) < 2 ^ k := Nat.xor_lt_two_pow hx (Nat.lt_of_not_le hlt)
  rw [Nat.xor_cancel_left] at h1
  omega

theorem lt_of_testBit_false (x m : Nat) (hx : x < 2 ^ (m + 1)) (hbit : x.testBit m = false) :
    x < 2 ^ m := by
  by_contra hge
  have hle : 2 ^ m ≤ x := Nat.le_of_not_lt hge
  have hdiv : x / 2 ^ m = 1 := by
    apply Nat.div_eq_of_lt_le
    · omega
    · rw [Nat.pow_succ] at hx
      omega
  rw [Nat.testBit_to_div_mod, hdiv] at hbit
  exact absurd hbit (by decide)

theorem gf2Mul_unfold (q p : Nat) :
    gf2Mul q p = (if q % 2 = 1 then p else 0) ^^^ 2 * gf2Mul (q / 2) p := by
  by_cases hq : q = 0
  · subst hq
    have h0 : gf2Mul 0 p = 0 := by
      rw [gf2Mul]
      rfl
    simp [h0]
  · rw [gf2Mul, if_neg hq]

theorem gf2Mul_zero (p : Nat) : gf2Mul 0 p = 0 := by
  rw [gf2Mul]
  rfl

theorem gf2Mul_one (p : Nat) : gf2Mul 1 p = p := by
  rw [gf2Mul_unfold]
  simp [gf2Mul_zero]

theorem gf2Mul_double (q p : Nat) : gf2Mul (2 * q) p = 2 * gf2Mul q p := by
  rw [gf2Mul_unfold]
  have h1 : 2 * q % 2 = 0 := by omega
  have h2 : 2 * q / 2 = q := by omega
  simp [h1, h2]

theorem gf2Mul_two_pow (k p : Nat) : gf2Mul (2 ^ k) p = p * 2 ^ k := by
  induction k with
  | zero => simp [gf2Mul_one]
  | succ k ih =>
    rw [Nat.pow_succ, Nat.mul_comm (2 ^ k) 2, gf2Mul_double, ih]
    ring

theorem gf2Mul_xor (p : Nat) : ∀ a b : Nat, gf2Mul (a ^^^ b) p = gf2Mul a p ^^^ gf2Mul b p := by
  intro a
  induction a using Nat.strong_induction_on with
  | _ a ih =>
    intro b
    by_cases ha : a = 0
    · subst ha
      simp [gf2Mul_zero]
    · have hlt : a / 2 < a := by omega
      rw [gf2Mul_unfold (a ^^^ b), gf2Mul_unfold a, gf2Mul_unfold b, Nat.xor_div_two,
        ih (a / 2) hlt (b / 2), two_mul_xor]
      have hmod : (a ^^^ b) % 2 = (a + b) % 2 := Nat.xor_mod_two_eq
      have hcase : (if (a ^^^ b) % 2 = 1 then p else 0) =
          (if a % 2 = 1 then p else 0) ^^^ (if b % 2 = 1 then p else 0) := by
        rcases Nat.mod_two_eq_zero_or_one a with h1 | h1 <;>
          rcases Nat.mod_two_eq_zero_or_one b with h2 | h2 <;>
          · have h3 : (a ^^^ b) % 2 = (a % 2 + b % 2) % 2 := by omega
            rw [h3, h1, h2]
            simp
      rw [hcase]
      ac_rfl

theorem gf2Mul_lower (p : Nat) (hp : 256 ≤ p) (hp2 : p < 512) :
    ∀ q : Nat, q ≠ 0 → 256 ≤ gf2Mul q p := by
  intro q
  induction q using Nat.strong_induction_on with
  | _ q ih =>
    intro hq
    rw [gf2Mul_unfold]
    by_cases h1 : q / 2 = 0
    · have hq1 : q = 1 := by omega
      subst hq1
      simp [gf2Mul_zero, h1]
      exact hp
    · have hrec : 256 ≤ gf2Mul (q / 2) p := ih (q / 2) (by omega) h1
      have hbig : 2 ^ 9 ≤ 2 * gf2Mul (q / 2) p := by
        norm_num
        omega
      have hsmall : (if q % 2 = 1 then p else 0) < 2 ^ 9 := by
        split
        · norm_num
          exact hp2
        · norm_num
      have := xor_ge_of_lt_of_ge _ _ 9 hsmall hbig
      norm_num at this
      omega

/-! ## Congruence modulo a polynomial -/

theorem Gf2Cong.refl (p a : Nat) : Gf2Cong p a a :=
  ⟨0, by rw [Nat.xor_self, gf2Mul_zero]⟩

theorem Gf2Cong.symm {p a b : Nat} (h : Gf2Cong p a b) : Gf2Cong p b a := by
  obtain ⟨q, hq⟩ := h
  exact ⟨q, by rw [Nat.xor_comm, hq]⟩

theorem Gf2Cong.trans {p a b c : Nat} (h1 : Gf2Cong p a b) (h2 : Gf2Cong p b c) :
    Gf2Cong p a c := by
  obtain ⟨q1, hq1⟩ := h1
  obtain ⟨q2, hq2⟩ := h2
  refine ⟨q1 ^^^ q2, ?_⟩
  rw [gf2Mul_xor, ← hq1, ← hq2, Nat.xor_assoc, Nat.xor_cancel_left]

theorem Gf2Cong.xor_right {p a b : Nat} (h : Gf2Cong p a b) (c : Nat) :
    Gf2Cong p (a ^^^ c) (b ^^^ c) := by
  obtain ⟨q, hq⟩ := h
  refine ⟨q, ?_⟩
  rw [← hq, Nat.xor_assoc, Nat.xor_comm b c, Nat.xor_cancel_left]

theorem Gf2Cong.mul_two_pow {p a b : Nat} (h : Gf2Cong p a b) (k : Nat) :
    Gf2Cong p (a * 2 ^ k) (b * 2 ^ k) := by
  obtain ⟨q, hq⟩ := h
  induction k with
  | zero => exact ⟨q, by simpa using hq⟩
  | succ k ih =>
    obtain ⟨q2, hq2⟩ := ih
    refine ⟨2 * q2, ?_⟩
    rw [gf2Mul_double, ← hq2, two_mul_xor, Nat.pow_succ]
    congr 1 <;> ring

theorem Gf2Cong.xor_shifted (p x k : Nat) : Gf2Cong p (x ^^^ (p <<< k)) x :=
  ⟨2 ^ k, by rw [gf2Mul_two_pow, Nat.xor_comm, Nat.xor_cancel_left, Nat.shiftLeft_eq]⟩

theorem Gf2Cong.eq_of_lt {a b : Nat} (h : Gf2Cong crcPoly a b) (ha : a < 256) (hb : b < 256) :
    a = b := by
  obtain ⟨q, hq⟩ := h
  have hx : a ^^^ b < 2 ^ 8 := Nat.xor_lt_two_pow (by simpa using ha) (by simpa using hb)
  by_cases h0 : q = 0
  · rw [h0, gf2Mul_zero] at hq
    exact Nat.xor_eq_zero.mp hq
  · have := gf2Mul_lower crcPoly (by decide) (by decide) q h0
    rw [← hq] at this
    norm_num at hx
    omega

/-! ## Long division computes the remainder -/

theorem gf2RemLoop_spec (p d : Nat) (hp : p < 2 ^ (d + 1)) (hd : p.testBit d = true) :
    ∀ k r : Nat, r < 2 ^ (k + d) →
      gf2RemLoop p d k r < 2 ^ d ∧ Gf2Cong p (gf2RemLoop p d k r) r := by
  intro k
  induction k with
  | zero =>
    intro r hr
    exact ⟨by simpa [gf2RemLoop] using hr, Gf2Cong.refl p r⟩
  | succ k ih =>
    intro r hr
    have hr2 : r < 2 ^ (k + d + 1) := by
      rw [show k + d + 1 = k + 1 + d from by omega]
      exact hr
    rw [gf2RemLoop]
    by_cases hbit : r.testBit (k + d) = true
    · rw [if_pos hbit]
      have hshift : p <<< k < 2 ^ (k + d + 1) := by
        rw [Nat.shiftLeft_eq, show k + d + 1 = (d + 1) + k from by omega, Nat.pow_add]
        exact Nat.mul_lt_mul_of_pos_right hp (Nat.two_pow_pos k)
      have hx : r ^^^ (p <<< k) < 2 ^ (k + d + 1) := Nat.xor_lt_two_pow hr2 hshift
      have hxbit : (r ^^^ (p <<< k)).testBit (k + d) = false := by
        rw [Nat.testBit_xor, Nat.testBit_shiftLeft, hbit]
        simp [hd]
      have hlt := lt_of_testBit_false _ _ hx hxbit
      obtain ⟨h1, h2⟩ := ih _ hlt
      exact ⟨h1, h2.trans (Gf2Cong.xor_shifted p r k)⟩
    · rw [if_neg hbit]
      have hlt := lt_of_testBit_false _ _ hr2 (by simpa using hbit)
      exact ih _ hlt

theorem gf2Rem_crcPoly (a : Nat) :
    gf2Rem a crcPoly < 2 ^ 8 ∧ Gf2Cong crcPoly (gf2Rem a crcPoly) a := by
  have hlog : Nat.log2 crcPoly = 8 := by decide!
  rw [gf2Rem, hlog]
  apply gf2RemLoop_spec crcPoly 8 (by decide) (by decide)
  have ha : a < 2 ^ (Nat.log2 a + 1) := Nat.lt_log2_self
  by_cases hk : 8 ≤ Nat.log2 a + 1
  · rw [show Nat.log2 a + 1 - 8 + 8 = Nat.log2 a + 1 from by omega]
    exact ha
  · rw [show Nat.log2 a + 1 - 8 + 8 = 8 from by omega]
    exact Nat.lt_of_lt_of_le ha (Nat.pow_le_pow_right (by decide) (by omega))

/-! ## The CRC loop computes the remainder -/

theorem crcStep_table :
    ∀ c : Fin 256, crcStep c.val = if 128 ≤ c.val then (2 * c.val) ^^^ 263 else 2 * c.val := by
  decide!

theorem crcStep_cong (c : Nat) (hc : c < 256) : Gf2Cong crcPoly (crcStep c) (2 * c) := by
  have h := crcStep_table ⟨c, hc⟩
  simp only [] at h
  rw [h]
  split
  · exact ⟨1, by rw [gf2Mul_one, Nat.xor_comm, Nat.xor_cancel_left]; rfl⟩
  · exact Gf2Cong.refl _ _

theorem crcStep_iterate_cong (c : Nat) (hc : c < 256) :
    ∀ k : Nat, crcStep^[k] c < 256 ∧ Gf2Cong crcPoly (crcStep^[k] c) (c * 2 ^ k) := by
  intro k
  induction k with
  | zero => exact ⟨by simpa using hc, by simpa using Gf2Cong.refl crcPoly c⟩
  | succ k ih =>
    obtain ⟨h1, h2⟩ := ih
    rw [Function.iterate_succ_apply']
    refine ⟨crcStep_lt _, (crcStep_cong _ h1).trans ?_⟩
    have h3 := h2.mul_two_pow 1
    rw [Nat.pow_succ, ← Nat.mul_assoc]
    simpa [Nat.mul_comm] using h3

theorem crcFold_cong (l : List Byte) : ∀ crc m : Nat, crc < 256 →
    Gf2Cong crcPoly crc (m * 2 ^ 8) →
    Gf2Cong crcPoly (crcFold crc (l.map Fin.val))
      ((l.foldl (fun acc b => acc * 256 + b.val) m) * 2 ^ 8) := by
  induction l with
  | nil =>
    intro crc m _ h
    simpa [crcFold] using h
  | cons d l ih =>
    intro crc m hcrc h
    have hd : d.val < 2 ^ 8 := d.isLt
    have hx : crc ^^^ d.val < 256 := Nat.xor_lt_two_pow (n := 8) hcrc hd
    obtain ⟨h1, h2⟩ := crcStep_iterate_cong (crc ^^^ d.val) hx 8
    simp only [List.map_cons, crcFold, List.foldl_cons]
    refine ih _ _ h1 (h2.trans ?_)
    rw [mul_two_pow_xor]
    have h3 := (h.mul_two_pow 8).xor_right (d.val * 2 ^ 8)
    have e : (m * 256 + d.val) * 2 ^ 8 = m * 2 ^ 8 * 2 ^ 8 ^^^ d.val * 2 ^ 8 := by
      rw [show m * 256 = m * 2 ^ 8 from rfl, mul_add_eq_xor m d.val 8 hd, mul_two_pow_xor]
    rw [e]
    exact h3

theorem crc8_cong (b : List Byte) : Gf2Cong crcPoly (crc8 b) (bigEndian b * 2 ^ 8) := by
  rw [crc8_eq_crcFold]
  exact crcFold_cong b 0 0 (by decide) (by simpa using Gf2Cong.refl crcPoly 0)

theorem crc8_lt (b : List Byte) : crc8 b < 256 := by
  rw [crc8_eq_crcFold]
  exact crcFold_lt _ 0 (by decide)

theorem crc8_eq_reference (b : List Byte) : crc8 b = crc8Reference b := by
  obtain ⟨h1, h2⟩ := gf2Rem_crcPoly (bigEndian b * 2 ^ 8)
  exact ((crc8_cong b).trans h2.symm).eq_of_lt (crc8_lt b) (by simpa using h1)

/-- C4: `calculateCRC8` is the reference CRC-8 with polynomial 0x07, initial
value 0x00, MSB first, no reflection and no final XOR: for every byte sequence
`b` its result is the remainder of `M(x) * x^8` modulo `x^8 + x^2 + x + 1` over
GF(2), that is the one polynomial of degree below 8 that differs from
`M(x) * x^8` by a multiple of the generator; the empty sequence gives `0x00`
and the ASCII bytes of "123456789" give `0xF4`. -/
theorem calculateCRC8_is_reference (b : List Byte) (buf : Buffer) (n : Nat) :
    crc8 b = crc8Reference b ∧
    (calculateCRC8 n).value buf = crc8Reference (bufTake buf n) ∧
    crc8Reference b < 2 ^ 8 ∧
    (∃ q, crc8Reference b ^^^ (bigEndian b * 2 ^ 8) = gf2Mul q crcPoly) ∧
    (∀ r, r < 2 ^ 8 → (∃ q, r ^^^ (bigEndian b * 2 ^ 8) = gf2Mul q crcPoly) →
      r = crc8Reference b) ∧
    crc8 [] = 0x00 ∧
    crc8 [0x31, 0x32, 0x33, 0x34, 0x35, 0x36, 0x37, 0x38, 0x39] = 0xF4 := by
  obtain ⟨h1, h2⟩ := gf2Rem_crcPoly (bigEndian b * 2 ^ 8)
  refine ⟨crc8_eq_reference b, ?_, h1, h2, ?_, by decide, by decide!⟩
  · rw [calculateCRC8_value, ← crc8_eq_crcFold]
    exact crc8_eq_reference _
  · intro r hr hq
    have hc : Gf2Cong crcPoly r (crc8Reference b) := Gf2Cong.trans hq h2.symm
    exact hc.eq_of_lt (by simpa using hr) (by simpa using h1)

/-! ## Reads of the example packets -/

/-- The reads of the accepted 47-byte example, in program order: byte 0, the
checksum byte, the CRC pass, the stored copy, timestamp and bitmap, the
secondary payload (UV words, then four samples) and the detonation block. -/
theorem exampleScientific47_reads :
    (parseScientificPacket 3 47 GroundState.init).reads exampleScientific47 =
      [0, 46] ++ List.range 46 ++ List.range 47 ++ [1, 2, 3, 4, 5] ++ [26, 27, 28, 29]
        ++ List.range' 30 16 ++ List.range' 6 20 := by
  decide!

/-- C8 at concrete packets: index 81 of the 82-byte example and index 15 of the
telemetry example are read and are below the length; the 47-byte example, whose
secondary-payload bit is set, cut to length 40 is not read at all. -/
theorem decoders_read_within_length_witness :
    (81 ∈ (parseScientificPacket 3 82 GroundState.init).reads exampleScientific82 ∧ 81 < 82) ∧
    (15 ∈ (parseTelemetryPacket 3 16 exampleOldData).reads exampleTelemetry ∧ 15 < 16) ∧
    (parseScientificPacket 3 40 GroundState.init).reads exampleScientific47 = [] :=
  have h81 : 81 ∈ (parseScientificPacket 3 82 GroundState.init).reads exampleScientific82 := by
    decide!
  have h15 : 15 ∈ (parseTelemetryPacket 3 16 exampleOldData).reads exampleTelemetry := by
    decide!
  ⟨⟨h81, decoders_read_within_length.1 3 82 GroundState.init exampleScientific82 81 h81⟩,
   ⟨h15, decoders_read_within_length.2.1 3 16 exampleOldData exampleTelemetry 15 h15⟩,
   decoders_read_within_length.2.2 3 GroundState.init exampleScientific47 (by decide)⟩

/-! ## The loop bounds are their own fuel -/

theorem bmpSamples_fuel (length : Nat) : ∀ fuel i, 4 ≤ fuel + i →
    bmpSamples length (fuel + 1) i = bmpSamples length fuel i := by
  intro fuel
  induction fuel with
  | zero =>
    intro i hi
    rw [bmpSamples, bmpSamples, if_neg (by omega)]
  | succ fuel ih =>
    intro i hi
    rw [bmpSamples, ih (i + 1) (by omega)]
    rfl

theorem detonationBytes_fuel (length : Nat) : ∀ fuel i, 20 ≤ fuel + i →
    detonationBytes length (fuel + 1) i = detonationBytes length fuel i := by
  intro fuel
  induction fuel with
  | zero =>
    intro i hi
    rw [detonationBytes, detonationBytes, if_neg (by omega)]
  | succ fuel ih =>
    intro i hi
    rw [detonationBytes, ih (i + 1) (by omega)]
    rfl

theorem detonationPositions_fuel (length : Nat) : ∀ fuel locIdx detCount, 4 ≤ fuel + detCount →
    detonationPositions length (fuel + 1) locIdx detCount
      = detonationPositions length fuel locIdx detCount := by
  intro fuel
  induction fuel with
  | zero =>
    intro locIdx detCount hi
    rw [detonationPositions, detonationPositions, if_neg (by omega)]
  | succ fuel ih =>
    intro locIdx detCount hi
    rw [detonationPositions, ih (locIdx + 4) (detCount + 1) (by omega)]
    rfl

theorem miniTelemetryBytes_fuel (length telStart : Nat) : ∀ fuel i, 10 ≤ fuel + i →
    miniTelemetryBytes length telStart (fuel + 1) i = miniTelemetryBytes length telStart fuel i := by
  intro fuel
  induction fuel with
  | zero =>
    intro i hi
    rw [miniTelemetryBytes, miniTelemetryBytes, if_neg (by omega)]
  | succ fuel ih =>
    intro i hi
    rw [miniTelemetryBytes, ih (i + 1) (by omega)]
    rfl

/-! ## Optional sections: exact values and reads -/

theorem unpack16bit_reads (off : Nat) (buf : Buffer) :
    (unpack16bit off).reads buf = [off, off + 1] := by
  simp only [unpack16bit, Rd.reads_bind, Rd.reads_rd, Rd.reads_pure, List.append_nil,
    List.singleton_append]

theorem unpack16bitSigned_reads (off : Nat) (buf : Buffer) :
    (unpack16bitSigned off).reads buf = [off, off + 1] := by
  simp only [unpack16bitSigned, Rd.reads_bind, Rd.reads_rd, Rd.reads_pure, List.append_nil,
    List.singleton_append]

theorem unpack24bitSigned_reads (off : Nat) (buf : Buffer) :
    (unpack24bitSigned off).reads buf = [off, off + 1, off + 2] := by
  simp only [unpack24bitSigned, Rd.reads_bind, Rd.reads_rd, Rd.reads_pure, List.append_nil,
    List.singleton_append, List.cons_append, List.nil_append]

theorem unpack32bit_reads (off : Nat) (buf : Buffer) :
    (unpack32bit off).reads buf = [off, off + 1, off + 2, off + 3] := by
  simp only [unpack32bit, Rd.reads_bind, Rd.reads_rd, Rd.reads_pure, List.append_nil,
    List.singleton_append, List.cons_append, List.nil_append]

/-- The sample the BMP loop prints at iteration `i`. -/
theorem bmpSamples_step (length fuel i : Nat) (buf : Buffer) (hi : i < 4)
    (hlen : 30 + i * 4 + 3 < length) :
    (bmpSamples length (fuel + 1) i).value buf =
        ⟨divFloat ((unpack16bit (30 + i * 4)).value buf : ℚ) 10,
          divFloat ((unpack16bitSigned (30 + i * 4 + 2)).value buf : ℚ) 100⟩
          :: (bmpSamples length fuel (i + 1)).value buf ∧
    (bmpSamples length (fuel + 1) i).reads buf =
        [30 + i * 4, 30 + i * 4 + 1, 30 + i * 4 + 2, 30 + i * 4 + 2 + 1]
          ++ (bmpSamples length fuel (i + 1)).reads buf := by
  rw [bmpSamples, if_pos ⟨hi, hlen⟩]
  simp only [Rd.value_bind, Rd.value_pure, Rd.reads_bind, Rd.reads_pure, unpack16bit_reads,
    unpack16bitSigned_reads, List.append_nil, List.cons_append, List.nil_append, and_self]

theorem bmpSamples_stop (length fuel i : Nat) (buf : Buffer) (hi : 4 ≤ i) :
    (bmpSamples length fuel i).value buf = [] ∧ (bmpSamples length fuel i).reads buf = [] := by
  cases fuel with
  | zero => exact ⟨rfl, rfl⟩
  | succ fuel =>
    rw [bmpSamples, if_neg (by omega)]
    exact ⟨rfl, rfl⟩

theorem bmpSamples_full (length : Nat) (buf : Buffer) (hlen : 46 ≤ length) :
    (bmpSamples length 4 0).value buf =
        [0, 1, 2, 3].map (fun i => (⟨divFloat ((unpack16bit (30 + i * 4)).value buf : ℚ) 10,
          divFloat ((unpack16bitSigned (30 + i * 4 + 2)).value buf : ℚ) 100⟩ : BmpSample)) ∧
    (bmpSamples length 4 0).reads buf = List.range' 30 16 := by
  obtain ⟨v0, r0⟩ := bmpSamples_step length 3 0 buf (by decide) (by omega)
  obtain ⟨v1, r1⟩ := bmpSamples_step length 2 1 buf (by decide) (by omega)
  obtain ⟨v2, r2⟩ := bmpSamples_step length 1 2 buf (by decide) (by omega)
  obtain ⟨v3, r3⟩ := bmpSamples_step length 0 3 buf (by decide) (by omega)
  obtain ⟨v4, r4⟩ := bmpSamples_stop length 0 4 buf (by decide)
  refine ⟨?_, ?_⟩
  · rw [v0, v1, v2, v3, v4]
    rfl
  · rw [r0, r1, r2, r3, r4]
    rfl

theorem detonationBytes_eq (length : Nat) (buf : Buffer) (hlen : 26 ≤ length) :
    ∀ fuel i, fuel + i = 20 →
      (detonationBytes length fuel i).value buf
          = (List.range' (6 + i) fuel).map (fun j => (buf j).val) ∧
      (detonationBytes length fuel i).reads buf = List.range' (6 + i) fuel := by
  intro fuel
  induction fuel with
  | zero => intro i _; exact ⟨rfl, rfl⟩
  | succ fuel ih =>
    intro i hi
    obtain ⟨h1, h2⟩ := ih (i + 1) (by omega)
    rw [detonationBytes, if_pos ⟨by omega, by omega⟩]
    simp only [Rd.value_bind, Rd.value_pure, Rd.value_rd, Rd.reads_bind, Rd.reads_pure,
      Rd.reads_rd, h1, h2, List.range'_succ, List.map_cons, List.append_nil,
      List.singleton_append]
    exact ⟨by rw [Nat.add_assoc], by rw [Nat.add_assoc]⟩

theorem detonationPositions_step (length fuel locIdx detCount : Nat) (buf : Buffer)
    (hc : detCount < 4) (hlen : locIdx < length - 1) :
    (detonationPositions length (fuel + 1) locIdx detCount).value buf =
        ⟨(unpack16bit locIdx).value buf,
          divFloat ((unpack16bitSigned (locIdx + 2)).value buf : ℚ) 1000⟩
          :: (detonationPositions length fuel (locIdx + 4) (detCount + 1)).value buf ∧
    (detonationPositions length (fuel + 1) locIdx detCount).reads buf =
        [locIdx, locIdx + 1, locIdx + 2, locIdx + 2 + 1]
          ++ (detonationPositions length fuel (locIdx + 4) (detCount + 1)).reads buf := by
  rw [detonationPositions, if_pos ⟨hlen, hc⟩]
  simp only [Rd.value_bind, Rd.value_pure, Rd.reads_bind, Rd.reads_pure, unpack16bit_reads,
    unpack16bitSigned_reads, List.append_nil, List.cons_append, List.nil_append, and_self]

theorem detonationPositions_full (length : Nat) (buf : Buffer) (hlen : 71 ≤ length) :
    (detonationPositions length 4 52 0).value buf =
        [0, 1, 2, 3].map (fun k => (⟨(unpack16bit (52 + 4 * k)).value buf,
          divFloat ((unpack16bitSigned (54 + 4 * k)).value buf : ℚ) 1000⟩ : DetonationPosition)) ∧
    (detonationPositions length 4 52 0).reads buf = List.range' 52 16 := by
  obtain ⟨v0, r0⟩ := detonationPositions_step length 3 52 0 buf (by decide) (by omega)
  obtain ⟨v1, r1⟩ := detonationPositions_step length 2 56 1 buf (by decide) (by omega)
  obtain ⟨v2, r2⟩ := detonationPositions_step length 1 60 2 buf (by decide) (by omega)
  obtain ⟨v3, r3⟩ := detonationPositions_step length 0 64 3 buf (by decide) (by omega)
  refine ⟨?_, ?_⟩
  · rw [v0, v1, v2, v3]
    rfl
  · rw [r0, r1, r2, r3]
    rfl

theorem miniTelemetryBytes_eq (length : Nat) (buf : Buffer) (hlen : 11 ≤ length) :
    ∀ fuel i, fuel + i = 10 →
      (miniTelemetryBytes length (length - 11) fuel i).value buf
          = (List.range' (length - 11 + i) fuel).map (fun j => (buf j).val) ∧
      (miniTelemetryBytes length (length - 11) fuel i).reads buf
          = List.range' (length - 11 + i) fuel := by
  intro fuel
  induction fuel with
  | zero => intro i _; exact ⟨rfl, rfl⟩
  | succ fuel ih =>
    intro i hi
    obtain ⟨h1, h2⟩ := ih (i + 1) (by omega)
    rw [miniTelemetryBytes, if_pos ⟨by omega, by omega⟩]
    simp only [Rd.value_bind, Rd.value_pure, Rd.value_rd, Rd.reads_bind, Rd.reads_pure,
      Rd.reads_rd, h1, h2, List.range'_succ, List.map_cons, List.append_nil,
      List.singleton_append]
    exact ⟨by rw [Nat.add_assoc], by rw [Nat.add_assoc]⟩

theorem parseSecondary_on (length bitmap : Nat) (buf : Buffer)
    (hb : bitmap.testBit 1 = true) (hlen : 46 ≤ length) :
    (parseSecondary length bitmap).value buf =
        some ⟨divFloat ((unpack16bitSigned 26).value buf : ℚ) 100,
          divFloat ((unpack16bitSigned 28).value buf : ℚ) 100, (bmpSamples length 4 0).value buf⟩ ∧
    (parseSecondary length bitmap).reads buf =
        [26, 27, 28, 29] ++ (bmpSamples length 4 0).reads buf := by
  have hc : bitmap &&& BITMAP_SECONDARY_PAYLOAD_FLAG ≠ 0 := (flag_set_iff_testBit bitmap 1).mpr hb
  rw [parseSecondary, if_pos ⟨hc, hlen⟩]
  simp only [Rd.value_bind, Rd.value_pure, Rd.reads_bind, Rd.reads_pure, unpack16bitSigned_reads,
    List.append_nil, List.cons_append, List.nil_append, and_self]

theorem parseSecondary_off (length bitmap : Nat) (buf : Buffer)
    (h : ¬ (bitmap.testBit 1 = true ∧ 46 ≤ length)) :
    (parseSecondary length bitmap).value buf = none ∧
    (parseSecondary length bitmap).reads buf = [] := by
  have hc : ¬ (bitmap &&& BITMAP_SECONDARY_PAYLOAD_FLAG ≠ 0 ∧ length ≥ 46) := fun hh =>
    h ⟨(flag_set_iff_testBit bitmap 1).mp hh.1, hh.2⟩
  rw [parseSecondary, if_neg hc]
  exact ⟨rfl, rfl⟩

theorem parseDetonation_on (length bitmap : Nat) (buf : Buffer)
    (hb : bitmap.testBit 0 = true) (hlen : 26 ≤ length) :
    (parseDetonation length bitmap).value buf = some ((detonationBytes length 20 0).value buf) ∧
    (parseDetonation length bitmap).reads buf = (detonationBytes length 20 0).reads buf := by
  have hc : bitmap &&& BITMAP_DETONATION_EVENT_FLAG ≠ 0 := (flag_set_iff_testBit bitmap 0).mpr hb
  rw [parseDetonation, if_pos ⟨hc, hlen⟩]
  simp only [Rd.value_bind, Rd.value_pure, Rd.reads_bind, Rd.reads_pure, List.append_nil,
    and_self]

theorem parseDetonation_off (length bitmap : Nat) (buf : Buffer)
    (h : ¬ (bitmap.testBit 0 = true ∧ 26 ≤ length)) :
    (parseDetonation length bitmap).value buf = none ∧
    (parseDetonation length bitmap).reads buf = [] := by
  have hc : ¬ (bitmap &&& BITMAP_DETONATION_EVENT_FLAG ≠ 0 ∧ length ≥ 26) := fun hh =>
    h ⟨(flag_set_iff_testBit bitmap 0).mp hh.1, hh.2⟩
  rw [parseDetonation, if_neg hc]
  exact ⟨rfl, rfl⟩

theorem parseLocalisation_on (length bitmap : Nat) (buf : Buffer)
    (hb : bitmap.testBit 2 = true) (hlen : 71 ≤ length) :
    (parseLocalisation length bitmap).value buf =
        some ⟨divDouble ((unpack24bitSigned 46).value buf : ℚ) 100000,
          divDouble ((unpack24bitSigned 49).value buf : ℚ) 100000,
          (detonationPositions length 4 52 0).value buf⟩ ∧
    (parseLocalisation length bitmap).reads buf =
        [46, 47, 48, 49, 50, 51] ++ (detonationPositions length 4 52 0).reads buf := by
  have hc : bitmap &&& BITMAP_LOCALISATION_FLAG ≠ 0 := (flag_set_iff_testBit bitmap 2).mpr hb
  rw [parseLocalisation, if_pos ⟨hc, hlen⟩]
  simp only [Rd.value_bind, Rd.value_pure, Rd.reads_bind, Rd.reads_pure, unpack24bitSigned_reads,
    List.append_nil, List.cons_append, List.nil_append, and_self]

theorem parseLocalisation_off (length bitmap : Nat) (buf : Buffer)
    (h : ¬ (bitmap.testBit 2 = true ∧ 71 ≤ length)) :
    (parseLocalisation length bitmap).value buf = none ∧
    (parseLocalisation length bitmap).reads buf = [] := by
  have hc : ¬ (bitmap &&& BITMAP_LOCALISATION_FLAG ≠ 0 ∧ length ≥ 71) := fun hh =>
    h ⟨(flag_set_iff_testBit bitmap 2).mp hh.1, hh.2⟩
  rw [parseLocalisation, if_neg hc]
  exact ⟨rfl, rfl⟩

theorem parseMiniTelemetry_on (length bitmap : Nat) (buf : Buffer)
    (hb : bitmap.testBit 3 = true) (hlen : 77 ≤ length) :
    (parseMiniTelemetry length bitmap).value buf =
        some ((miniTelemetryBytes length (length - 11) 10 0).value buf) ∧
    (parseMiniTelemetry length bitmap).reads buf =
        (miniTelemetryBytes length (length - 11) 10 0).reads buf := by
  have hc : bitmap &&& BITMAP_TELEMETRY_FLAG ≠ 0 := (flag_set_iff_testBit bitmap 3).mpr hb
  rw [parseMiniTelemetry, if_pos ⟨hc, hlen⟩]
  simp only [Rd.value_bind, Rd.value_pure, Rd.reads_bind, Rd.reads_pure, List.append_nil,
    and_self]

theorem parseMiniTelemetry_off (length bitmap : Nat) (buf : Buffer)
    (h : ¬ (bitmap.testBit 3 = true ∧ 77 ≤ length)) :
    (parseMiniTelemetry length bitmap).value buf = none ∧
    (parseMiniTelemetry length bitmap).reads buf = [] := by
  have hc : ¬ (bitmap &&& BITMAP_TELEMETRY_FLAG ≠ 0 ∧ length ≥ 77) := fun hh =>
    h ⟨(flag_set_iff_testBit bitmap 3).mp hh.1, hh.2⟩
  rw [parseMiniTelemetry, if_neg hc]
  exact ⟨rfl, rfl⟩

/-- The byte ranges the four sections read, whenever they are entered. -/
theorem section_reads (length bitmap : Nat) (buf : Buffer) :
    (bitmap.testBit 1 = true → 46 ≤ length →
      (parseSecondary length bitmap).reads buf = List.range' 26 20) ∧
    (bitmap.testBit 0 = true → 26 ≤ length →
      (parseDetonation length bitmap).reads buf = List.range' 6 20) ∧
    (bitmap.testBit 2 = true → 71 ≤ length →
      (parseLocalisation length bitmap).reads buf = List.range' 46 22) ∧
    (bitmap.testBit 3 = true → 77 ≤ length →
      (parseMiniTelemetry length bitmap).reads buf = List.range' (length - 11) 10) := by
  refine ⟨fun hb hlen => ?_, fun hb hlen => ?_, fun hb hlen => ?_, fun hb hlen => ?_⟩
  · rw [(parseSecondary_on length bitmap buf hb hlen).2, (bmpSamples_full length buf hlen).2]
    rfl
  · rw [(parseDetonation_on length bitmap buf hb hlen).2,
      (detonationBytes_eq length buf hlen 20 0 rfl).2]
  · rw [(parseLocalisation_on length bitmap buf hb hlen).2,
      (detonationPositions_full length buf hlen).2]
    rfl
  · rw [(parseMiniTelemetry_on length bitmap buf hb hlen).2,
      (miniTelemetryBytes_eq length buf (by omega) 10 0 rfl).2]
    rfl

/-- The read log of an accepted scientific packet, piece by piece. -/
theorem parseScientificPacket_reads_of_accepted (T length : Nat) (s : GroundState) (buf : Buffer)
    (h : ((parseScientificPacket T length s).value buf).diag = none) :
    (parseScientificPacket T length s).reads buf =
      [0, length - 1] ++ List.range (length - 1) ++ List.range (min length 82) ++ [1, 2, 3, 4, 5]
        ++ (parseSecondary length (buf 5).val).reads buf
        ++ (parseDetonation length (buf 5).val).reads buf
        ++ (parseLocalisation length (buf 5).val).reads buf
        ++ (parseMiniTelemetry length (buf 5).val).reads buf := by
  obtain ⟨h1, h2, h3, h4⟩ := (parseScientificPacket_accepted_iff T length s buf).mp h
  have hmin : (if length < 82 then length else 82) = min length 82 := by
    split <;> omega
  have hcopy : ∀ dest : Nat → Byte, (memcpy dest (min length 82)).reads buf
      = List.range (min length 82) := fun _ => rfl
  rw [parseScientificPacket, if_neg (by omega)]
  simp only [Rd.reads_bind, Rd.reads_rd, Rd.value_bind, Rd.value_rd, Rd.reads_ite, Rd.value_ite,
    PACKET_ID_SCIENTIFIC_BASE]
  rw [if_neg (not_not.mpr h2), if_neg (not_not.mpr h3)]
  simp only [Rd.reads_bind, Rd.reads_rd, Rd.value_bind, Rd.value_rd, Rd.reads_ite, Rd.value_ite,
    calculateCRC8_reads]
  rw [if_neg (not_not.mpr h4.symm)]
  simp only [Rd.reads_bind, Rd.reads_rd, Rd.value_bind, Rd.value_rd, Rd.reads_pure,
    unpack32bit_reads, hmin, hcopy, List.append_nil, List.append_assoc, List.cons_append,
    List.nil_append, List.singleton_append]

theorem flag_digit (x i : Nat) :
    (if x &&& 2 ^ i ≠ 0 then 1 else 0 : Nat) = if x.testBit i = true then 1 else 0 := by
  by_cases h : x.testBit i = true
  · rw [if_pos h, if_pos ((flag_set_iff_testBit x i).mpr h)]
  · rw [if_neg h, if_neg (fun hh => h ((flag_set_iff_testBit x i).mp hh))]

theorem header_bits (T : Fin 16) :
    (0x10 ||| T.val) &&& 0xF0 = 0x10 ∧ (0x10 ||| T.val) &&& 0x0F = T.val ∧
    (0xA0 ||| T.val) &&& 0xF0 = 0xA0 ∧ (0xA0 ||| T.val) &&& 0x0F = T.val ∧
    (0xA0 ||| T.val) % 256 = 0xA0 ||| T.val := by
  revert T
  decide

/-- C11: for a buffer accepted by `parseScientificPacket` the timestamp printed
is the big-endian unsigned 32-bit value of bytes 1..4, the bitmap is byte 5 and
the four flag digits are its bits 3 (telemetry tail), 2 (localisation), 1
(secondary payload) and 0 (detonation event); when those four bits are zero no
optional section is decoded.  A 47-byte buffer with byte 0 = `0x10 | team`,
bitmap `0x00` and byte 46 = CRC of bytes 0..45 is accepted with no optional
section. -/
theorem parseScientificPacket_header (T : Nat) (s : GroundState) :
    (∀ (length : Nat) (buf : Buffer),
      ((parseScientificPacket T length s).value buf).diag = none →
      ∃ r : ScientificReport, ((parseScientificPacket T length s).value buf).report = some r ∧
        r.timestamp = bigEndian [buf 1, buf 2, buf 3, buf 4] ∧
        r.bitmap = (buf 5).val ∧
        r.flagTEL = (if (buf 5).val.testBit 3 = true then 1 else 0) ∧
        r.flagLOC = (if (buf 5).val.testBit 2 = true then 1 else 0) ∧
        r.flagSEC = (if (buf 5).val.testBit 1 = true then 1 else 0) ∧
        r.flagDET = (if (buf 5).val.testBit 0 = true then 1 else 0) ∧
        ((buf 5).val.testBit 3 = false → (buf 5).val.testBit 2 = false →
          (buf 5).val.testBit 1 = false → (buf 5).val.testBit 0 = false →
          r.secondary = none ∧ r.detonation = none ∧ r.localisation = none ∧
            r.miniTelemetry = none)) ∧
    (∀ buf : Buffer, T < 16 → (buf 0).val = 0x10 ||| T → (buf 5).val = 0x00 →
      (buf 46).val = (calculateCRC8 46).value buf →
      ((parseScientificPacket T 47 s).value buf).diag = none ∧
      ∃ r : ScientificReport, ((parseScientificPacket T 47 s).value buf).report = some r ∧
        r.secondary = none ∧ r.detonation = none ∧ r.localisation = none ∧
          r.miniTelemetry = none) := by
  have hnone : ∀ (length : Nat) (buf : Buffer),
      (buf 5).val.testBit 3 = false → (buf 5).val.testBit 2 = false →
      (buf 5).val.testBit 1 = false → (buf 5).val.testBit 0 = false →
      (scientificReport length buf).secondary = none ∧
      (scientificReport length buf).detonation = none ∧
      (scientificReport length buf).localisation = none ∧
      (scientificReport length buf).miniTelemetry = none := by
    intro length buf h3 h2 h1 h0
    have off : ∀ i, (buf 5).val.testBit i = false →
        ∀ n, ¬ ((buf 5).val.testBit i = true ∧ n ≤ length) :=
      fun i hi n hh => by rw [hi] at hh; exact absurd hh.1 (by decide)
    exact ⟨(parseSecondary_off length _ buf (off 1 h1 46)).1,
      (parseDetonation_off length _ buf (off 0 h0 26)).1,
      (parseLocalisation_off length _ buf (off 2 h2 71)).1,
      (parseMiniTelemetry_off length _ buf (off 3 h3 77)).1⟩
  refine ⟨?_, ?_⟩
  · intro length buf h
    rw [parseScientificPacket_of_accepted T length s buf h]
    refine ⟨scientificReport length buf, rfl, unpack32bit_spec 1 buf, rfl,
      flag_digit _ 3, flag_digit _ 2, flag_digit _ 1, flag_digit _ 0, hnone length buf⟩
  · intro buf hT h0 h5 h46
    obtain ⟨e1, e2, _⟩ := header_bits ⟨T, hT⟩
    have hacc : ((parseScientificPacket T 47 s).value buf).diag = none :=
      (parseScientificPacket_accepted_iff T 47 s buf).mpr
        ⟨by decide, by rw [h0]; exact e1, by rw [h0]; exact e2, h46.symm⟩
    refine ⟨hacc, ?_⟩
    rw [parseScientificPacket_of_accepted T 47 s buf hacc]
    exact ⟨scientificReport 47 buf, rfl,
      hnone 47 buf (by rw [h5]; rfl) (by rw [h5]; rfl) (by rw [h5]; rfl) (by rw [h5]; rfl)⟩

/-- C11 at the bitmap-0x00 example packet of team 3. -/
theorem parseScientificPacket_header_witness :
    ((parseScientificPacket 3 47 GroundState.init).value exampleScientificPlain).diag = none ∧
    ∃ r : ScientificReport,
      ((parseScientificPacket 3 47 GroundState.init).value exampleScientificPlain).report
        = some r ∧
      r.secondary = none ∧ r.detonation = none ∧ r.localisation = none ∧
        r.miniTelemetry = none :=
  (parseScientificPacket_header 3 GroundState.init).2 exampleScientificPlain (by decide)
    (by decide) (by decide) (by decide!)

/-! ## Optional sections: decoded values -/

/-- C17, as the code has it: in an accepted scientific packet, a decoded
secondary payload has UV mean = signed16(bytes 26..27)/100, UV std = signed16(bytes 28..29)/100
and samples `i = 0..3` with pressure = unsigned16 at `30+4i` over 10 and
temperature = signed16 at `32+4i` over 100, each quotient rounded to the nearest
`float`; a decoded localisation has probe latitude =
signed24(bytes 46..48)/100000 and probe longitude =
signed24(bytes 49..51)/100000, each rounded to the nearest `double`, and pairs
`k = 0..3` of distance = unsigned16 at `52+4k` and azimuth = signed16 at `54+4k`
over 1000, rounded to the nearest `float`; all big-endian. -/
theorem parseScientificPacket_section_values (T length : Nat) (s : GroundState) (buf : Buffer)
    (h : ((parseScientificPacket T length s).value buf).diag = none) :
    ∃ r : ScientificReport, ((parseScientificPacket T length s).value buf).report = some r ∧
      (∀ sec : SecondaryPayload, r.secondary = some sec →
        sec.uvMean = divFloat (twosComplement 16 (bigEndian [buf 26, buf 27]) : ℚ) 100 ∧
        sec.uvStd = divFloat (twosComplement 16 (bigEndian [buf 28, buf 29]) : ℚ) 100 ∧
        sec.samples = [0, 1, 2, 3].map (fun i =>
          (⟨divFloat (bigEndian [buf (30 + 4 * i), buf (31 + 4 * i)] : ℚ) 10,
            divFloat (twosComplement 16 (bigEndian [buf (32 + 4 * i), buf (33 + 4 * i)]) : ℚ)
              100⟩ : BmpSample))) ∧
      (∀ loc : Localisation, r.localisation = some loc →
        loc.probeLat =
          divDouble (twosComplement 24 (bigEndian [buf 46, buf 47, buf 48]) : ℚ) 100000 ∧
        loc.probeLon =
          divDouble (twosComplement 24 (bigEndian [buf 49, buf 50, buf 51]) : ℚ) 100000 ∧
        loc.detonations = [0, 1, 2, 3].map (fun k =>
          (⟨bigEndian [buf (52 + 4 * k), buf (53 + 4 * k)],
            divFloat (twosComplement 16 (bigEndian [buf (54 + 4 * k), buf (55 + 4 * k)]) : ℚ)
              1000⟩ : DetonationPosition))) := by
  rw [parseScientificPacket_of_accepted T length s buf h]
  refine ⟨scientificReport length buf, rfl, ?_, ?_⟩
  · intro sec hsec
    change (parseSecondary length (buf 5).val).value buf = some sec at hsec
    by_cases hc : (buf 5).val.testBit 1 = true ∧ 46 ≤ length
    · rw [(parseSecondary_on length _ buf hc.1 hc.2).1, (bmpSamples_full length buf hc.2).1]
        at hsec
      cases hsec
      simp only [unpack16bitSigned_spec, unpack16bit_spec, List.map, and_self]
    · rw [(parseSecondary_off length _ buf hc).1] at hsec
      cases hsec
  · intro loc hloc
    change (parseLocalisation length (buf 5).val).value buf = some loc at hloc
    by_cases hc : (buf 5).val.testBit 2 = true ∧ 71 ≤ length
    · rw [(parseLocalisation_on length _ buf hc.1 hc.2).1,
        (detonationPositions_full length buf hc.2).1] at hloc
      cases hloc
      simp only [unpack24bitSigned_spec, unpack16bitSigned_spec, unpack16bit_spec, List.map,
        and_self]
    · rw [(parseLocalisation_off length _ buf hc).1] at hloc
      cases hloc

/-- C18: in an accepted scientific packet the inner bound tests never cut a
section short and the length guards of the first two sections are vacuous: the
secondary payload and the detonation event are decoded exactly when their bit
is set; the secondary payload has 4 samples and reads bytes 26..45; the
detonation event is the 20 bytes 6..25; a decoded localisation has 4 pairs,
reads bytes 46..67 and not the checksum byte; a decoded telemetry tail is the 10
bytes `length-11..length-2`. -/
theorem scientific_sections_run_in_full (T length : Nat) (s : GroundState)
    (buf : Buffer) (h : ((parseScientificPacket T length s).value buf).diag = none) :
    ∃ r : ScientificReport, ((parseScientificPacket T length s).value buf).report = some r ∧
      (r.secondary.isSome = true ↔ (buf 5).val.testBit 1 = true) ∧
      (r.detonation.isSome = true ↔ (buf 5).val.testBit 0 = true) ∧
      (∀ sec : SecondaryPayload, r.secondary = some sec →
        sec.samples.length = 4 ∧
        (parseSecondary length (buf 5).val).reads buf = List.range' 26 20) ∧
      (∀ raw : List Nat, r.detonation = some raw →
        raw = (List.range' 6 20).map (fun i => (buf i).val) ∧
        (parseDetonation length (buf 5).val).reads buf = List.range' 6 20) ∧
      (∀ loc : Localisation, r.localisation = some loc →
        loc.detonations.length = 4 ∧
        (parseLocalisation length (buf 5).val).reads buf = List.range' 46 22 ∧
        length - 1 ∉ (parseLocalisation length (buf 5).val).reads buf) ∧
      (∀ raw : List Nat, r.miniTelemetry = some raw →
        raw = (List.range' (length - 11) 10).map (fun i => (buf i).val) ∧
        (parseMiniTelemetry length (buf 5).val).reads buf = List.range' (length - 11) 10) := by
  obtain ⟨hlen, _, _, _⟩ := (parseScientificPacket_accepted_iff T length s buf).mp h
  rw [parseScientificPacket_of_accepted T length s buf h]
  refine ⟨scientificReport length buf, rfl, ?_, ?_, ?_, ?_, ?_, ?_⟩
  · exact (parseSecondary_isSome length _ buf).trans
      ⟨fun hh => hh.1, fun hh => ⟨hh, by omega⟩⟩
  · exact (parseDetonation_isSome length _ buf).trans
      ⟨fun hh => hh.1, fun hh => ⟨hh, by omega⟩⟩
  · intro sec hsec
    change (parseSecondary length (buf 5).val).value buf = some sec at hsec
    by_cases hc : (buf 5).val.testBit 1 = true ∧ 46 ≤ length
    · rw [(parseSecondary_on length _ buf hc.1 hc.2).1, (bmpSamples_full length buf hc.2).1]
        at hsec
      cases hsec
      exact ⟨rfl, (section_reads length _ buf).1 hc.1 hc.2⟩
    · rw [(parseSecondary_off length _ buf hc).1] at hsec
      cases hsec
  · intro raw hraw
    change (parseDetonation length (buf 5).val).value buf = some raw at hraw
    by_cases hc : (buf 5).val.testBit 0 = true ∧ 26 ≤ length
    · rw [(parseDetonation_on length _ buf hc.1 hc.2).1,
        (detonationBytes_eq length buf hc.2 20 0 rfl).1] at hraw
      cases hraw
      exact ⟨rfl, (section_reads length _ buf).2.1 hc.1 hc.2⟩
    · rw [(parseDetonation_off length _ buf hc).1] at hraw
      cases hraw
  · intro loc hloc
    change (parseLocalisation length (buf 5).val).value buf = some loc at hloc
    by_cases hc : (buf 5).val.testBit 2 = true ∧ 71 ≤ length
    · have hreads := (section_reads length (buf 5).val buf).2.2.1 hc.1 hc.2
      rw [(parseLocalisation_on length _ buf hc.1 hc.2).1,
        (detonationPositions_full length buf hc.2).1] at hloc
      cases hloc
      refine ⟨rfl, hreads, ?_⟩
      rw [hreads, List.mem_range'_1]
      omega
    · rw [(parseLocalisation_off length _ buf hc).1] at hloc
      cases hloc
  · intro raw hraw
    change (parseMiniTelemetry length (buf 5).val).value buf = some raw at hraw
    by_cases hc : (buf 5).val.testBit 3 = true ∧ 77 ≤ length
    · rw [(parseMiniTelemetry_on length _ buf hc.1 hc.2).1,
        (miniTelemetryBytes_eq length buf (by omega) 10 0 rfl).1] at hraw
      cases hraw
      exact ⟨rfl, (section_reads length _ buf).2.2.2 hc.1 hc.2⟩
    · rw [(parseMiniTelemetry_off length _ buf hc).1] at hraw
      cases hraw

/-- C17 at the 82-byte example packet, which carries both sections: bytes
26..27 hold 19962 and the UV mean is the `float` nearest to 199.62, which is
1635287 / 8192. -/
theorem parseScientificPacket_section_values_witness :
    ((parseScientificPacket 3 82 GroundState.init).value exampleScientific82).diag = none ∧
    ∃ r : ScientificReport,
      ((parseScientificPacket 3 82 GroundState.init).value exampleScientific82).report
        = some r ∧
      (∀ sec : SecondaryPayload, r.secondary = some sec →
        sec.uvMean = divFloat 19962 100 ∧ sec.uvMean = 1635287 / 8192) ∧
      (∀ loc : Localisation, r.localisation = some loc →
        loc.probeLat = divDouble (twosComplement 24 (bigEndian [exampleScientific82 46,
          exampleScientific82 47, exampleScientific82 48]) : ℚ) 100000) :=
  have hacc : ((parseScientificPacket 3 82 GroundState.init).value exampleScientific82).diag
      = none := by decide!
  have e : twosComplement 16 (bigEndian [exampleScientific82 26, exampleScientific82 27])
      = 19962 := by decide
  have e2 : divFloat ((19962 : Int) : ℚ) 100 = divFloat 19962 100 := by norm_num
  ⟨hacc, (parseScientificPacket_section_values 3 82 GroundState.init exampleScientific82 hacc).imp
    fun _ hr => ⟨hr.1,
      fun sec hs => ⟨((hr.2.1 sec hs).1.trans (congrArg (fun v : Int => divFloat (v : ℚ) 100) e)).trans
          e2,
        (((hr.2.1 sec hs).1.trans (congrArg (fun v : Int => divFloat (v : ℚ) 100) e)).trans
          e2).trans roundBinary_values.2.1⟩,
      fun loc hl => (hr.2.2 loc hl).1⟩⟩

/-- C17 as stated fails: the 82-byte example packet is accepted with its
secondary payload decoded, bytes 26..27 hold 19962, and the UV mean computed is
1635287 / 8192 (199.6199951171875), not the exact quotient 19962/100. -/
theorem parseScientificPacket_uvMean_not_exact :
    ((parseScientificPacket 3 82 GroundState.init).value exampleScientific82).diag = none ∧
    twosComplement 16 (bigEndian [exampleScientific82 26, exampleScientific82 27]) = 19962 ∧
    ∃ (r : ScientificReport) (sec : SecondaryPayload),
      ((parseScientificPacket 3 82 GroundState.init).value exampleScientific82).report
        = some r ∧
      r.secondary = some sec ∧
      sec.uvMean = 1635287 / 8192 ∧
      sec.uvMean ≠ (twosComplement 16
        (bigEndian [exampleScientific82 26, exampleScientific82 27]) : ℚ) / 100 := by
  have hacc : ((parseScientificPacket 3 82 GroundState.init).value exampleScientific82).diag
      = none := by decide!
  have e : twosComplement 16 (bigEndian [exampleScientific82 26, exampleScientific82 27])
      = 19962 := by decide
  have hb : (exampleScientific82 5).val.testBit 1 = true := by decide
  have ev : (unpack16bitSigned 26).value exampleScientific82 = 19962 := by decide!
  have hu : divFloat (((unpack16bitSigned 26).value exampleScientific82 : Int) : ℚ) 100
      = 1635287 / 8192 := by
    rw [ev]
    unfold divFloat
    push_cast
    exact roundBinary_values.2.1
  refine ⟨hacc, e, scientificReport 82 exampleScientific82, _,
    by rw [parseScientificPacket_of_accepted 3 82 GroundState.init exampleScientific82 hacc],
    (parseSecondary_on 82 _ exampleScientific82 hb (by decide)).1, hu, ?_⟩
  rw [e]
  change divFloat (((unpack16bitSigned 26).value exampleScientific82 : Int) : ℚ) 100 ≠ _
  rw [hu]
  norm_num

/-- C18 at the 82-byte example packet: four samples and four pairs. -/
theorem scientific_sections_run_in_full_witness :
    ((parseScientificPacket 3 82 GroundState.init).value exampleScientific82).diag = none ∧
    ∃ r : ScientificReport,
      ((parseScientificPacket 3 82 GroundState.init).value exampleScientific82).report
        = some r ∧
      (∀ sec : SecondaryPayload, r.secondary = some sec → sec.samples.length = 4) ∧
      (∀ loc : Localisation, r.localisation = some loc → loc.detonations.length = 4) :=
  have hacc : ((parseScientificPacket 3 82 GroundState.init).value exampleScientific82).diag
      = none := by decide!
  ⟨hacc,
    (scientific_sections_run_in_full 3 82 GroundState.init exampleScientific82 hacc).imp
      fun _ hr => ⟨hr.1, fun sec hs => (hr.2.2.2.1 sec hs).1,
        fun loc hl => (hr.2.2.2.2.2.1 loc hl).1⟩⟩

/-! ## Optional sections: which byte ranges meet -/

theorem section_reads_bounds (length bitmap : Nat) (buf : Buffer) :
    (∀ i ∈ (parseSecondary length bitmap).reads buf, 26 ≤ i ∧ i < 46) ∧
    (∀ i ∈ (parseDetonation length bitmap).reads buf, 6 ≤ i ∧ i < 26) ∧
    (∀ i ∈ (parseLocalisation length bitmap).reads buf, 46 ≤ i ∧ i < 68) ∧
    (∀ i ∈ (parseMiniTelemetry length bitmap).reads buf,
      length - 11 ≤ i ∧ i < length - 1 ∧ 77 ≤ length) := by
  obtain ⟨r1, r0, r2, r3⟩ := section_reads length bitmap buf
  refine ⟨fun i hi => ?_, fun i hi => ?_, fun i hi => ?_, fun i hi => ?_⟩
  · by_cases hc : bitmap.testBit 1 = true ∧ 46 ≤ length
    · rw [r1 hc.1 hc.2, List.mem_range'_1] at hi
      omega
    · rw [(parseSecondary_off length bitmap buf hc).2] at hi
      exact absurd hi (List.not_mem_nil i)
  · by_cases hc : bitmap.testBit 0 = true ∧ 26 ≤ length
    · rw [r0 hc.1 hc.2, List.mem_range'_1] at hi
      omega
    · rw [(parseDetonation_off length bitmap buf hc).2] at hi
      exact absurd hi (List.not_mem_nil i)
  · by_cases hc : bitmap.testBit 2 = true ∧ 71 ≤ length
    · rw [r2 hc.1 hc.2, List.mem_range'_1] at hi
      omega
    · rw [(parseLocalisation_off length bitmap buf hc).2] at hi
      exact absurd hi (List.not_mem_nil i)
  · by_cases hc : bitmap.testBit 3 = true ∧ 77 ≤ length
    · rw [r3 hc.1 hc.2, List.mem_range'_1] at hi
      omega
    · rw [(parseMiniTelemetry_off length bitmap buf hc).2] at hi
      exact absurd hi (List.not_mem_nil i)

/-- C14, as the code has it: in an accepted scientific packet a decoded
detonation event reads bytes 6..25, a decoded secondary payload bytes 26..45, a
decoded localisation bytes 46..67 and a decoded telemetry tail bytes
`length-11..length-2`; any two of these ranges are disjoint, except that the
localisation and the telemetry tail are disjoint only from `length >= 79` on:
when both are decoded and `length` is 77 or 78 they share byte 67. -/
theorem section_ranges_disjoint (T length : Nat) (s : GroundState) (buf : Buffer)
    (h : ((parseScientificPacket T length s).value buf).diag = none) :
    ((buf 5).val.testBit 0 = true →
      (parseDetonation length (buf 5).val).reads buf = List.range' 6 20) ∧
    ((buf 5).val.testBit 1 = true →
      (parseSecondary length (buf 5).val).reads buf = List.range' 26 20) ∧
    ((buf 5).val.testBit 2 = true → 71 ≤ length →
      (parseLocalisation length (buf 5).val).reads buf = List.range' 46 22) ∧
    ((buf 5).val.testBit 3 = true → 77 ≤ length →
      (parseMiniTelemetry length (buf 5).val).reads buf = List.range' (length - 11) 10) ∧
    List.Disjoint ((parseDetonation length (buf 5).val).reads buf)
      ((parseSecondary length (buf 5).val).reads buf) ∧
    List.Disjoint ((parseDetonation length (buf 5).val).reads buf)
      ((parseLocalisation length (buf 5).val).reads buf) ∧
    List.Disjoint ((parseDetonation length (buf 5).val).reads buf)
      ((parseMiniTelemetry length (buf 5).val).reads buf) ∧
    List.Disjoint ((parseSecondary length (buf 5).val).reads buf)
      ((parseLocalisation length (buf 5).val).reads buf) ∧
    List.Disjoint ((parseSecondary length (buf 5).val).reads buf)
      ((parseMiniTelemetry length (buf 5).val).reads buf) ∧
    (79 ≤ length →
      List.Disjoint ((parseLocalisation length (buf 5).val).reads buf)
        ((parseMiniTelemetry length (buf 5).val).reads buf)) ∧
    ((buf 5).val.testBit 2 = true → (buf 5).val.testBit 3 = true → 77 ≤ length →
      length ≤ 78 →
      67 ∈ (parseLocalisation length (buf 5).val).reads buf ∧
      67 ∈ (parseMiniTelemetry length (buf 5).val).reads buf) := by
  obtain ⟨hlen, _, _, _⟩ := (parseScientificPacket_accepted_iff T length s buf).mp h
  obtain ⟨r1, r0, r2, r3⟩ := section_reads length (buf 5).val buf
  obtain ⟨b1, b0, b2, b3⟩ := section_reads_bounds length (buf 5).val buf
  refine ⟨fun hb => r0 hb (by omega), fun hb => r1 hb (by omega), r2, r3, ?_, ?_, ?_, ?_, ?_,
    ?_, ?_⟩
  · intro i h1 h2
    have := b0 i h1; have := b1 i h2; omega
  · intro i h1 h2
    have := b0 i h1; have := b2 i h2; omega
  · intro i h1 h2
    have := b0 i h1; have := b3 i h2; omega
  · intro i h1 h2
    have := b1 i h1; have := b2 i h2; omega
  · intro i h1 h2
    have := b1 i h1; have := b3 i h2; omega
  · intro h79 i h1 h2
    have := b2 i h1; have := b3 i h2; omega
  · intro h2 h3 h77 h78
    rw [r2 h2 (by omega), r3 h3 h77, List.mem_range'_1, List.mem_range'_1]
    omega

/-- C14 at the 77-byte example packet, whose localisation and telemetry tail
are both decoded: byte 67 is read by both. -/
theorem section_ranges_disjoint_witness :
    ((parseScientificPacket 3 77 GroundState.init).value exampleScientific77).diag = none ∧
    67 ∈ (parseLocalisation 77 (exampleScientific77 5).val).reads exampleScientific77 ∧
    67 ∈ (parseMiniTelemetry 77 (exampleScientific77 5).val).reads exampleScientific77 :=
  have hacc : ((parseScientificPacket 3 77 GroundState.init).value exampleScientific77).diag
      = none := by decide!
  ⟨hacc,
    (section_ranges_disjoint 3 77 GroundState.init exampleScientific77 hacc).2.2.2.2.2.2.2.2.2.2
      (by decide) (by decide) (by decide) (by decide)⟩

/-- C14 as stated fails: the 77-byte example packet is accepted, its
localisation and its telemetry tail are both decoded, and the byte ranges the
two sections read are not disjoint, byte 66 being read by both. -/
theorem section_ranges_overlap_at_77 :
    ((parseScientificPacket 3 77 GroundState.init).value exampleScientific77).diag = none ∧
    66 ∈ (parseLocalisation 77 (exampleScientific77 5).val).reads exampleScientific77 ∧
    66 ∈ (parseMiniTelemetry 77 (exampleScientific77 5).val).reads exampleScientific77 ∧
    ¬ List.Disjoint
      ((parseLocalisation 77 (exampleScientific77 5).val).reads exampleScientific77)
      ((parseMiniTelemetry 77 (exampleScientific77 5).val).reads exampleScientific77) := by
  have h1 : 66 ∈ (parseLocalisation 77 (exampleScientific77 5).val).reads
      exampleScientific77 := by
    decide!
  have h2 : 66 ∈ (parseMiniTelemetry 77 (exampleScientific77 5).val).reads
      exampleScientific77 := by
    decide!
  exact ⟨by decide!, h1, h2, fun hd => hd h1 h2⟩

/-! ## Telemetry decoder: only the first 16 bytes matter -/

theorem bufTake_congr (buf buf2 : Buffer) (n : Nat) (h : ∀ i, i < n → buf i = buf2 i) :
    bufTake buf n = bufTake buf2 n := by
  unfold bufTake
  apply List.map_congr_left
  intro i hi
  exact h i (List.mem_range.mp hi)

theorem parseTelemetryPacket_congr (T length length2 : Nat) (data : TelemetryData)
    (buf buf2 : Buffer) (hlen : 16 ≤ length) (hlen2 : 16 ≤ length2)
    (h : ∀ i, i < 16 → buf i = buf2 i) :
    (parseTelemetryPacket T length data).value buf
      = (parseTelemetryPacket T length2 data).value buf2 := by
  have hcrc : (calculateCRC8 15).value buf = (calculateCRC8 15).value buf2 := by
    rw [calculateCRC8_value, calculateCRC8_value,
      bufTake_congr buf buf2 15 (fun i hi => h i (by omega))]
  have hdec : telemetryDecoded buf = telemetryDecoded buf2 := by
    simp only [telemetryDecoded, unpack24bitSigned_value, unpack16bitSigned_value,
      unpack16bit_value, unpack32bit_value]
    rw [h 1 (by decide), h 2 (by decide), h 3 (by decide), h 4 (by decide), h 5 (by decide),
      h 6 (by decide), h 7 (by decide), h 8 (by decide), h 9 (by decide), h 10 (by decide),
      h 11 (by decide), h 12 (by decide), h 13 (by decide), h 14 (by decide)]
  rw [parseTelemetryPacket_value, parseTelemetryPacket_value, hcrc, hdec, h 0 (by decide),
    h 15 (by decide), if_neg (show ¬ length < 16 by omega),
    if_neg (show ¬ length2 < 16 by omega)]

theorem bufOfList_bufTake (buf : Buffer) (n i : Nat) (hi : i < n) :
    bufOfList (bufTake buf n) i = buf i := by
  simp [bufOfList, bufTake, List.getD_eq_getElem?_getD, List.getElem?_eq_getElem, hi]

/-- C15: for `length >= 16` the whole outcome of `parseTelemetryPacket` (the
`bool`, the diagnostic and every field of the record) equals its outcome on the
first 16 bytes alone; two buffers that agree on bytes 0..15 give the same
outcome whatever follows and whatever lengths `>= 16` are passed. -/
theorem parseTelemetryPacket_ignores_trailing (T : Nat) (data : TelemetryData) :
    (∀ (length : Nat) (buf : Buffer), 16 ≤ length →
      (parseTelemetryPacket T length data).value buf =
        (parseTelemetryPacket T 16 data).value (bufOfList (bufTake buf 16))) ∧
    (∀ (length length2 : Nat) (buf buf2 : Buffer), 16 ≤ length → 16 ≤ length2 →
      (∀ i, i < 16 → buf i = buf2 i) →
      (parseTelemetryPacket T length data).value buf =
        (parseTelemetryPacket T length2 data).value buf2) :=
  ⟨fun length buf hlen => parseTelemetryPacket_congr T length 16 data buf _ hlen (by decide)
      (fun i hi => (bufOfList_bufTake buf 16 i hi).symm),
   fun length length2 buf buf2 hlen hlen2 h =>
      parseTelemetryPacket_congr T length length2 data buf buf2 hlen hlen2 h⟩

/-- C15 at the example packet: followed by 66 more bytes and passed with length
82 it is accepted exactly as the 16-byte packet is. -/
theorem parseTelemetryPacket_ignores_trailing_witness :
    (parseTelemetryPacket 3 82 exampleOldData).value
        (bufOfList (exampleTelemetryPayload ++ [0x76] ++ exampleScientific82Bytes.drop 16)) =
      (parseTelemetryPacket 3 16 exampleOldData).value exampleTelemetry :=
  (parseTelemetryPacket_ignores_trailing 3 exampleOldData).2 82 16 _ _ (by decide) (by decide)
    (by
      intro i hi
      interval_cases i <;> rfl)

/-! ## The other scalar decoders -/

/-- C16: `unpack16bit` returns `b0*256 + b1` in `[0, 65535]`, `unpack16bitSigned`
the two's-complement reading of the same 16 bits, `unpack32bit`
`b0*2^24 + b1*2^16 + b2*2^8 + b3` in `[0, 2^32-1]`; every value of each range
comes from exactly one byte tuple. -/
theorem unpack_scalars_big_endian :
    (∀ (off : Nat) (buf : Buffer),
      (unpack16bit off).value buf = (buf off).val * 256 + (buf (off + 1)).val ∧
      (unpack16bit off).value buf ≤ 65535 ∧
      (unpack16bitSigned off).value buf =
        (if (buf off).val * 256 + (buf (off + 1)).val < 32768
         then (((buf off).val * 256 + (buf (off + 1)).val : Nat) : Int)
         else (((buf off).val * 256 + (buf (off + 1)).val : Nat) : Int) - 65536) ∧
      -32768 ≤ (unpack16bitSigned off).value buf ∧
      (unpack16bitSigned off).value buf ≤ 32767 ∧
      (unpack32bit off).value buf =
        (buf off).val * 2 ^ 24 + (buf (off + 1)).val * 2 ^ 16 + (buf (off + 2)).val * 2 ^ 8
          + (buf (off + 3)).val ∧
      (unpack32bit off).value buf ≤ 2 ^ 32 - 1) ∧
    (∀ v : Nat, v ≤ 65535 →
      ∃! t : Byte × Byte, (unpack16bit 0).value (bufOfList [t.1, t.2]) = v) ∧
    (∀ v : Int, -32768 ≤ v → v ≤ 32767 →
      ∃! t : Byte × Byte, (unpack16bitSigned 0).value (bufOfList [t.1, t.2]) = v) ∧
    (∀ v : Nat, v ≤ 2 ^ 32 - 1 →
      ∃! t : Byte × Byte × Byte × Byte,
        (unpack32bit 0).value (bufOfList [t.1, t.2.1, t.2.2.1, t.2.2.2]) = v) := by
  have e16 : ∀ b0 b1 : Byte, (unpack16bit 0).value (bufOfList [b0, b1]) = b0.val * 256 + b1.val :=
    fun b0 b1 => unpack16bit_value 0 (bufOfList [b0, b1])
  have s16 : ∀ b0 b1 : Byte, (unpack16bitSigned 0).value (bufOfList [b0, b1]) =
      if b0.val * 256 + b1.val < 32768 then ((b0.val * 256 + b1.val : Nat) : Int)
      else ((b0.val * 256 + b1.val : Nat) : Int) - 65536 :=
    fun b0 b1 => unpack16bitSigned_value 0 (bufOfList [b0, b1])
  have e32 : ∀ b0 b1 b2 b3 : Byte, (unpack32bit 0).value (bufOfList [b0, b1, b2, b3]) =
      b0.val * 16777216 + b1.val * 65536 + b2.val * 256 + b3.val :=
    fun b0 b1 b2 b3 => unpack32bit_value 0 (bufOfList [b0, b1, b2, b3])
  refine ⟨?_, ?_, ?_, ?_⟩
  · intro off buf
    have h0 := (buf off).isLt
    have h1 := (buf (off + 1)).isLt
    have h2 := (buf (off + 2)).isLt
    have h3 := (buf (off + 3)).isLt
    rw [unpack16bit_value, unpack16bitSigned_value, unpack32bit_value]
    refine ⟨rfl, by omega, rfl, ?_, ?_, by norm_num, by norm_num; omega⟩ <;>
      split <;> omega
  · intro v hv
    refine ⟨(⟨v / 256, by omega⟩, ⟨v % 256, by omega⟩), ?_, ?_⟩
    · show (unpack16bit 0).value (bufOfList [_, _]) = v
      rw [e16]
      simp only []
      omega
    · rintro ⟨c0, c1⟩ hc
      have g0 := c0.isLt
      have g1 := c1.isLt
      simp only [] at hc
      rw [e16] at hc
      refine Prod.ext (Fin.ext ?_) (Fin.ext ?_)
      · show c0.val = v / 256
        omega
      · show c1.val = v % 256
        omega
  · intro v hlo hhi
    obtain ⟨u, hu⟩ : ∃ u : Nat, (u : Int) = v % 65536 :=
      ⟨(v % 65536).toNat, Int.toNat_of_nonneg (Int.emod_nonneg _ (by decide))⟩
    have hult : u < 65536 := by omega
    refine ⟨(⟨u / 256, by omega⟩, ⟨u % 256, by omega⟩), ?_, ?_⟩
    · show (unpack16bitSigned 0).value (bufOfList [_, _]) = v
      rw [s16]
      simp only []
      split <;> omega
    · rintro ⟨c0, c1⟩ hc
      have g0 := c0.isLt
      have g1 := c1.isLt
      simp only [] at hc
      rw [s16] at hc
      have hval : c0.val * 256 + c1.val = u := by
        split at hc <;> omega
      refine Prod.ext (Fin.ext ?_) (Fin.ext ?_)
      · show c0.val = u / 256
        omega
      · show c1.val = u % 256
        omega
  · intro v hv
    have hv2 : v < 4294967296 := by
      norm_num at hv
      omega
    refine ⟨(⟨v / 16777216, by omega⟩, ⟨v / 65536 % 256, by omega⟩, ⟨v / 256 % 256, by omega⟩,
      ⟨v % 256, by omega⟩), ?_, ?_⟩
    · show (unpack32bit 0).value (bufOfList [_, _, _, _]) = v
      rw [e32]
      simp only []
      omega
    · rintro ⟨c0, c1, c2, c3⟩ hc
      have g0 := c0.isLt
      have g1 := c1.isLt
      have g2 := c2.isLt
      have g3 := c3.isLt
      simp only [] at hc
      rw [e32] at hc
      refine Prod.ext (Fin.ext ?_) (Prod.ext (Fin.ext ?_) (Prod.ext (Fin.ext ?_) (Fin.ext ?_)))
      · show c0.val = v / 16777216
        omega
      · show c1.val = v / 65536 % 256
        omega
      · show c2.val = v / 256 % 256
        omega
      · show c3.val = v % 256
        omega

/-- C16 at concrete values: exactly one byte pair decodes to `-2` as a signed
16-bit value, and exactly one byte quadruple to `123456`. -/
theorem unpack_scalars_big_endian_witness :
    (∃! t : Byte × Byte, (unpack16bitSigned 0).value (bufOfList [t.1, t.2]) = -2) ∧
    (∃! t : Byte × Byte × Byte × Byte,
      (unpack32bit 0).value (bufOfList [t.1, t.2.1, t.2.2.1, t.2.2.2]) = 123456) :=
  ⟨unpack_scalars_big_endian.2.2.1 (-2) (by decide) (by decide),
   unpack_scalars_big_endian.2.2.2 123456 (by decide)⟩

/-! ## Telemetry round trip -/

theorem encodeSigned_spec (w : Nat) (v : Int) :
    ((encodeSigned w v : Nat) : Int) = v % 2 ^ w :=
  Int.toNat_of_nonneg (Int.emod_nonneg _ (by positivity))

theorem byteOf_val (n : Nat) : (byteOf n).val = n % 256 := rfl

/-- A telemetry packet built from in-range values passes all four checks and
decodes to the scaled integers it was built from. -/
theorem telemetryPacket_decodes (T : Nat) (lat lon vel : Int) (alt ts : Nat)
    (data : TelemetryData) (hT : T < 16)
    (hlat : -8388608 ≤ lat ∧ lat ≤ 8388607) (hlon : -8388608 ≤ lon ∧ lon ≤ 8388607)
    (hvel : -32768 ≤ vel ∧ vel ≤ 32767) (halt : alt ≤ 65535) (hts : ts ≤ 4294967295) :
    ((parseTelemetryPacket T 16 data).value
        (bufOfList (telemetryPacket T lat lon vel alt ts))).ok = true ∧
    (unpack24bitSigned 1).value (bufOfList (telemetryPacket T lat lon vel alt ts)) = lat ∧
    (unpack24bitSigned 4).value (bufOfList (telemetryPacket T lat lon vel alt ts)) = lon ∧
    (unpack16bitSigned 7).value (bufOfList (telemetryPacket T lat lon vel alt ts)) = vel ∧
    (unpack16bit 9).value (bufOfList (telemetryPacket T lat lon vel alt ts)) = alt ∧
    (unpack32bit 11).value (bufOfList (telemetryPacket T lat lon vel alt ts)) = ts := by
  have hla := encodeSigned_spec 24 lat
  have hlo := encodeSigned_spec 24 lon
  have hve := encodeSigned_spec 16 vel
  generalize hbuf : bufOfList (telemetryPacket T lat lon vel alt ts) = buf
  have b0 : (buf 0).val = (0xA0 ||| T) % 256 := by rw [← hbuf]; rfl
  have b1 : (buf 1).val = encodeSigned 24 lat / 65536 % 256 := by rw [← hbuf]; rfl
  have b2 : (buf 2).val = encodeSigned 24 lat / 256 % 256 := by rw [← hbuf]; rfl
  have b3 : (buf 3).val = encodeSigned 24 lat % 256 := by rw [← hbuf]; rfl
  have b4 : (buf 4).val = encodeSigned 24 lon / 65536 % 256 := by rw [← hbuf]; rfl
  have b5 : (buf 5).val = encodeSigned 24 lon / 256 % 256 := by rw [← hbuf]; rfl
  have b6 : (buf 6).val = encodeSigned 24 lon % 256 := by rw [← hbuf]; rfl
  have b7 : (buf 7).val = encodeSigned 16 vel / 256 % 256 := by rw [← hbuf]; rfl
  have b8 : (buf 8).val = encodeSigned 16 vel % 256 := by rw [← hbuf]; rfl
  have b9 : (buf 9).val = alt / 256 % 256 := by rw [← hbuf]; rfl
  have b10 : (buf 10).val = alt % 256 := by rw [← hbuf]; rfl
  have b11 : (buf 11).val = ts / 16777216 % 256 := by rw [← hbuf]; rfl
  have b12 : (buf 12).val = ts / 65536 % 256 := by rw [← hbuf]; rfl
  have b13 : (buf 13).val = ts / 256 % 256 := by rw [← hbuf]; rfl
  have b14 : (buf 14).val = ts % 256 := by rw [← hbuf]; rfl
  have htake : bufTake buf 15 = telemetryPayload T lat lon vel alt ts := by
    rw [← hbuf]
    rfl
  have b15 : (buf 15).val = crc8 (telemetryPayload T lat lon vel alt ts) := by
    have e : (buf 15).val = crc8 (telemetryPayload T lat lon vel alt ts) % 256 := by
      rw [← hbuf]; rfl
    rw [e, Nat.mod_eq_of_lt (crc8_lt _)]
  have hcrc : (calculateCRC8 15).value buf = (buf 15).val := by
    rw [calculateCRC8_value, htake, ← crc8_eq_crcFold, b15]
  obtain ⟨_, _, e1, e2, e3⟩ := header_bits ⟨T, hT⟩
  simp only [] at e1 e2 e3
  generalize encodeSigned 24 lat = la at hla b1 b2 b3
  generalize encodeSigned 24 lon = lo at hlo b4 b5 b6
  generalize encodeSigned 16 vel = ve at hve b7 b8
  norm_num at hla hlo hve
  refine ⟨?_, ?_, ?_, ?_, ?_, ?_⟩
  · rw [parseTelemetryPacket_value]
    rw [if_neg (by decide), if_neg (by rw [b0, e3]; exact not_not.mpr e1),
      if_neg (by rw [b0, e3]; exact not_not.mpr e2), if_neg (not_not.mpr hcrc.symm)]
  · rw [unpack24bitSigned_value]
    simp only [b1, b2, b3]
    split <;> omega
  · rw [unpack24bitSigned_value]
    simp only [b4, b5, b6]
    split <;> omega
  · rw [unpack16bitSigned_value]
    simp only [b7, b8]
    split <;> omega
  · rw [unpack16bit_value]
    simp only [b9, b10]
    omega
  · rw [unpack32bit_value]
    simp only [b11, b12, b13, b14]
    omega

theorem unpack24bitSigned_range (off : Nat) (buf : Buffer) :
    -8388608 ≤ (unpack24bitSigned off).value buf ∧
      (unpack24bitSigned off).value buf ≤ 8388607 := by
  have h0 := (buf off).isLt
  have h1 := (buf (off + 1)).isLt
  have h2 := (buf (off + 2)).isLt
  rw [unpack24bitSigned_value]
  constructor <;> split <;> omega

theorem unpack16bitSigned_range (off : Nat) (buf : Buffer) :
    -32768 ≤ (unpack16bitSigned off).value buf ∧
      (unpack16bitSigned off).value buf ≤ 32767 := by
  have h0 := (buf off).isLt
  have h1 := (buf (off + 1)).isLt
  rw [unpack16bitSigned_value]
  constructor <;> split <;> omega

/-- C12: for raw values in range (latitude and longitude in
`[-8388608, 8388607]`, velocity in `[-32768, 32767]`, altitude in `[0, 65535]`,
timestamp in `[0, 2^32-1]`) and a 4-bit team, the 16-byte packet made of
`0xA0 | team`, the five values big-endian in 3, 3, 2, 2 and 4 bytes and the
`calculateCRC8` of those 15 bytes is accepted by `parseTelemetryPacket`, and the
scaled integers it decodes are the values the packet was built from; the fields
of the record are their quotients, rounded to `double` or `float`. -/
theorem telemetry_round_trip (T : Nat) (lat lon vel : Int) (alt ts : Nat)
    (data : TelemetryData) (hT : T < 16)
    (hlat : -8388608 ≤ lat ∧ lat ≤ 8388607) (hlon : -8388608 ≤ lon ∧ lon ≤ 8388607)
    (hvel : -32768 ≤ vel ∧ vel ≤ 32767) (halt : alt ≤ 65535) (hts : ts ≤ 4294967295) :
    (telemetryPacket T lat lon vel alt ts).length = 16 ∧
    ((parseTelemetryPacket T 16 data).value
        (bufOfList (telemetryPacket T lat lon vel alt ts))).ok = true ∧
    (unpack24bitSigned 1).value (bufOfList (telemetryPacket T lat lon vel alt ts)) = lat ∧
    (unpack24bitSigned 4).value (bufOfList (telemetryPacket T lat lon vel alt ts)) = lon ∧
    (unpack16bitSigned 7).value (bufOfList (telemetryPacket T lat lon vel alt ts)) = vel ∧
    (unpack16bit 9).value (bufOfList (telemetryPacket T lat lon vel alt ts)) = alt ∧
    (unpack32bit 11).value (bufOfList (telemetryPacket T lat lon vel alt ts)) = ts ∧
    ((parseTelemetryPacket T 16 data).value
        (bufOfList (telemetryPacket T lat lon vel alt ts))).data =
      ⟨divDouble (lat : ℚ) 100000, divDouble (lon : ℚ) 100000, divFloat (alt : ℚ) 10,
        divFloat (vel : ℚ) 100, ts, true⟩ := by
  obtain ⟨hok, h1, h2, h3, h4, h5⟩ :=
    telemetryPacket_decodes T lat lon vel alt ts data hT hlat hlon hvel halt hts
  refine ⟨rfl, hok, h1, h2, h3, h4, h5, ?_⟩
  rw [parseTelemetryPacket_of_ok T 16 data _ hok]
  simp only [telemetryDecoded, h1, h2, h3, h4, h5]

/-- C12 at the values of the example packet: the packet built is the example
packet itself, and the five scaled integers come back. -/
theorem telemetry_round_trip_witness :
    telemetryPacket 3 4012345 (-312345) (-250) 12345 123456 = exampleTelemetryPayload ++ [0x76] ∧
    ((parseTelemetryPacket 3 16 exampleOldData).value
        (bufOfList (telemetryPacket 3 4012345 (-312345) (-250) 12345 123456))).ok = true ∧
    (unpack24bitSigned 1).value
        (bufOfList (telemetryPacket 3 4012345 (-312345) (-250) 12345 123456)) = 4012345 ∧
    (unpack24bitSigned 4).value
        (bufOfList (telemetryPacket 3 4012345 (-312345) (-250) 12345 123456)) = -312345 ∧
    (unpack16bitSigned 7).value
        (bufOfList (telemetryPacket 3 4012345 (-312345) (-250) 12345 123456)) = -250 ∧
    (unpack16bit 9).value
        (bufOfList (telemetryPacket 3 4012345 (-312345) (-250) 12345 123456)) = 12345 ∧
    (unpack32bit 11).value
        (bufOfList (telemetryPacket 3 4012345 (-312345) (-250) 12345 123456)) = 123456 ∧
    ((parseTelemetryPacket 3 16 exampleOldData).value
        (bufOfList (telemetryPacket 3 4012345 (-312345) (-250) 12345 123456))).data =
      ⟨divDouble ((4012345 : Int) : ℚ) 100000, divDouble ((-312345 : Int) : ℚ) 100000,
        divFloat ((12345 : Nat) : ℚ) 10, divFloat ((-250 : Int) : ℚ) 100, 123456, true⟩ :=
  have h := telemetry_round_trip 3 4012345 (-312345) (-250) 12345 123456 exampleOldData
    (by decide) (by decide) (by decide) (by decide) (by decide) (by decide)
  ⟨by decide!, h.2.1, h.2.2.1, h.2.2.2.1, h.2.2.2.2.1, h.2.2.2.2.2.1, h.2.2.2.2.2.2.1,
    h.2.2.2.2.2.2.2⟩

/-! ## Range of the decoded telemetry -/

/-- Rounding to `double` keeps a scaled 24-bit quotient between the roundings of
the two extreme quotients. -/
theorem divDouble_scaled24_bounds (v : Int) (h1 : -8388608 ≤ v) (h2 : v ≤ 8388607) :
    divDouble (-8388608) 100000 ≤ divDouble (v : ℚ) 100000 ∧
    divDouble (v : ℚ) 100000 ≤ divDouble 8388607 100000 := by
  have hL : divDouble (-8388608) 100000 = -5902958103587057 / 70368744177664 :=
    roundBinary_values.2.2.1
  have hU : divDouble 8388607 100000 = 5902957399899615 / 70368744177664 :=
    roundBinary_values.2.2.2.1
  have q1 : (-8388608 : ℚ) ≤ v := by exact_mod_cast h1
  have q2 : (v : ℚ) ≤ 8388607 := by exact_mod_cast h2
  have hB : |(v : ℚ) / 100000| ≤ 84 := by
    rw [abs_le]
    constructor
    · rw [le_div_iff₀ (by norm_num)]
      linarith
    · rw [div_le_iff₀ (by norm_num)]
      linarith
  obtain ⟨r1, r2⟩ := roundBinary_le 53 _ 84 hB
  constructor
  · by_cases hv : v = -8388608
    · subst hv
      push_cast
      exact le_refl _
    · have q : (-8388607 : ℚ) ≤ v := by
        have : -8388607 ≤ v := by omega
        exact_mod_cast this
      have q3 : (-8388607 : ℚ) / 100000 ≤ (v : ℚ) / 100000 :=
        (div_le_div_iff_of_pos_right (by norm_num)).mpr q
      rw [hL]
      calc (-5902958103587057 / 70368744177664 : ℚ)
          ≤ -8388607 / 100000 - 84 / 2 ^ 53 := by norm_num
        _ ≤ (v : ℚ) / 100000 - 84 / 2 ^ 53 := by linarith
        _ ≤ divDouble (v : ℚ) 100000 := r1
  · by_cases hv : v = 8388607
    · subst hv
      push_cast
      exact le_refl _
    · have q : (v : ℚ) ≤ 8388606 := by
        have : v ≤ 8388606 := by omega
        exact_mod_cast this
      have q3 : (v : ℚ) / 100000 ≤ 8388606 / 100000 :=
        (div_le_div_iff_of_pos_right (by norm_num)).mpr q
      rw [hU]
      calc divDouble (v : ℚ) 100000 ≤ (v : ℚ) / 100000 + 84 / 2 ^ 53 := r2
        _ ≤ 8388606 / 100000 + 84 / 2 ^ 53 := by linarith
        _ ≤ 5902957399899615 / 70368744177664 := by norm_num

/-- Rounding to `float` keeps a scaled signed 16-bit quotient between the
roundings of the two extreme quotients. -/
theorem divFloat_scaled16_bounds (v : Int) (h1 : -32768 ≤ v) (h2 : v ≤ 32767) :
    divFloat (-32768) 100 ≤ divFloat (v : ℚ) 100 ∧
    divFloat (v : ℚ) 100 ≤ divFloat 32767 100 := by
  have hL : divFloat (-32768) 100 = -5368709 / 16384 := roundBinary_values.2.2.2.2.1
  have hU : divFloat 32767 100 = 10737091 / 32768 := roundBinary_values.2.2.2.2.2.1
  have q1 : (-32768 : ℚ) ≤ v := by exact_mod_cast h1
  have q2 : (v : ℚ) ≤ 32767 := by exact_mod_cast h2
  have hB : |(v : ℚ) / 100| ≤ 328 := by
    rw [abs_le]
    constructor
    · rw [le_div_iff₀ (by norm_num)]
      linarith
    · rw [div_le_iff₀ (by norm_num)]
      linarith
  obtain ⟨r1, r2⟩ := roundBinary_le 24 _ 328 hB
  constructor
  · by_cases hv : v = -32768
    · subst hv
      push_cast
      exact le_refl _
    · have q : (-32767 : ℚ) ≤ v := by
        have : -32767 ≤ v := by omega
        exact_mod_cast this
      have q3 : (-32767 : ℚ) / 100 ≤ (v : ℚ) / 100 :=
        (div_le_div_iff_of_pos_right (by norm_num)).mpr q
      rw [hL]
      calc (-5368709 / 16384 : ℚ) ≤ -32767 / 100 - 328 / 2 ^ 24 := by norm_num
        _ ≤ (v : ℚ) / 100 - 328 / 2 ^ 24 := by linarith
        _ ≤ divFloat (v : ℚ) 100 := r1
  · by_cases hv : v = 32767
    · subst hv
      push_cast
      exact le_refl _
    · have q : (v : ℚ) ≤ 32766 := by
        have : v ≤ 32766 := by omega
        exact_mod_cast this
      have q3 : (v : ℚ) / 100 ≤ 32766 / 100 :=
        (div_le_div_iff_of_pos_right (by norm_num)).mpr q
      rw [hU]
      calc divFloat (v : ℚ) 100 ≤ (v : ℚ) / 100 + 328 / 2 ^ 24 := r2
        _ ≤ 32766 / 100 + 328 / 2 ^ 24 := by linarith
        _ ≤ 10737091 / 32768 := by norm_num

/-- Rounding to `float` keeps a scaled unsigned 16-bit quotient between 0 and
6553.5, which is itself a `float`. -/
theorem divFloat_scaled16u_bounds (v : Nat) (h : v ≤ 65535) :
    0 ≤ divFloat (v : ℚ) 10 ∧ divFloat (v : ℚ) 10 ≤ 65535 / 10 := by
  have hU : divFloat 65535 10 = 13107 / 2 := roundBinary_values.2.2.2.2.2.2.1
  have q0 : (0 : ℚ) ≤ v := Nat.cast_nonneg v
  have q2 : (v : ℚ) ≤ 65535 := by exact_mod_cast h
  have hB : |(v : ℚ) / 10| ≤ 6554 := by
    rw [abs_le]
    constructor
    · rw [le_div_iff₀ (by norm_num)]
      linarith
    · rw [div_le_iff₀ (by norm_num)]
      linarith
  obtain ⟨_, r2⟩ := roundBinary_le 24 _ 6554 hB
  constructor
  · exact roundBinary_nonneg 24 _ (by positivity)
  · by_cases hv : v = 65535
    · subst hv
      push_cast
      rw [hU]
      norm_num
    · have q : (v : ℚ) ≤ 65534 := by
        have : v ≤ 65534 := by omega
        exact_mod_cast this
      have q3 : (v : ℚ) / 10 ≤ 65534 / 10 :=
        (div_le_div_iff_of_pos_right (by norm_num)).mpr q
      calc divFloat (v : ℚ) 10 ≤ (v : ℚ) / 10 + 6554 / 2 ^ 24 := r2
        _ ≤ 65534 / 10 + 6554 / 2 ^ 24 := by linarith
        _ ≤ 65535 / 10 := by norm_num

/-- C20, as the code has it: for a buffer accepted by `parseTelemetryPacket`,
latitude and longitude lie between the `double`s nearest to -83.88608 and to 83.88607
(-5902958103587057 / 2^46, below -83.88608, and 5902957399899615 / 2^46, above
83.88607), vertical velocity lies between the `float`s nearest to -327.68 and
to 327.67 (-5368709 / 2^14 = -327.67999267578125 and
10737091 / 2^15 = 327.670013427734375), and altitude lies in `[0, 6553.5]`; for
a 4-bit team one accepted packet attains the four lower bounds and another the
four upper bounds. -/
theorem telemetry_ranges (T : Nat) (data : TelemetryData) :
    (∀ (length : Nat) (buf : Buffer),
      ((parseTelemetryPacket T length data).value buf).ok = true →
      divDouble (-8388608) 100000 ≤ ((parseTelemetryPacket T length data).value buf).data.latitude ∧
      ((parseTelemetryPacket T length data).value buf).data.latitude ≤ divDouble 8388607 100000 ∧
      divDouble (-8388608) 100000 ≤ ((parseTelemetryPacket T length data).value buf).data.longitude ∧
      ((parseTelemetryPacket T length data).value buf).data.longitude ≤ divDouble 8388607 100000 ∧
      divFloat (-32768) 100 ≤ ((parseTelemetryPacket T length data).value buf).data.verticalVel ∧
      ((parseTelemetryPacket T length data).value buf).data.verticalVel ≤ divFloat 32767 100 ∧
      0 ≤ ((parseTelemetryPacket T length data).value buf).data.altitude ∧
      ((parseTelemetryPacket T length data).value buf).data.altitude ≤ 65535 / 10) ∧
    (divDouble (-8388608) 100000 = -5902958103587057 / 70368744177664 ∧
      divDouble 8388607 100000 = 5902957399899615 / 70368744177664 ∧
      divFloat (-32768) 100 = -5368709 / 16384 ∧
      divFloat 32767 100 = 10737091 / 32768) ∧
    (T < 16 → ∃ buf : Buffer,
      ((parseTelemetryPacket T 16 data).value buf).ok = true ∧
      ((parseTelemetryPacket T 16 data).value buf).data.latitude = divDouble (-8388608) 100000 ∧
      ((parseTelemetryPacket T 16 data).value buf).data.longitude = divDouble (-8388608) 100000 ∧
      ((parseTelemetryPacket T 16 data).value buf).data.verticalVel = divFloat (-32768) 100 ∧
      ((parseTelemetryPacket T 16 data).value buf).data.altitude = 0) ∧
    (T < 16 → ∃ buf : Buffer,
      ((parseTelemetryPacket T 16 data).value buf).ok = true ∧
      ((parseTelemetryPacket T 16 data).value buf).data.latitude = divDouble 8388607 100000 ∧
      ((parseTelemetryPacket T 16 data).value buf).data.longitude = divDouble 8388607 100000 ∧
      ((parseTelemetryPacket T 16 data).value buf).data.verticalVel = divFloat 32767 100 ∧
      ((parseTelemetryPacket T 16 data).value buf).data.altitude = 65535 / 10) := by
  refine ⟨?_, ⟨roundBinary_values.2.2.1, roundBinary_values.2.2.2.1,
    roundBinary_values.2.2.2.2.1, roundBinary_values.2.2.2.2.2.1⟩, ?_, ?_⟩
  · intro length buf h
    rw [parseTelemetryPacket_of_ok T length data buf h]
    obtain ⟨a1, a2⟩ := unpack24bitSigned_range 1 buf
    obtain ⟨b1, b2⟩ := unpack24bitSigned_range 4 buf
    obtain ⟨c1, c2⟩ := unpack16bitSigned_range 7 buf
    have d2 : (unpack16bit 9).value buf ≤ 65535 := by
      have h0 := (buf 9).isLt
      have h1 := (buf (9 + 1)).isLt
      rw [unpack16bit_value]
      omega
    have la := divDouble_scaled24_bounds _ a1 a2
    have lo := divDouble_scaled24_bounds _ b1 b2
    have ve := divFloat_scaled16_bounds _ c1 c2
    have al := divFloat_scaled16u_bounds _ d2
    exact ⟨la.1, la.2, lo.1, lo.2, ve.1, ve.2, al.1, al.2⟩
  · intro hT
    obtain ⟨hok, h1, h2, h3, h4, _⟩ :=
      telemetryPacket_decodes T (-8388608) (-8388608) (-32768) 0 0 data hT (by decide)
        (by decide) (by decide) (by decide) (by decide)
    refine ⟨_, hok, ?_⟩
    rw [parseTelemetryPacket_of_ok T 16 data _ hok]
    simp only [telemetryDecoded, h1, h2, h3, h4]
    push_cast
    exact ⟨rfl, rfl, rfl, by simp [divFloat, roundBinary]⟩
  · intro hT
    obtain ⟨hok, h1, h2, h3, h4, _⟩ := telemetryPacket_decodes T 8388607 8388607 32767 65535 0
      data hT (by decide) (by decide) (by decide) (by decide) (by decide)
    refine ⟨_, hok, ?_⟩
    rw [parseTelemetryPacket_of_ok T 16 data _ hok]
    simp only [telemetryDecoded, h1, h2, h3, h4]
    push_cast
    refine ⟨rfl, rfl, rfl, ?_⟩
    rw [show divFloat 65535 10 = 13107 / 2 from roundBinary_values.2.2.2.2.2.2.1]
    norm_num

/-- C20 at the example packet: its latitude, the `double` nearest to 40.12345,
lies within the bounds. -/
theorem telemetry_ranges_witness :
    ((parseTelemetryPacket 3 16 exampleOldData).value exampleTelemetry).ok = true ∧
    divDouble (-8388608) 100000
      ≤ ((parseTelemetryPacket 3 16 exampleOldData).value exampleTelemetry).data.latitude ∧
    ((parseTelemetryPacket 3 16 exampleOldData).value exampleTelemetry).data.latitude
      ≤ divDouble 8388607 100000 :=
  have hok : ((parseTelemetryPacket 3 16 exampleOldData).value exampleTelemetry).ok = true := by
    decide!
  ⟨hok, ((telemetry_ranges 3 exampleOldData).1 16 exampleTelemetry hok).1,
    ((telemetry_ranges 3 exampleOldData).1 16 exampleTelemetry hok).2.1⟩

/-- C20 as stated fails: the packet of team 3 built from the raw values
8388607, 8388607, 32767, 65535 is accepted, and it decodes to the latitude
5902957399899615 / 2^46 (83.886070000000003688...), above 83.88607, and to the
vertical velocity 10737091 / 2^15 (327.670013427734375), above 327.67. -/
theorem telemetry_ranges_exceeded :
    ((parseTelemetryPacket 3 16 exampleOldData).value
        (bufOfList (telemetryPacket 3 8388607 8388607 32767 65535 0))).ok = true ∧
    ((parseTelemetryPacket 3 16 exampleOldData).value
        (bufOfList (telemetryPacket 3 8388607 8388607 32767 65535 0))).data.latitude = 5902957399899615 / 70368744177664 ∧
    (8388607 : ℚ) / 100000 < ((parseTelemetryPacket 3 16 exampleOldData).value
        (bufOfList (telemetryPacket 3 8388607 8388607 32767 65535 0))).data.latitude ∧
    ((parseTelemetryPacket 3 16 exampleOldData).value
        (bufOfList (telemetryPacket 3 8388607 8388607 32767 65535 0))).data.verticalVel = 10737091 / 32768 ∧
    (32767 : ℚ) / 100 < ((parseTelemetryPacket 3 16 exampleOldData).value
        (bufOfList (telemetryPacket 3 8388607 8388607 32767 65535 0))).data.verticalVel := by
  obtain ⟨hok, h1, _, h3, _, _⟩ := telemetryPacket_decodes 3 8388607 8388607 32767 65535 0
    exampleOldData (by decide) (by decide) (by decide) (by decide) (by decide) (by decide)
  have e1 : divDouble ((8388607 : Int) : ℚ) 100000 = 5902957399899615 / 70368744177664 := by
    push_cast
    exact roundBinary_values.2.2.2.1
  have e3 : divFloat ((32767 : Int) : ℚ) 100 = 10737091 / 32768 := by
    push_cast
    exact roundBinary_values.2.2.2.2.2.1
  rw [parseTelemetryPacket_of_ok 3 16 exampleOldData _ hok]
  simp only [telemetryDecoded, h1, h3, e1, e3]
  refine ⟨trivial, trivial, ?_, trivial, ?_⟩ <;> norm_num

/-! ## Linearity of the CRC and single-bit errors -/

theorem gf2Parity_zero : gf2Parity 0 = 0 := by
  rw [gf2Parity]
  rfl

theorem gf2Parity_unfold (a : Nat) : gf2Parity a = (a % 2 + gf2Parity (a / 2)) % 2 := by
  by_cases ha : a = 0
  · subst ha
    simp [gf2Parity_zero]
  · rw [gf2Parity, if_neg ha]

theorem gf2Parity_lt (a : Nat) : gf2Parity a < 2 := by
  rw [gf2Parity_unfold]
  exact Nat.mod_lt _ (by decide)

theorem gf2Parity_double (a : Nat) : gf2Parity (2 * a) = gf2Parity a := by
  have h := gf2Parity_lt a
  rw [gf2Parity_unfold (2 * a), show 2 * a / 2 = a by omega]
  omega

theorem gf2Parity_xor : ∀ a b : Nat,
    gf2Parity (a ^^^ b) = (gf2Parity a + gf2Parity b) % 2 := by
  intro a
  induction a using Nat.strong_induction_on with
  | _ a ih =>
    intro b
    by_cases ha : a = 0
    · subst ha
      have h := gf2Parity_lt b
      rw [Nat.zero_xor, gf2Parity_zero]
      omega
    · have hrec := ih (a / 2) (by omega) (b / 2)
      have hmod : (a ^^^ b) % 2 = (a + b) % 2 := Nat.xor_mod_two_eq
      rw [gf2Parity_unfold (a ^^^ b), gf2Parity_unfold a, gf2Parity_unfold b, Nat.xor_div_two,
        hrec, hmod]
      omega

theorem gf2Parity_two_pow (k : Nat) : gf2Parity (2 ^ k) = 1 := by
  induction k with
  | zero =>
    rw [gf2Parity_unfold]
    simp [gf2Parity_zero]
  | succ k ih =>
    rw [Nat.pow_succ, Nat.mul_comm, gf2Parity_double, ih]

theorem gf2Parity_crcPoly : gf2Parity crcPoly = 0 := by
  have e : crcPoly = 2 ^ 8 ^^^ (2 ^ 2 ^^^ (2 ^ 1 ^^^ 2 ^ 0)) := by decide
  rw [e, gf2Parity_xor, gf2Parity_xor, gf2Parity_xor, gf2Parity_two_pow, gf2Parity_two_pow,
    gf2Parity_two_pow, gf2Parity_two_pow]

theorem gf2Parity_multiple : ∀ q : Nat, gf2Parity (gf2Mul q crcPoly) = 0 := by
  intro q
  induction q using Nat.strong_induction_on with
  | _ q ih =>
    by_cases hq : q = 0
    · subst hq
      rw [gf2Mul_zero, gf2Parity_zero]
    · have hrec := ih (q / 2) (by omega)
      rw [gf2Mul_unfold, gf2Parity_xor, gf2Parity_double, hrec]
      split
      · rw [gf2Parity_crcPoly]
      · rw [gf2Parity_zero]

/-- No power of `x` is a multiple of the generator. -/
theorem two_pow_ne_multiple (q k : Nat) : gf2Mul q crcPoly ≠ 2 ^ k := by
  intro h
  have h1 := gf2Parity_multiple q
  rw [h, gf2Parity_two_pow] at h1
  exact absurd h1 (by decide)

theorem Gf2Cong.xor {p a b c d : Nat} (h1 : Gf2Cong p a b) (h2 : Gf2Cong p c d) :
    Gf2Cong p (a ^^^ c) (b ^^^ d) := by
  have h3 := h1.xor_right c
  have h4 := h2.xor_right b
  rw [Nat.xor_comm c b, Nat.xor_comm d b] at h4
  exact h3.trans h4

theorem bigEndian_cons (x : Byte) (l : List Byte) :
    bigEndian (x :: l) = x.val * 2 ^ (8 * l.length) + bigEndian l := by
  have gen : ∀ (l : List Byte) (acc : Nat),
      l.foldl (fun acc b => acc * 256 + b.val) acc =
        acc * 2 ^ (8 * l.length) + l.foldl (fun acc b => acc * 256 + b.val) 0 := by
    intro l
    induction l with
    | nil => intro acc; simp
    | cons y l ih =>
      intro acc
      rw [List.foldl_cons, List.foldl_cons, ih (acc * 256 + y.val), ih (0 * 256 + y.val),
        List.length_cons, show 8 * (l.length + 1) = 8 * l.length + 8 by omega, Nat.pow_add]
      ring
  unfold bigEndian
  rw [List.foldl_cons, gen l (0 * 256 + x.val)]
  simp

theorem bigEndian_lt (l : List Byte) : bigEndian l < 2 ^ (8 * l.length) := by
  induction l with
  | nil => simp [bigEndian]
  | cons x l ih =>
    have hx := x.isLt
    rw [bigEndian_cons, List.length_cons, show 8 * (l.length + 1) = 8 + 8 * l.length by omega,
      Nat.pow_add]
    have hpos : 0 < 2 ^ (8 * l.length) := Nat.two_pow_pos _
    have h1 : (x.val + 1) * 2 ^ (8 * l.length) ≤ 2 ^ 8 * 2 ^ (8 * l.length) :=
      Nat.mul_le_mul_right _ (by omega)
    rw [Nat.add_mul] at h1
    omega

theorem bigEndian_cons_xor (x : Byte) (l : List Byte) :
    bigEndian (x :: l) = x.val * 2 ^ (8 * l.length) ^^^ bigEndian l := by
  rw [bigEndian_cons, mul_add_eq_xor _ _ _ (bigEndian_lt l)]

theorem bigEndian_xorBytes : ∀ a b : List Byte, a.length = b.length →
    bigEndian (xorBytes a b) = bigEndian a ^^^ bigEndian b := by
  intro a
  induction a with
  | nil =>
    intro b hb
    cases b with
    | nil => rfl
    | cons y b => simp at hb
  | cons x a ih =>
    intro b hb
    cases b with
    | nil => simp at hb
    | cons y b =>
      have hlen : a.length = b.length := by simpa using hb
      have hxl : (xorBytes a b).length = a.length := by
        simp [xorBytes, hlen]
      have e : xorBytes (x :: a) (y :: b) = byteXor x y :: xorBytes a b := rfl
      rw [e, bigEndian_cons_xor, bigEndian_cons_xor, bigEndian_cons_xor, ih b hlen, hxl, ← hlen]
      show (x.val ^^^ y.val) * 2 ^ (8 * a.length) ^^^ (bigEndian a ^^^ bigEndian b) = _
      rw [mul_two_pow_xor]
      ac_rfl

theorem byteOf_two_pow (k : Nat) (hk : k < 8) : (byteOf (2 ^ k)).val = 2 ^ k := by
  have h : 2 ^ k < 2 ^ 8 := Nat.pow_lt_pow_right (by decide) hk
  show 2 ^ k % 256 = 2 ^ k
  exact Nat.mod_eq_of_lt h

theorem flipBit_length (b : List Byte) (i k : Nat) : (flipBit b i k).length = b.length := by
  simp [flipBit]

theorem bigEndian_flipBit : ∀ (b : List Byte) (i k : Nat), i < b.length → k < 8 →
    bigEndian (flipBit b i k) = bigEndian b ^^^ 2 ^ (8 * (b.length - 1 - i) + k) := by
  intro b
  induction b with
  | nil => intro i k hi; simp at hi
  | cons x b ih =>
    intro i k hi hk
    cases i with
    | zero =>
      have e : flipBit (x :: b) 0 k = byteXor x (byteOf (2 ^ k)) :: b := rfl
      rw [e, bigEndian_cons_xor, bigEndian_cons_xor]
      show (x.val ^^^ (byteOf (2 ^ k)).val) * 2 ^ (8 * b.length) ^^^ bigEndian b = _
      rw [byteOf_two_pow k hk, mul_two_pow_xor, ← Nat.pow_add, List.length_cons,
        show 8 * (b.length + 1 - 1 - 0) + k = k + 8 * b.length by omega]
      ac_rfl
    | succ i =>
      have hi2 : i < b.length := by simpa using hi
      have e : flipBit (x :: b) (i + 1) k = x :: flipBit b i k := rfl
      rw [e, bigEndian_cons_xor, bigEndian_cons_xor, flipBit_length, ih i k hi2 hk,
        List.length_cons, show b.length + 1 - 1 - (i + 1) = b.length - 1 - i by omega,
        Nat.xor_assoc]

theorem crc8_xorBytes (a b : List Byte) (h : a.length = b.length) :
    crc8 (xorBytes a b) = crc8 a ^^^ crc8 b := by
  have h1 := crc8_cong (xorBytes a b)
  rw [bigEndian_xorBytes a b h, mul_two_pow_xor] at h1
  have h2 := (crc8_cong a).xor (crc8_cong b)
  have hlt : crc8 a ^^^ crc8 b < 256 :=
    Nat.xor_lt_two_pow (n := 8) (crc8_lt a) (crc8_lt b)
  exact (h1.trans h2.symm).eq_of_lt (crc8_lt _) hlt

theorem crc8_flipBit_ne (b : List Byte) (i k : Nat) (hi : i < b.length) (hk : k < 8) :
    crc8 (flipBit b i k) ≠ crc8 b := by
  intro heq
  have h1 := crc8_cong (flipBit b i k)
  rw [bigEndian_flipBit b i k hi hk, mul_two_pow_xor, heq, ← Nat.pow_add] at h1
  obtain ⟨q, hq⟩ := (crc8_cong b).symm.trans h1
  rw [Nat.xor_cancel_left] at hq
  exact two_pow_ne_multiple q _ hq.symm

/-- C19: `calculateCRC8` detects every single-bit error at every length: flipping
one bit of a byte sequence changes its CRC; and for sequences of equal length
the CRC of the bytewise exclusive or is the exclusive or of the CRCs. -/
theorem crc8_single_bit_and_linear :
    (∀ (b : List Byte) (i k : Nat), i < b.length → k < 8 →
      crc8 (flipBit b i k) ≠ crc8 b) ∧
    (∀ a b : List Byte, a.length = b.length →
      crc8 (xorBytes a b) = crc8 a ^^^ crc8 b) :=
  ⟨crc8_flipBit_ne, crc8_xorBytes⟩

/-- C19 at a concrete sequence: "123456789" with bit 3 of its fifth byte flipped
("5" becomes "=") no longer has CRC `0xF4`. -/
theorem crc8_single_bit_and_linear_witness :
    flipBit [0x31, 0x32, 0x33, 0x34, 0x35, 0x36, 0x37, 0x38, 0x39] 4 3
      = [0x31, 0x32, 0x33, 0x34, 0x3D, 0x36, 0x37, 0x38, 0x39] ∧
    crc8 (flipBit [0x31, 0x32, 0x33, 0x34, 0x35, 0x36, 0x37, 0x38, 0x39] 4 3)
      ≠ crc8 [0x31, 0x32, 0x33, 0x34, 0x35, 0x36, 0x37, 0x38, 0x39] :=
  ⟨by decide, crc8_single_bit_and_linear.1 [0x31, 0x32, 0x33, 0x34, 0x35, 0x36, 0x37, 0x38, 0x39]
    4 3 (by decide) (by decide)⟩

/-! ## Single-bit errors in a telemetry packet -/

theorem bufTake_length (buf : Buffer) (n : Nat) : (bufTake buf n).length = n := by
  simp [bufTake]

theorem bufTake_flipBufferBit (buf : Buffer) (n i k : Nat) (hi : i < n) :
    bufTake (flipBufferBit buf i k) n = flipBit (bufTake buf n) i k := by
  apply List.ext_getElem
  · rw [flipBit_length, bufTake_length, bufTake_length]
  · intro j h1 h2
    have hj : j < n := by simpa [bufTake] using h1
    have hget : (bufTake buf n).getD i 0 = buf i := by
      simp [bufTake, List.getD_eq_getElem?_getD, List.getElem?_eq_getElem, hi]
    simp only [flipBit, hget]
    simp only [List.getElem_set, bufTake, List.getElem_map, List.getElem_range, flipBufferBit,
      Function.update_apply]
    by_cases hji : j = i
    · rw [if_pos hji, if_pos hji.symm]
    · rw [if_neg hji, if_neg (fun h => hji h.symm)]

theorem parseTelemetryPacket_diag (T length : Nat) (data : TelemetryData) (buf : Buffer) :
    ((parseTelemetryPacket T length data).value buf).diag =
      (if length < 16 then some Reject.TooShort
       else if (buf 0).val &&& 0xF0 ≠ 0xA0 then some Reject.WrongType
       else if (buf 0).val &&& 0x0F ≠ T then some Reject.WrongTeam
       else if (calculateCRC8 15).value buf ≠ (buf 15).val then some Reject.ChecksumMismatch
       else none) := by
  rw [parseTelemetryPacket_value]
  split_ifs <;> first | rfl | (exfalso; omega)

theorem parseTelemetryPacket_ok_iff (T length : Nat) (data : TelemetryData) (buf : Buffer) :
    ((parseTelemetryPacket T length data).value buf).ok = true ↔
      16 ≤ length ∧ (buf 0).val &&& 0xF0 = 0xA0 ∧ (buf 0).val &&& 0x0F = T ∧
        (calculateCRC8 15).value buf = (buf 15).val := by
  rw [parseTelemetryPacket_value]
  split_ifs with h1 h2 h3 h4
  · simp; omega
  · simp; intro _ h; exact absurd h h2
  · simp; intro _ _ h; exact absurd h h3
  · simp; intro _ _ _ h; exact absurd h.symm h4
  · simp only [true_iff]
    exact ⟨by omega, not_not.mp h2, not_not.mp h3, (not_not.mp h4).symm⟩

theorem parseTelemetryPacket_ok_of_diag (T length : Nat) (data : TelemetryData) (buf : Buffer)
    (h : ((parseTelemetryPacket T length data).value buf).diag ≠ none) :
    ((parseTelemetryPacket T length data).value buf).ok = false := by
  rw [parseTelemetryPacket_value] at h ⊢
  split_ifs at h ⊢ <;> first | rfl | exact absurd rfl h

theorem flip_header_nibbles :
    ∀ (x : Fin 256) (k : Fin 8),
      (4 ≤ k.val → (x.val ^^^ 2 ^ k.val % 256) &&& 0xF0 ≠ x.val &&& 0xF0) ∧
      (k.val < 4 → (x.val ^^^ 2 ^ k.val % 256) &&& 0xF0 = x.val &&& 0xF0 ∧
        (x.val ^^^ 2 ^ k.val % 256) &&& 0x0F ≠ x.val &&& 0x0F) := by
  decide!

theorem flipBufferBit_same (buf : Buffer) (i k : Nat) :
    (flipBufferBit buf i k i).val = (buf i).val ^^^ 2 ^ k % 256 := by
  simp [flipBufferBit, byteXor, byteOf]

theorem flipBufferBit_other (buf : Buffer) (i k j : Nat) (h : j ≠ i) :
    flipBufferBit buf i k j = buf j := by
  simp [flipBufferBit, Function.update_apply, h]

/-- C13, as the code has it: in a packet accepted by `parseTelemetryPacket`,
flipping any single bit of bytes 0..14 makes the decoder reject it: with
ChecksumMismatch for a bit of bytes 1..14, with WrongType for bits 4..7 of
byte 0, and with WrongTeam for bits 0..3 of byte 0. -/
theorem telemetry_single_bit_flip (T length : Nat) (data : TelemetryData) (buf : Buffer)
    (i k : Nat) (h : ((parseTelemetryPacket T length data).value buf).ok = true)
    (hi : i < 15) (hk : k < 8) :
    ((parseTelemetryPacket T length data).value (flipBufferBit buf i k)).ok = false ∧
    (1 ≤ i → ((parseTelemetryPacket T length data).value (flipBufferBit buf i k)).diag
      = some Reject.ChecksumMismatch) ∧
    (i = 0 → 4 ≤ k → ((parseTelemetryPacket T length data).value (flipBufferBit buf i k)).diag
      = some Reject.WrongType) ∧
    (i = 0 → k < 4 → ((parseTelemetryPacket T length data).value (flipBufferBit buf i k)).diag
      = some Reject.WrongTeam) := by
  have hdiag2 := parseTelemetryPacket_diag T length data (flipBufferBit buf i k)
  obtain ⟨hlen, hty, hteam, hcrc⟩ := (parseTelemetryPacket_ok_iff T length data buf).mp h
  have key : (1 ≤ i → ((parseTelemetryPacket T length data).value (flipBufferBit buf i k)).diag
        = some Reject.ChecksumMismatch) ∧
      (i = 0 → 4 ≤ k →
        ((parseTelemetryPacket T length data).value (flipBufferBit buf i k)).diag
          = some Reject.WrongType) ∧
      (i = 0 → k < 4 → ((parseTelemetryPacket T length data).value (flipBufferBit buf i k)).diag
        = some Reject.WrongTeam) := by
    refine ⟨fun h1 => ?_, fun h0 h4 => ?_, fun h0 h4 => ?_⟩
    · have e0 : flipBufferBit buf i k 0 = buf 0 := flipBufferBit_other buf i k 0 (by omega)
      have e15 : flipBufferBit buf i k 15 = buf 15 := flipBufferBit_other buf i k 15 (by omega)
      have hne : (calculateCRC8 15).value (flipBufferBit buf i k) ≠ (buf 15).val := by
        rw [← hcrc, calculateCRC8_value, calculateCRC8_value, bufTake_flipBufferBit buf 15 i k hi,
          ← crc8_eq_crcFold, ← crc8_eq_crcFold]
        exact crc8_flipBit_ne _ i k (by rw [bufTake_length]; exact hi) hk
      rw [hdiag2, e0, e15, if_neg (by omega), if_neg (not_not.mpr hty),
        if_neg (not_not.mpr hteam), if_pos hne]
    · subst h0
      have hn := ((flip_header_nibbles (buf 0) ⟨k, hk⟩).1 h4)
      rw [hdiag2, flipBufferBit_same, if_neg (by omega), if_pos (by rw [← hty]; exact hn)]
    · subst h0
      obtain ⟨hn1, hn2⟩ := (flip_header_nibbles (buf 0) ⟨k, hk⟩).2 h4
      rw [hdiag2, flipBufferBit_same, if_neg (by omega),
        if_neg (by rw [hn1]; exact not_not.mpr hty), if_pos (by rw [← hteam]; exact hn2)]
  refine ⟨?_, key⟩
  have hnone : ((parseTelemetryPacket T length data).value (flipBufferBit buf i k)).diag
      ≠ none := by
    by_cases h1 : 1 ≤ i
    · rw [key.1 h1]; exact Option.some_ne_none _
    · have h0 : i = 0 := by omega
      by_cases h4 : 4 ≤ k
      · rw [key.2.1 h0 h4]; exact Option.some_ne_none _
      · rw [key.2.2 h0 (by omega)]; exact Option.some_ne_none _
  exact parseTelemetryPacket_ok_of_diag T length data _ hnone

/-- C13 at the example packet: flipping bit 5 of byte 9 gives ChecksumMismatch. -/
theorem telemetry_single_bit_flip_witness :
    ((parseTelemetryPacket 3 16 exampleOldData).value exampleTelemetry).ok = true ∧
    ((parseTelemetryPacket 3 16 exampleOldData).value
      (flipBufferBit exampleTelemetry 9 5)).diag = some Reject.ChecksumMismatch :=
  have hok : ((parseTelemetryPacket 3 16 exampleOldData).value exampleTelemetry).ok = true := by
    decide!
  ⟨hok, (telemetry_single_bit_flip 3 16 exampleOldData exampleTelemetry 9 5 hok (by decide)
    (by decide)).2.1 (by decide)⟩

/-- C13 as stated fails: the example packet is accepted, and with bit 0 of its
byte 0 flipped (a bit of the payload before the checksum byte) it is rejected
with WrongTeam, not with ChecksumMismatch. -/
theorem telemetry_header_flip_not_checksum :
    ((parseTelemetryPacket 3 16 exampleOldData).value exampleTelemetry).ok = true ∧
    ((parseTelemetryPacket 3 16 exampleOldData).value
      (flipBufferBit exampleTelemetry 0 0)).diag = some Reject.WrongTeam ∧
    ((parseTelemetryPacket 3 16 exampleOldData).value
      (flipBufferBit exampleTelemetry 0 0)).diag ≠ some Reject.ChecksumMismatch := by
  have h : ((parseTelemetryPacket 3 16 exampleOldData).value
      (flipBufferBit exampleTelemetry 0 0)).diag = some Reject.WrongTeam := by decide!
  exact ⟨by decide!, h, by rw [h]; decide⟩

end Houston
